import Mathlib

/-!
# DSView sampling bar: duration ladder, rate/count synchronizer, run/stop control

Shallow embedding of `DSView/pv/toolbars/samplingbar.cpp`.

Modelling conventions
* C++ `double` values are modelled as exact rationals (`ℚ`); inputs on which the
  C++ code would produce an infinity or a NaN (a zero sample rate or a zero
  duration used as a divisor) are excluded by hypotheses of the theorems.
* `uint64_t` values are natural numbers; the one 64-bit product that can wrap
  (`sample_limit * SR_SEC(1)`) is reduced modulo `2^64`.
* A `QComboBox` is the list of its item data plus a current index (`-1` when
  there is no current item).
* Calls that leave the class (device writes, session calls, emitted signals)
  are appended to an event trace, in program order.
* A slot connected to `currentIndexChanged` runs inside `setCurrentIndex` when
  the index changes and the connection is in place (`set_rate_index`,
  `set_count_index`).
* `fuel` bounds the iterations of the ladder loop; entering the slot
  `on_samplecount_sel` costs one unit of it, which bounds the nesting of the
  calls that slot starts.
* `zero_adj` and `on_run_stop` call each other; every run of `zero_adj` uses up
  one `Wait`, the record of what the waiting dialog and the surroundings did.
* Dereferencing an absent device and running out of fuel are the two faults of
  the `Except` monad.
-/

namespace DSView

/-! ## Time and size units -/

/-- Modelled from the spec: the time-unit macro `SR_NS` of the device library
header; durations are counted in nanoseconds. -/
def SR_NS (n : ℕ) : ℕ := n

/-- Modelled from the spec: the time-unit macro `SR_SEC` of the device library
header (one second is `10^9` nanoseconds). -/
def SR_SEC (n : ℕ) : ℕ := n * 1000000000

/-- Modelled from the spec: the time-unit macro `SR_MIN` of the device library
header. -/
def SR_MIN (n : ℕ) : ℕ := n * 60000000000

/-- Modelled from the spec: the time-unit macro `SR_HOUR` of the device library
header. -/
def SR_HOUR (n : ℕ) : ℕ := n * 3600000000000

/-- Modelled from the spec: the time-unit macro `SR_DAY` of the device library
header. -/
def SR_DAY (n : ℕ) : ℕ := n * 86400000000000

/-- Modelled from the spec: the size macro `SR_KB` of the device library header
(`SR_KB(1)` is the 1024-sample floor). -/
def SR_KB (n : ℕ) : ℕ := n * 1024

/-- Modelled from the spec: the constant `DS_CONF_DSO_HDIVS` of the device
library header, the number of horizontal divisions (10). -/
def DS_CONF_DSO_HDIVS : ℕ := 10

/-! ## Decade stepping (body of the `do ... while` loop, lines 487-508) -/

/-- The `unit` chosen at lines 487-495. -/
def timeUnit (duration : ℚ) : ℚ :=
  if duration ≥ (SR_DAY 1 : ℕ) then (SR_DAY 1 : ℕ)
  else if duration ≥ (SR_HOUR 1 : ℕ) then (SR_HOUR 1 : ℕ)
  else if duration ≥ (SR_MIN 1 : ℕ) then (SR_MIN 1 : ℕ)
  else 1

/-- The value `pow(10, floor(log10(x)))` of lines 496-497: the largest power of
ten not exceeding `x`; for `x = 0` the C library yields `pow(10, -inf) = 0`. -/
def pow10FloorLog10 (x : ℚ) : ℚ :=
  if 0 < x then (10 : ℚ) ^ (Int.log 10 x) else 0

/-- The next, smaller duration computed by lines 487-508. -/
def nextDuration (duration : ℚ) : ℚ :=
  let unit := timeUnit duration
  let log10_duration := pow10FloorLog10 (duration / unit)
  if duration > 5 * log10_duration * unit then 5 * log10_duration * unit
  else if duration > 2 * log10_duration * unit then 2 * log10_duration * unit
  else if duration > log10_duration * unit then log10_duration * unit
  else if log10_duration > 1 then duration * (1 / 2)
  else if unit = (SR_DAY 1 : ℕ) then (SR_HOUR 20 : ℕ)
  else if unit = (SR_HOUR 1 : ℕ) then (SR_MIN 50 : ℕ)
  else if unit = (SR_MIN 1 : ℕ) then (SR_SEC 50 : ℕ)
  else duration * (1 / 2)

/-- Device modes. -/
inductive DevMode
  | LOGIC
  | DSO
  | ANALOG
  deriving DecidableEq, Repr

/-- The loop condition `not_last` of lines 510-513, evaluated on the freshly
computed next duration. -/
def notLast (mode : DevMode) (samplerate : ℕ) (duration : ℚ) : Bool :=
  if mode = DevMode.DSO then decide (duration ≥ (SR_NS 10 : ℕ))
  else decide (duration / (SR_SEC 1 : ℕ) * (samplerate : ℚ) ≥ (SR_KB 1 : ℕ))

/-- The `do ... while (not_last)` loop of lines 480-514: the item data appended
to the emptied selector, in order.  `none` means the fuel ran out. -/
def ladderLoop (mode : DevMode) (samplerate : ℕ) : ℕ → ℚ → Option (List ℚ)
  | 0, _ => none
  | fuel + 1, duration =>
    if notLast mode samplerate (nextDuration duration) then
      (ladderLoop mode samplerate fuel (nextDuration duration)).map (fun l => duration :: l)
    else some [duration]

/-! ## Combo boxes -/

/-- A `QComboBox`, reduced to its item data and its current index. -/
structure ComboBox (α : Type) where
  items : List α
  currentIndex : ℤ

namespace ComboBox

variable {α : Type}

/-- `QComboBox::count`. -/
def count (c : ComboBox α) : ℤ := c.items.length

/-- `itemData(i).value<T>()`: the item data, or the zero value of an invalid
variant when `i` is not an index of the box. -/
def itemData [Zero α] (c : ComboBox α) (i : ℤ) : α :=
  if 0 ≤ i then c.items.getD i.toNat 0 else 0

/-- `QComboBox::clear`. -/
def clear (_c : ComboBox α) : ComboBox α := ⟨[], -1⟩

/-- `QComboBox::addItem`: the first item put into an empty box becomes current. -/
def addItem (c : ComboBox α) (x : α) : ComboBox α :=
  ⟨c.items ++ [x], if c.items.length = 0 ∧ c.currentIndex < 0 then 0 else c.currentIndex⟩

/-- `QComboBox::setCurrentIndex`: an index outside the box leaves no current item. -/
def setCurrentIndex (c : ComboBox α) (i : ℤ) : ComboBox α :=
  ⟨c.items, if 0 ≤ i ∧ i < c.count then i else -1⟩

end ComboBox

/-- The loop `for (i = 0; i < count; i++) if (p i) { ...; break; }`: the first
index that passes, scanning `remaining` indices upward from `i`. -/
def scanUp (p : ℕ → Bool) : ℕ → ℕ → Option ℕ
  | 0, _ => none
  | remaining + 1, i => if p i then some i else scanUp p remaining (i + 1)

/-- The loop `for (i = count - 1; i >= 0; i--) if (p i) { ...; break; }`: the
first index that passes, scanning downward from `count - 1`. -/
def scanDown (p : ℕ → Bool) : ℕ → Option ℕ
  | 0 => none
  | i + 1 => if p i then some i else scanDown p i

/-! ## Device, session and toolbar state -/

/-- A value written with `set_config`. -/
inductive ConfigWrite
  | SAMPLERATE (v : ℕ)
  | LIMIT_SAMPLES (v : ℕ)
  | RLE (b : Bool)
  | TIMEBASE (v : ℕ)
  | ZERO (b : Bool)
  deriving DecidableEq, Repr

/-- The selected device: its mode and the configuration keys this file reads.
A key whose `get_config` yields `NULL` is `none`. -/
structure DevInst where
  mode : DevMode
  stream : Option Bool
  hw_depth : Option ℕ
  timebase : Option ℕ
  max_dso_samplerate : Option ℕ
  wait_upload : Option Bool
  zero : Option Bool
  samplerates : Option (Option (List ℕ))
  sample_rate : ℕ
  sample_limit : ℕ
  rle : Bool

/-- Modelled from the spec: `DevInst::set_config` of the device layer, a
key-value store (the capability query interface is read/write by key). -/
def DevInst.set_config (d : DevInst) : ConfigWrite → DevInst
  | ConfigWrite.SAMPLERATE v => { d with sample_rate := v }
  | ConfigWrite.LIMIT_SAMPLES v => { d with sample_limit := v }
  | ConfigWrite.RLE b => { d with rle := b }
  | ConfigWrite.TIMEBASE v => { d with timebase := some v }
  | ConfigWrite.ZERO b => { d with zero := some b }

/-- `SigSession::run_mode`. -/
inductive RunMode
  | Single
  | Repetitive
  deriving DecidableEq, Repr

/-- `SigSession::capture_state`. -/
inductive CaptureState
  | Init
  | Stopped
  | Running
  deriving DecidableEq, Repr

/-- The part of `SigSession` this file reads. -/
structure SigSession where
  capture_state : CaptureState
  run_mode : RunMode
  repeating : Bool
  ch_num_logic : ℤ
  ch_num_dso : ℕ

/-- Calls that leave the class, and emitted signals. -/
inductive Event
  | set_config (w : ConfigWrite)
  | set_repeating (b : Bool)
  | stop_capture
  | capture_state_changed_Stopped
  | refresh
  | set_cur_samplerate (v : ℕ)
  | sample_count_changed
  | run_stop
  | instant_stop
  | calibration_dialog
  | dso_set_enable
  | waiting_dialog
  | dso_commit_settings
  deriving DecidableEq, Repr

/-- Constants of the class header and of the build, and the label test of
`commit_settings`; none of them is defined in this file. -/
structure Env where
  arch64 : Bool
  LogicMaxSWDepth64 : ℕ
  LogicMaxSWDepth32 : ℕ
  AnalogMaxSWDepth : ℕ
  labelHasRLE : ℚ → Bool

/-- The members of `SamplingBar` the modelled functions read or write. -/
structure SamplingBar where
  sample_count : ComboBox ℚ
  sample_rate : ComboBox ℕ
  updating_sample_rate : Bool
  updating_sample_count : Bool
  samplerate_sel_connected : Bool
  samplecount_sel_connected : Bool
  sampling : Bool
  instant : Bool
  run_stop_enabled : Bool
  instant_enabled : Bool
  session : SigSession
  device : Option DevInst
  trace : List Event

/-- The ways a modelled call can fail to return. -/
inductive Fault
  | null_device
  | out_of_fuel
  deriving DecidableEq, Repr

/-- Append an event to the trace. -/
def SamplingBar.log (s : SamplingBar) (e : Event) : SamplingBar :=
  { s with trace := s.trace ++ [e] }

/-- `dev_inst->set_config(NULL, NULL, key, value)` on the selected device. -/
def SamplingBar.set_config (s : SamplingBar) (w : ConfigWrite) : SamplingBar :=
  match s.device with
  | none => s
  | some d => { s with device := some (d.set_config w), trace := s.trace ++ [Event.set_config w] }

/-- `get_selected_device()` followed by `->`. -/
def SamplingBar.deref_device (s : SamplingBar) : Except Fault DevInst :=
  match s.device with
  | none => Except.error Fault.null_device
  | some d => Except.ok d

/-- Lines 810-813. -/
def enable_run_stop (enable : Bool) (s : SamplingBar) : SamplingBar :=
  { s with run_stop_enabled := enable }

/-- Lines 815-818. -/
def enable_instant (enable : Bool) (s : SamplingBar) : SamplingBar :=
  { s with instant_enabled := enable }

/-! ## The synchronizer -/

/-- The `sample_count` computed at lines 637-642. -/
def commit_sample_count (s : SamplingBar) : ℕ :=
  ⌈s.sample_count.itemData s.sample_count.currentIndex / (SR_SEC 1 : ℕ) *
    (s.sample_rate.itemData s.sample_rate.currentIndex : ℚ)⌉₊

/-- `SamplingBar::commit_settings`, lines 635-662. -/
def commit_settings (env : Env) (s : SamplingBar) : SamplingBar :=
  let sample_duration := s.sample_count.itemData s.sample_count.currentIndex
  let sample_rate := s.sample_rate.itemData s.sample_rate.currentIndex
  let sample_count := commit_sample_count s
  match s.device with
  | none => s
  | some dev =>
    let s1 := if sample_rate ≠ dev.sample_rate then
      s.set_config (ConfigWrite.SAMPLERATE sample_rate) else s
    if dev.mode ≠ DevMode.DSO then
      let s2 := if sample_count ≠ dev.sample_limit then
        s1.set_config (ConfigWrite.LIMIT_SAMPLES sample_count) else s1
      let rle_mode := decide (0 ≤ s.sample_count.currentIndex) && env.labelHasRLE sample_duration
      s2.set_config (ConfigWrite.RLE rle_mode)
    else s1

/-- The re-selection of lines 556-565 on a selector whose signal is
disconnected, as inside `update_sample_count_selector`: move to the entry
equal to `hori_res` when the current entry differs from it. -/
def select_hori_res (hori_res : ℚ) (box : ComboBox ℚ) : ComboBox ℚ :=
  if hori_res ≠ box.itemData box.currentIndex then
    match scanDown (fun i => decide (hori_res = box.itemData i)) box.count.toNat with
    | some i => box.setCurrentIndex i
    | none => box
  else box

/-- The software depth selected at lines 453-465. -/
def sw_depth (env : Env) (mode : DevMode) (ch_num : ℤ) : ℕ :=
  if mode = DevMode.LOGIC then
    if env.arch64 then env.LogicMaxSWDepth64
    else if ch_num ≤ 0 then env.LogicMaxSWDepth32
    else env.LogicMaxSWDepth32 / ch_num.toNat
  else env.AnalogMaxSWDepth

/-- The start value computed at lines 473-478. -/
def startDuration (env : Env) (dev : DevInst) (ch_num : ℤ) (samplerate : ℕ) : ℚ :=
  if dev.mode = DevMode.DSO then (SR_SEC 10 : ℕ)
  else if dev.stream.getD false then
    (sw_depth env dev.mode ch_num : ℚ) / ((samplerate : ℚ) * (1 / (SR_SEC 1 : ℕ)))
  else (dev.hw_depth.getD 0 : ℚ) / ((samplerate : ℚ) * (1 / (SR_SEC 1 : ℕ)))

/-- The re-selection of lines 516-529 on the refilled selector. -/
def resnap (pre_duration : ℚ) (box : ComboBox ℚ) : ComboBox ℚ × Bool :=
  if pre_duration > box.itemData 0 then (box.setCurrentIndex 0, false)
  else if pre_duration < box.itemData (box.count - 1) then
    (box.setCurrentIndex (box.count - 1), false)
  else
    match scanUp (fun i => decide (pre_duration ≥ box.itemData i)) box.count.toNat 0 with
    | some i => (box.setCurrentIndex i, true)
    | none => (box, true)

/-- The rate computed at lines 621-624. -/
def dso_sample_rate (sample_limit : ℕ) (hori_res : ℚ) (max_sample_rate ch_num : ℕ) : ℕ :=
  min ⌊(((sample_limit * SR_SEC 1) % 2 ^ 64 : ℕ) : ℚ) / (hori_res * (DS_CONF_DSO_HDIVS : ℕ))⌋₊
    (max_sample_rate / (if ch_num ≠ 0 then ch_num else 1))

mutual

/-- `SamplingBar::update_sample_count_selector_value`, lines 538-568. -/
def update_sample_count_selector_value (env : Env) (fuel : ℕ) (s : SamplingBar) :
    Except Fault SamplingBar :=
  if s.updating_sample_count then Except.ok s
  else do
    let dev ← s.deref_device
    match dev.timebase with
    | none => Except.ok s
    | some tb =>
      let hori_res : ℚ := (tb : ℚ)
      let s1 := { s with updating_sample_count := true }
      let s2 ←
        if hori_res ≠ s1.sample_count.itemData s1.sample_count.currentIndex then
          match scanDown (fun i => decide (hori_res = s1.sample_count.itemData i))
              s1.sample_count.count.toNat with
          | some i => set_count_index env fuel i s1
          | none => Except.ok s1
        else Except.ok s1
      Except.ok { s2 with updating_sample_count := false }
termination_by (fuel, 2)

/-- `_sample_count.setCurrentIndex(i)`: the connected slot `on_samplecount_sel`
runs when the current index changes. -/
def set_count_index (env : Env) (fuel : ℕ) (i : ℤ) (s : SamplingBar) :
    Except Fault SamplingBar :=
  let s1 := { s with sample_count := s.sample_count.setCurrentIndex i }
  if s1.sample_count.currentIndex ≠ s.sample_count.currentIndex ∧
      s.samplecount_sel_connected then
    on_samplecount_sel env fuel s1
  else Except.ok s1
termination_by (fuel, 1)

/-- `SamplingBar::on_samplecount_sel`, lines 570-578; each run costs one unit of
fuel. -/
def on_samplecount_sel (env : Env) (fuel : ℕ) (s : SamplingBar) : Except Fault SamplingBar :=
  match fuel with
  | 0 => Except.error Fault.out_of_fuel
  | depth + 1 => do
    let dev ← s.deref_device
    if dev.mode = DevMode.DSO then do
      let r ← commit_hori_res env depth s
      Except.ok r.1
    else Except.ok (s.log Event.sample_count_changed)
termination_by (fuel, 0)

/-- `SamplingBar::commit_hori_res`, lines 601-633; the second component is the
returned value. -/
def commit_hori_res (env : Env) (fuel : ℕ) (s : SamplingBar) :
    Except Fault (SamplingBar × ℚ) := do
  let hori_res := s.sample_count.itemData s.sample_count.currentIndex
  let s1 := if s.session.capture_state = CaptureState.Running then s.log Event.refresh else s
  let dev ← s1.deref_device
  let sample_limit := dev.sample_limit
  match dev.max_dso_samplerate with
  | none => Except.ok (s1, -1)
  | some max_sample_rate =>
    let sample_rate := dso_sample_rate sample_limit hori_res max_sample_rate s.session.ch_num_dso
    let s2 ← set_sample_rate env fuel sample_rate s1
    let dev2 ← s2.deref_device
    let s3 := if s2.session.capture_state ≠ CaptureState.Stopped then
      s2.log (Event.set_cur_samplerate dev2.sample_rate) else s2
    Except.ok (s3.set_config (ConfigWrite.TIMEBASE ⌊hori_res⌋₊), hori_res)
termination_by (fuel, 7)

/-- `SamplingBar::set_sample_rate`, lines 321-332. -/
def set_sample_rate (env : Env) (fuel : ℕ) (sample_rate : ℕ) (s : SamplingBar) :
    Except Fault SamplingBar := do
  let s1 ←
    match scanDown (fun i => decide (sample_rate ≥ s.sample_rate.itemData i))
        s.sample_rate.count.toNat with
    | some i => set_rate_index env fuel i s
    | none => Except.ok s
  Except.ok (commit_settings env s1)
termination_by (fuel, 6)

/-- `_sample_rate.setCurrentIndex(i)`: the connected slot `on_samplerate_sel`
runs when the current index changes. -/
def set_rate_index (env : Env) (fuel : ℕ) (i : ℤ) (s : SamplingBar) : Except Fault SamplingBar :=
  let s1 := { s with sample_rate := s.sample_rate.setCurrentIndex i }
  if s1.sample_rate.currentIndex ≠ s.sample_rate.currentIndex ∧ s.samplerate_sel_connected then
    on_samplerate_sel env fuel s1
  else Except.ok s1
termination_by (fuel, 5)

/-- `SamplingBar::on_samplerate_sel`, lines 416-422. -/
def on_samplerate_sel (env : Env) (fuel : ℕ) (s : SamplingBar) : Except Fault SamplingBar := do
  let dev ← s.deref_device
  if dev.mode ≠ DevMode.DSO then update_sample_count_selector env fuel s
  else Except.ok s
termination_by (fuel, 4)

/-- `SamplingBar::update_sample_count_selector`, lines 424-536. -/
def update_sample_count_selector (env : Env) (fuel : ℕ) (s : SamplingBar) :
    Except Fault SamplingBar :=
  if s.updating_sample_count then Except.ok s
  else do
    let dev ← s.deref_device
    let pre_duration : ℚ :=
      if 0 ≠ s.sample_count.count then s.sample_count.itemData s.sample_count.currentIndex
      else (SR_SEC 1 : ℕ)
    let samplerate := s.sample_rate.itemData s.sample_rate.currentIndex
    let duration := startDuration env dev s.session.ch_num_logic samplerate
    match ladderLoop dev.mode samplerate fuel duration with
    | none => Except.error Fault.out_of_fuel
    | some ladder =>
      let box := ladder.foldl ComboBox.addItem s.sample_count.clear
      let r := resnap pre_duration box
      let s1 := { s with sample_count := r.1, samplecount_sel_connected := false,
                         updating_sample_count := false }
      let s2 := if r.2 then s1.log Event.sample_count_changed else s1
      let s3 ← if dev.mode = DevMode.DSO then update_sample_count_selector_value env fuel s2
               else Except.ok s2
      Except.ok { s3 with samplecount_sel_connected := true }
termination_by (fuel, 3)

end

/-- `SamplingBar::update_sample_rate_selector_value`, lines 392-414. -/
def update_sample_rate_selector_value (env : Env) (fuel : ℕ) (s : SamplingBar) :
    Except Fault SamplingBar :=
  if s.updating_sample_rate then Except.ok s
  else do
    let dev ← s.deref_device
    let samplerate := dev.sample_rate
    let s1 := { s with updating_sample_rate := true }
    let s2 ←
      if samplerate ≠ s1.sample_rate.itemData s1.sample_rate.currentIndex then
        match scanDown (fun i => decide (samplerate ≥ s1.sample_rate.itemData i))
            s1.sample_rate.count.toNat with
        | some i => set_rate_index env fuel i s1
        | none => Except.ok s1
      else Except.ok s1
    Except.ok { s2 with updating_sample_rate := false }

/-- `SamplingBar::update_sample_rate_selector`, lines 334-390. -/
def update_sample_rate_selector (env : Env) (fuel : ℕ) (s : SamplingBar) :
    Except Fault SamplingBar :=
  if s.updating_sample_rate then Except.ok s
  else
    let s1 := { s with samplerate_sel_connected := false }
    match s1.device with
    | none => Except.ok s1
    | some dev =>
      match dev.samplerates with
      | none => Except.ok { s1 with sample_rate := s1.sample_rate.clear,
                                    updating_sample_rate := false }
      | some gvar_list => do
        let box := match gvar_list with
          | some elements => elements.foldl ComboBox.addItem s1.sample_rate.clear
          | none => s1.sample_rate
        let s2 := { s1 with sample_rate := box, updating_sample_rate := false }
        let s3 ← update_sample_rate_selector_value env fuel s2
        let s4 := { s3 with samplerate_sel_connected := true }
        update_sample_count_selector env fuel s4

/-! ## Run / stop control -/

/-- `_session.set_repeating(false)`. -/
def set_repeating (b : Bool) (s : SamplingBar) : SamplingBar :=
  { s with session := { s.session with repeating := b } }.log (Event.set_repeating b)

/-- What one run of `zero_adj` meets: the result of the waiting dialog
(`wait.start() == QDialog::Rejected`), what the handlers of the emitted
`run_stop()` and the event loop of the dialog did to the toolbar in the
meantime, and the answer to the calibration dialog should the nested
`on_run_stop` show it. -/
structure Wait where
  rejected : Bool
  after : SamplingBar → SamplingBar
  accept : Bool

mutual

/-- `SamplingBar::zero_adj`, lines 258-279.  The trace is the model's own
record, so the surroundings do not rewrite it.  A run with no `Wait` left is
out of fuel. -/
def zero_adj (env : Env) (waits : List Wait) (s : SamplingBar) : Except Fault SamplingBar :=
  match waits with
  | [] => Except.error Fault.out_of_fuel
  | w :: rest =>
    let s1 := (s.log Event.dso_set_enable).log Event.run_stop
    let s2 := s1.log Event.waiting_dialog
    let s3 := if w.rejected then s2.log Event.dso_commit_settings else s2
    let s4 := { w.after s3 with trace := s3.trace }
    if s4.session.capture_state = CaptureState.Running then on_run_stop env w.accept rest s4
    else Except.ok s4
termination_by (waits.length, 0)

/-- `SamplingBar::on_run_stop`, lines 664-714; `accept` is the answer given to
the calibration dialog (`msg.exec()`), `waits` what `zero_adj` meets. -/
def on_run_stop (env : Env) (accept : Bool) (waits : List Wait) (s : SamplingBar) :
    Except Fault SamplingBar :=
  if s.sampling || s.session.repeating then do
    let s1 := set_repeating false s
    let wait_upload ←
      if s1.session.run_mode ≠ RunMode.Repetitive then do
        let dev ← s1.deref_device
        pure (match dev.wait_upload with
          | some b => b
          | none => false)
      else pure false
    if !wait_upload then
      Except.ok ((s1.log Event.stop_capture).log Event.capture_state_changed_Stopped)
    else Except.ok s1
  else
    let s1 := enable_run_stop false s
    let s2 := enable_instant false s1
    let s3 := commit_settings env s2
    let s4 := { s3 with instant := false }
    match s4.device with
    | none => Except.ok s4
    | some dev =>
      let zero :=
        if dev.mode = DevMode.DSO then
          match dev.zero with
          | some z => z
          | none => false
        else false
      if zero then
        let s5 := s4.log Event.calibration_dialog
        if accept then zero_adj env waits s5
        else
          let s6 := s5.set_config (ConfigWrite.ZERO false)
          Except.ok (enable_instant true (enable_run_stop true s6))
      else Except.ok (s4.log Event.run_stop)
termination_by (waits.length, 1)

end

/-- `SamplingBar::on_instant_stop`, lines 716-766; `accept` is the answer given
to the calibration dialog (`msg.exec()`), `waits` what `zero_adj` meets. -/
def on_instant_stop (env : Env) (accept : Bool) (waits : List Wait) (s : SamplingBar) :
    Except Fault SamplingBar :=
  if s.sampling then do
    let s1 := set_repeating false s
    let wait_upload ←
      if s1.session.run_mode ≠ RunMode.Repetitive then do
        let dev ← s1.deref_device
        pure (match dev.wait_upload with
          | some b => b
          | none => false)
      else pure false
    if !wait_upload then
      Except.ok ((s1.log Event.stop_capture).log Event.capture_state_changed_Stopped)
    else Except.ok s1
  else
    let s1 := enable_run_stop false s
    let s2 := enable_instant false s1
    let s3 := commit_settings env s2
    let s4 := { s3 with instant := true }
    match s4.device with
    | none => Except.ok s4
    | some dev =>
      let zero :=
        if dev.mode = DevMode.DSO then
          match dev.zero with
          | some z => z
          | none => false
        else false
      if zero then
        let s5 := s4.log Event.calibration_dialog
        if accept then zero_adj env waits s5
        else
          let s6 := s5.set_config (ConfigWrite.ZERO false)
          Except.ok (enable_instant true (enable_run_stop true s6))
      else Except.ok (s4.log Event.instant_stop)

/-! ## Auxiliary definitions: readings of the state, the specification's formula, example states -/

/-- The selector contents after `update_sample_count_selector` refilled the box
with ladder `L`, as a function of the previously selected duration. -/
def refilled (dev : DevInst) (pre_duration : ℚ) (L : List ℚ) : ComboBox ℚ :=
  let r := (resnap pre_duration ⟨L, 0⟩).1
  if dev.mode = DevMode.DSO then
    match dev.timebase with
    | some tb => select_hori_res (tb : ℚ) r
    | none => r
  else r

/-- The state both slots prepare before a start (lines 681-684 and 733-736):
both start controls disabled, the settings committed, the instant flag stored. -/
def prepared (env : Env) (instant : Bool) (s : SamplingBar) : SamplingBar :=
  { commit_settings env (enable_instant false (enable_run_stop false s)) with instant := instant }

/-- The test of lines 688-694 and 740-746 on the selected device: an
oscilloscope whose `ZERO` query answers true. -/
def calibration_pending (s : SamplingBar) : Bool :=
  match s.device with
  | some dev => decide (dev.mode = DevMode.DSO) && (dev.zero == some true)
  | none => false

/-- The stop of lines 667-679 is deferred: the run mode is not Repetitive and
the `WAIT_UPLOAD` query of the selected device answers true. -/
def stop_deferred (s : SamplingBar) : Bool :=
  decide (s.session.run_mode ≠ RunMode.Repetitive) &&
    match s.device with
    | some dev => dev.wait_upload == some true
    | none => false

/-- The calls `zero_adj` logs before it tests the capture state (lines 260-275). -/
def zero_adj_logged (rejected : Bool) (s : SamplingBar) : SamplingBar :=
  if rejected then
    (((s.log Event.dso_set_enable).log Event.run_stop).log Event.waiting_dialog).log
      Event.dso_commit_settings
  else ((s.log Event.dso_set_enable).log Event.run_stop).log Event.waiting_dialog

/-- The duration read back from the selector at lines 467-469. -/
def pre_duration (s : SamplingBar) : ℚ :=
  if 0 ≠ s.sample_count.count then s.sample_count.itemData s.sample_count.currentIndex
  else (SR_SEC 1 : ℕ)

/-- The sample rate read from the rate selector at lines 471-472. -/
def selected_rate (s : SamplingBar) : ℕ :=
  s.sample_rate.itemData s.sample_rate.currentIndex

/-- A valid current index: the box has a current item. -/
def ComboBox.valid {α : Type} (c : ComboBox α) : Prop :=
  0 ≤ c.currentIndex ∧ c.currentIndex < c.items.length

/-- The depth the start value is computed from (lines 475-478). -/
def usedDepth (env : Env) (dev : DevInst) (ch_num : ℤ) : ℕ :=
  if dev.stream.getD false then sw_depth env dev.mode ch_num else dev.hw_depth.getD 0

/-- The duration read at lines 603-604 of `commit_hori_res`. -/
def selected_duration (s : SamplingBar) : ℚ :=
  s.sample_count.itemData s.sample_count.currentIndex

/-- The implied oscilloscope sample rate in the words of the specification:
`min(sampleLimit × 1 s / (duration × horizontalDivisions),
maxDeviceRate / max(channelCount, 1))` with 10 horizontal divisions, the
duration in nanoseconds and each operand truncated to an unsigned integer. -/
def implied_rate_spec (sampleLimit : ℕ) (duration : ℚ) (maxDeviceRate channelCount : ℕ) : ℕ :=
  min ⌊(sampleLimit : ℚ) * 1000000000 / (duration * 10)⌋₊
    ⌊(maxDeviceRate : ℚ) / ((max channelCount 1 : ℕ) : ℚ)⌋₊

/-- The toolbar as its constructor leaves it (lines 55-146): empty selectors,
guards clear, slots connected, not sampling, both start controls enabled, no
device selected. -/
def initialBar : SamplingBar :=
  { sample_count := ⟨[], -1⟩
    sample_rate := ⟨[], -1⟩
    updating_sample_rate := false
    updating_sample_count := false
    samplerate_sel_connected := true
    samplecount_sel_connected := true
    sampling := false
    instant := false
    run_stop_enabled := true
    instant_enabled := true
    session := ⟨CaptureState.Init, RunMode.Single, false, 16, 2⟩
    device := none
    trace := [] }

/-- Example build constants: a 64-bit build with software depth caps of 16 G,
8 G and 100 M samples, and labels that never carry the RLE marker. -/
def exampleEnv : Env :=
  { arch64 := true
    LogicMaxSWDepth64 := 17179869184
    LogicMaxSWDepth32 := 8589934592
    AnalogMaxSWDepth := 100000000
    labelHasRLE := fun _ => false }

/-- Example device: a buffered logic analyzer with the given hardware depth. -/
def logicDevice (hw_depth : ℕ) : DevInst :=
  { mode := DevMode.LOGIC
    stream := some false
    hw_depth := some hw_depth
    timebase := none
    max_dso_samplerate := none
    wait_upload := some false
    zero := none
    samplerates := some (some [1, 2, 1000000])
    sample_rate := 1
    sample_limit := 1024
    rle := false }

/-- Example device: an oscilloscope with the given timebase, sample limit and
maximum sample rate. -/
def dsoDevice (timebase : Option ℕ) (sample_limit max_rate : ℕ) : DevInst :=
  { mode := DevMode.DSO
    stream := none
    hw_depth := some 2097152
    timebase := timebase
    max_dso_samplerate := some max_rate
    wait_upload := some true
    zero := some false
    samplerates := some (some [1000, 1000000, 100000000])
    sample_rate := 1000000
    sample_limit := sample_limit
    rle := false }

/-- Example state: logic analyzer of the given depth, rate selector holding
1 Hz, 2 Hz and 1 MHz with the given entry current, and the given duration
selector. -/
def logicBar (hw_depth : ℕ) (rateIndex : ℤ) (durations : ComboBox ℚ) : SamplingBar :=
  { initialBar with
    sample_count := durations
    sample_rate := ⟨[1, 2, 1000000], rateIndex⟩
    device := some (logicDevice hw_depth) }

/-- The 28 entries of the oscilloscope ladder, 10 s down to 10 ns. -/
def dsoLadder : List ℚ :=
  [10000000000, 5000000000, 2000000000, 1000000000, 500000000, 200000000, 100000000,
   50000000, 20000000, 10000000, 5000000, 2000000, 1000000, 500000, 200000, 100000,
   50000, 20000, 10000, 5000, 2000, 1000, 500, 200, 100, 50, 20, 10]

/-- Example state: an oscilloscope with a sample limit of 10000 and a maximum
rate of 100 MHz, `ch_num` enabled channels, the oscilloscope ladder in the
duration selector and the rates 1 kHz, 1 MHz, 100 MHz in the rate selector. -/
def dsoBar (durationIndex rateIndex : ℤ) (ch_num : ℕ) : SamplingBar :=
  { initialBar with
    sample_count := ⟨dsoLadder, durationIndex⟩
    sample_rate := ⟨[1000, 1000000, 100000000], rateIndex⟩
    session := ⟨CaptureState.Init, RunMode.Single, false, 16, ch_num⟩
    device := some (dsoDevice (some 1000000) 10000 100000000) }

/-- Example state: an idle oscilloscope with a calibration pending (`ZERO`
answers true) and `WAIT_UPLOAD` false. -/
def calibratingBar : SamplingBar :=
  { dsoBar 12 1 1 with
    device := some { dsoDevice (some 1000000) 10000 100000000 with
      zero := some true, wait_upload := some false } }

/-- Example surroundings of `zero_adj`: the handlers of `run_stop()` start the
capture and report it with `set_sampling(true)`. -/
def captureStarts (s : SamplingBar) : SamplingBar :=
  { s with sampling := true,
           session := { s.session with capture_state := CaptureState.Running } }

/-- Example state: the logic analyzer toolbar while a capture is running. -/
def armedBar : SamplingBar :=
  { logicBar 5800 0 ⟨[5800000000000, 3600000000000, 3000000000000, 1200000000000], 3⟩ with
    sampling := true }

/-- The start request of the run slot becomes the start request of the
instant slot; every other event stays. -/
def swapStart : Event → Event
  | Event.run_stop => Event.instant_stop
  | e => e

/-- Example state: the oscilloscope toolbar with both guard flags set. -/
def guardedBar : SamplingBar :=
  { dsoBar 12 1 1 with updating_sample_rate := true, updating_sample_count := true }

/-- Example state: an idle oscilloscope whose ZERO query returns no value. -/
def noZeroBar : SamplingBar :=
  { dsoBar 12 1 1 with
    device := some { dsoDevice (some 1000000) 10000 100000000 with zero := none } }

/-- Example state: an oscilloscope that reports neither `MAX_DSO_SAMPLERATE`
nor `TIMEBASE`. -/
def noCapBar : SamplingBar :=
  { dsoBar 12 1 1 with
    device := some { dsoDevice none 10000 100000000 with max_dso_samplerate := none } }

/-- Example state: a logic analyzer between two captures of a repetitive run:
not sampling, repeat flag set. -/
def repeatingBar : SamplingBar :=
  { logicBar 5800 0 ⟨[5800000000000, 3600000000000, 3000000000000, 1200000000000], 3⟩ with
    session := ⟨CaptureState.Stopped, RunMode.Repetitive, true, 16, 2⟩ }

/-! ## Facts about decade stepping -/

theorem timeUnit_pos (d : ℚ) : 0 < timeUnit d := by
  unfold timeUnit SR_DAY SR_HOUR SR_MIN
  split_ifs <;> norm_num

theorem timeUnit_le (d : ℚ) : timeUnit d ≤ d ∨ timeUnit d = 1 := by
  unfold timeUnit SR_DAY SR_HOUR SR_MIN
  split_ifs with h1 h2 h3
  · left; exact h1
  · left; exact h2
  · left; exact h3
  · right; rfl

theorem timeUnit_stable (d e : ℚ) (h1 : timeUnit d ≤ e ∨ timeUnit d = 1) (h2 : e ≤ d) :
    timeUnit e = timeUnit d := by
  unfold timeUnit SR_DAY SR_HOUR SR_MIN at *
  split_ifs at h1 ⊢ with a1 a2 a3 a4 a5 a6 <;> norm_num at * <;> linarith

theorem pow10FloorLog10_eq (x : ℚ) (k : ℤ) (h1 : (10 : ℚ) ^ k ≤ x) (h2 : x < (10 : ℚ) ^ (k + 1)) :
    pow10FloorLog10 x = (10 : ℚ) ^ k := by
  have hx : 0 < x := lt_of_lt_of_le (by positivity) h1
  have hb : 1 < (10 : ℕ) := by norm_num
  have e1 : k ≤ Int.log 10 x := (Int.zpow_le_iff_le_log hb hx).1 (by exact_mod_cast h1)
  have e2 : Int.log 10 x < k + 1 := (Int.lt_zpow_iff_log_lt hb hx).1 (by exact_mod_cast h2)
  have e : Int.log 10 x = k := by omega
  simp [pow10FloorLog10, hx, e]

theorem pow10FloorLog10_spec (x : ℚ) (hx : 0 < x) :
    ∃ k : ℤ, pow10FloorLog10 x = (10 : ℚ) ^ k ∧ (10 : ℚ) ^ k ≤ x ∧ x < (10 : ℚ) ^ (k + 1) ∧
      (1 ≤ x → 0 ≤ k) := by
  have hb : 1 < (10 : ℕ) := by norm_num
  refine ⟨Int.log 10 x, by simp [pow10FloorLog10, hx], ?_, ?_, ?_⟩
  · exact_mod_cast Int.zpow_log_le_self hb hx
  · exact_mod_cast Int.lt_zpow_succ_log_self hb x
  · intro h
    exact (Int.zpow_le_iff_le_log hb hx).1 (by simpa using h)

theorem decade_spec (d : ℚ) (hd : 0 < d) :
    ∃ k : ℤ, pow10FloorLog10 (d / timeUnit d) = (10 : ℚ) ^ k ∧ (10 : ℚ) ^ k * timeUnit d ≤ d ∧
      d < 10 * (10 : ℚ) ^ k * timeUnit d ∧ (timeUnit d = 1 ∨ 0 ≤ k) := by
  have hu := timeUnit_pos d
  obtain ⟨k, hk, h1, h2, h3⟩ := pow10FloorLog10_spec (d / timeUnit d) (div_pos hd hu)
  refine ⟨k, hk, ?_, ?_, ?_⟩
  · exact (le_div_iff₀ hu).1 h1
  · have := (div_lt_iff₀ hu).1 h2
    rw [zpow_add₀ (by norm_num : (10 : ℚ) ≠ 0), zpow_one] at this
    linarith
  · rcases timeUnit_le d with h | h
    · right; exact h3 ((one_le_div₀ hu).2 h)
    · left; exact h

theorem one_le_zpow_ten (k : ℤ) (hk : 0 ≤ k) : (1 : ℚ) ≤ (10 : ℚ) ^ k := by
  obtain ⟨n, rfl⟩ := Int.eq_ofNat_of_zero_le hk
  rw [zpow_natCast]
  exact one_le_pow₀ (by norm_num)

/-- Every step goes strictly down and stays positive. -/
theorem nextDuration_lt (d : ℚ) (hd : 0 < d) : 0 < nextDuration d ∧ nextDuration d < d := by
  obtain ⟨k, hk, h1, h2, h3⟩ := decade_spec d hd
  have hu := timeUnit_pos d
  have hp : (0 : ℚ) < (10 : ℚ) ^ k := by positivity
  have hP : 0 < (10 : ℚ) ^ k * timeUnit d := mul_pos hp hu
  have hdu : timeUnit d ≤ d ∨ timeUnit d = 1 := timeUnit_le d
  simp only [nextDuration, hk]
  split_ifs with c1 c2 c3 c4 c5 c6 c7
  · exact ⟨by nlinarith, c1⟩
  · exact ⟨by nlinarith, c2⟩
  · exact ⟨by nlinarith, c3⟩
  · constructor <;> linarith
  · rcases hdu with h | h
    · rw [c5] at h
      unfold SR_DAY SR_HOUR at *
      constructor <;> (first | (norm_num at *; done) | (norm_num at *; linarith))
    · rw [c5] at h; unfold SR_DAY at h; norm_num at h
  · rcases hdu with h | h
    · rw [c6] at h
      unfold SR_MIN SR_HOUR at *
      constructor <;> (first | (norm_num at *; done) | (norm_num at *; linarith))
    · rw [c6] at h; unfold SR_HOUR at h; norm_num at h
  · rcases hdu with h | h
    · rw [c7] at h
      unfold SR_MIN SR_SEC at *
      constructor <;> (first | (norm_num at *; done) | (norm_num at *; linarith))
    · rw [c7] at h; unfold SR_MIN at h; norm_num at h
  · constructor <;> linarith

/-- At a grid point `m * 10^k * unit` with `m` one of 1, 2, 5 the step
shrinks the value by a factor of at most 5/6. -/
theorem nextDuration_on_grid (u m e : ℚ) (k : ℤ) (he : e = m * (10 : ℚ) ^ k * u)
    (hm : m = 1 ∨ m = 2 ∨ m = 5) (hu : timeUnit e = u) : nextDuration e ≤ 5 / 6 * e := by
  have hu0 : 0 < u := hu ▸ timeUnit_pos e
  have hp : (0 : ℚ) < (10 : ℚ) ^ k := by positivity
  have hP : 0 < (10 : ℚ) ^ k * u := mul_pos hp hu0
  have hm1 : 1 ≤ m ∧ m < 10 := by rcases hm with h | h | h <;> rw [h] <;> norm_num
  have he0 : 0 < e := by rw [he]; nlinarith
  have hdiv : e / u = m * (10 : ℚ) ^ k := by rw [he]; field_simp
  have hlog : pow10FloorLog10 (e / u) = (10 : ℚ) ^ k := by
    apply pow10FloorLog10_eq
    · rw [hdiv]; nlinarith
    · rw [hdiv, zpow_add₀ (by norm_num : (10 : ℚ) ≠ 0), zpow_one]; nlinarith
  have hle := timeUnit_le e
  rw [hu] at hle
  have hm' : ¬ (e > (10 : ℚ) ^ k * u) → m = 1 ∧ e = (10 : ℚ) ^ k * u := by
    intro c
    rcases hm with h | h | h
    · exact ⟨h, by rw [he, h, one_mul]⟩
    · exfalso; apply c; rw [he, h]; linarith
    · exfalso; apply c; rw [he, h]; linarith
  have hanchor : ¬ (e > (10 : ℚ) ^ k * u) → ¬ ((10 : ℚ) ^ k > 1) → u ≠ 1 → e = u := by
    intro c c4 c5
    have h10 : (10 : ℚ) ^ k ≤ 1 := not_lt.1 c4
    obtain ⟨-, he'⟩ := hm' c
    rcases hle with h | h
    · have : (10 : ℚ) ^ k = 1 := by
        apply le_antisymm h10
        by_contra hc
        have : (10 : ℚ) ^ k * u < 1 * u := mul_lt_mul_of_pos_right (not_le.1 hc) hu0
        linarith
      rw [he', this, one_mul]
    · exact absurd h c5
  simp only [nextDuration, hu, hlog]
  split_ifs with c1 c2 c3 c4 c5 c6 c7
  · rcases hm with h | h | h <;> rw [he, h] at c1 ⊢ <;> linarith
  · rcases hm with h | h | h <;> rw [he, h] at c1 c2 ⊢ <;> linarith
  · rcases hm with h | h | h <;> rw [he, h] at c1 c2 c3 ⊢ <;> linarith
  · linarith
  · have := hanchor c3 c4 (by rw [c5]; unfold SR_DAY; norm_num)
    rw [this, c5]; unfold SR_DAY SR_HOUR; norm_num
  · have := hanchor c3 c4 (by rw [c6]; unfold SR_HOUR; norm_num)
    rw [this, c6]; unfold SR_MIN SR_HOUR; norm_num
  · have := hanchor c3 c4 (by rw [c7]; unfold SR_MIN; norm_num)
    rw [this, c7]; unfold SR_MIN SR_SEC; norm_num
  · linarith

/-- The value produced by a step is either at most 5/6 of the input, or a grid
point `m * 10^k * unit` of the input's own unit. -/
theorem nextDuration_shape (d : ℚ) (hd : 0 < d) :
    nextDuration d ≤ 5 / 6 * d ∨
      ∃ (k : ℤ) (m : ℚ), (m = 1 ∨ m = 2 ∨ m = 5) ∧
        nextDuration d = m * (10 : ℚ) ^ k * timeUnit d ∧
        timeUnit (nextDuration d) = timeUnit d := by
  obtain ⟨k, hk, h1, h2, h3⟩ := decade_spec d hd
  have hu := timeUnit_pos d
  have hp : (0 : ℚ) < (10 : ℚ) ^ k := by positivity
  have hP : 0 < (10 : ℚ) ^ k * timeUnit d := mul_pos hp hu
  have hdu : timeUnit d ≤ d ∨ timeUnit d = 1 := timeUnit_le d
  have hlt := (nextDuration_lt d hd).2
  have key : ∀ m : ℚ, (m = 1 ∨ m = 2 ∨ m = 5) → nextDuration d = m * (10 : ℚ) ^ k * timeUnit d →
      timeUnit (nextDuration d) = timeUnit d := by
    intro m hm hn
    apply timeUnit_stable d _ _ hlt.le
    rcases h3 with h | h
    · right; exact h
    · left
      have := one_le_zpow_ten k h
      rw [hn]
      rcases hm with h | h | h <;> rw [h] <;> nlinarith
  have hshape : nextDuration d =
      (if d > 5 * (10 : ℚ) ^ k * timeUnit d then 5 * (10 : ℚ) ^ k * timeUnit d
      else if d > 2 * (10 : ℚ) ^ k * timeUnit d then 2 * (10 : ℚ) ^ k * timeUnit d
      else if d > (10 : ℚ) ^ k * timeUnit d then (10 : ℚ) ^ k * timeUnit d
      else if (10 : ℚ) ^ k > 1 then d * (1 / 2)
      else if timeUnit d = SR_DAY 1 then SR_HOUR 20
      else if timeUnit d = SR_HOUR 1 then SR_MIN 50
      else if timeUnit d = SR_MIN 1 then SR_SEC 50
      else d * (1 / 2)) := by
    simp only [nextDuration, hk]
  split_ifs at hshape with c1 c2 c3 c4 c5 c6 c7
  · right; exact ⟨k, 5, by simp, hshape, key 5 (by simp) hshape⟩
  · right; exact ⟨k, 2, by simp, hshape, key 2 (by simp) hshape⟩
  · right; exact ⟨k, 1, by simp, by rw [hshape]; ring, key 1 (by simp) (by rw [hshape]; ring)⟩
  · left; rw [hshape]; linarith
  · left
    rcases hdu with h | h
    · rw [hshape]; rw [c5] at h; unfold SR_DAY SR_HOUR at *; norm_num at *; linarith
    · rw [c5] at h; unfold SR_DAY at h; norm_num at h
  · left
    rcases hdu with h | h
    · rw [hshape]; rw [c6] at h; unfold SR_MIN SR_HOUR at *; norm_num at *; linarith
    · rw [c6] at h; unfold SR_HOUR at h; norm_num at h
  · left
    rcases hdu with h | h
    · rw [hshape]; rw [c7] at h; unfold SR_MIN SR_SEC at *; norm_num at *; linarith
    · rw [c7] at h; unfold SR_MIN at h; norm_num at h
  · left; rw [hshape]; linarith

/-- Two consecutive steps shrink a positive duration by a factor of at most 5/6. -/
theorem nextDuration_twice (d : ℚ) (hd : 0 < d) :
    nextDuration (nextDuration d) ≤ 5 / 6 * d := by
  have h1 := nextDuration_lt d hd
  have h2 := nextDuration_lt _ h1.1
  rcases nextDuration_shape d hd with h | ⟨k, m, hm, he, hu⟩
  · linarith
  · have := nextDuration_on_grid (timeUnit d) m (nextDuration d) k he hm hu
    linarith

/-! ## Facts about the ladder loop -/

theorem nextDuration_zero : nextDuration 0 = 0 := by
  have hu : timeUnit 0 = 1 := by
    unfold timeUnit SR_DAY SR_HOUR SR_MIN; norm_num
  have hp : pow10FloorLog10 (0 / 1) = 0 := by simp [pow10FloorLog10]
  simp only [nextDuration, hu, hp]
  unfold SR_DAY SR_HOUR SR_MIN
  norm_num

/-- A value that passes the loop test is bounded below by a positive floor. -/
theorem notLast_floor (mode : DevMode) (samplerate : ℕ) :
    ∃ c : ℚ, 0 < c ∧ ∀ x : ℚ, notLast mode samplerate x = true → c ≤ x := by
  by_cases hm : mode = DevMode.DSO
  · refine ⟨10, by norm_num, ?_⟩
    intro x hx
    simp only [notLast, hm, SR_NS, if_true, decide_eq_true_eq] at hx
    exact_mod_cast hx
  · rcases Nat.eq_zero_or_pos samplerate with h0 | hpos
    · refine ⟨1, by norm_num, ?_⟩
      intro x hx
      simp [notLast, hm, h0, SR_KB] at hx
      norm_num at hx
    · have hs : (0 : ℚ) < samplerate := by exact_mod_cast hpos
      refine ⟨1024 * 1000000000 / samplerate, by positivity, ?_⟩
      intro x hx
      simp only [notLast, hm, if_false, decide_eq_true_eq, SR_KB, SR_SEC] at hx
      rw [div_le_iff₀ hs]
      push_cast at hx
      have := (div_mul_eq_mul_div x 1000000000 (samplerate : ℚ))
      rw [this, ge_iff_le, le_div_iff₀ (by norm_num)] at hx
      linarith

theorem ladderLoop_terminates_pos (mode : DevMode) (samplerate : ℕ) (c : ℚ)
    (hfloor : ∀ x : ℚ, notLast mode samplerate x = true → c ≤ x) :
    ∀ (n : ℕ) (d : ℚ), 0 < d → d < c * (6 / 5) ^ n →
      ∃ fuel L, ladderLoop mode samplerate fuel d = some L := by
  intro n
  induction n with
  | zero =>
    intro d hd hlt
    refine ⟨1, [d], ?_⟩
    have h1 := (nextDuration_lt d hd).2
    have : notLast mode samplerate (nextDuration d) = false := by
      by_contra h
      have := hfloor _ (by simpa using h)
      simp at hlt
      linarith
    simp [ladderLoop, this]
  | succ n ih =>
    intro d hd hlt
    by_cases h1 : notLast mode samplerate (nextDuration d) = true
    · have hd1 := nextDuration_lt d hd
      by_cases h2 : notLast mode samplerate (nextDuration (nextDuration d)) = true
      · have hd2 := nextDuration_lt _ hd1.1
        have h56 := nextDuration_twice d hd
        have hlt2 : nextDuration (nextDuration d) < c * (6 / 5) ^ n := by
          have hpow : c * (6 / 5 : ℚ) ^ (n + 1) = 6 / 5 * (c * (6 / 5) ^ n) := by ring
          rw [hpow] at hlt
          linarith
        obtain ⟨fuel, L, hL⟩ := ih _ hd2.1 hlt2
        exact ⟨fuel + 2, d :: nextDuration d :: L, by simp [ladderLoop, h1, h2, hL]⟩
      · exact ⟨2, [d, nextDuration d], by simp [ladderLoop, h1, h2]⟩
    · exact ⟨1, [d], by simp [ladderLoop, h1]⟩

theorem ladderLoop_succ (mode : DevMode) (samplerate fuel : ℕ) (duration : ℚ) :
    ladderLoop mode samplerate (fuel + 1) duration =
      if notLast mode samplerate (nextDuration duration) then
        (ladderLoop mode samplerate fuel (nextDuration duration)).map (fun l => duration :: l)
      else some [duration] := rfl

/-- The loop returns for every non-negative start value: enough fuel gives a ladder. -/
theorem ladderLoop_terminates (mode : DevMode) (samplerate : ℕ) (d : ℚ) (hd : 0 ≤ d) :
    ∃ fuel L, ladderLoop mode samplerate fuel d = some L := by
  obtain ⟨c, hc, hfloor⟩ := notLast_floor mode samplerate
  rcases hd.eq_or_lt with h0 | hpos
  · refine ⟨1, [d], ?_⟩
    have : notLast mode samplerate (nextDuration d) = false := by
      by_contra h
      have := hfloor _ (by simpa using h)
      rw [← h0, nextDuration_zero] at this
      linarith
    simp [ladderLoop, this]
  · obtain ⟨n, hn⟩ := pow_unbounded_of_one_lt (d / c) (by norm_num : (1 : ℚ) < 6 / 5)
    exact ladderLoop_terminates_pos mode samplerate c hfloor n d hpos
      (by rw [div_lt_iff₀ hc] at hn; linarith)

/-- More fuel does not change a ladder that was completed. -/
theorem ladderLoop_fuel_mono (mode : DevMode) (samplerate : ℕ) :
    ∀ (fuel : ℕ) (d : ℚ) (L : List ℚ), ladderLoop mode samplerate fuel d = some L →
      ∀ k, ladderLoop mode samplerate (fuel + k) d = some L := by
  intro fuel
  induction fuel with
  | zero => intro d L h; simp [ladderLoop] at h
  | succ n ih =>
    intro d L h k
    have e : n + 1 + k = (n + k) + 1 := by omega
    rw [e]
    simp only [ladderLoop] at h ⊢
    split_ifs at h ⊢ with c
    · cases hr : ladderLoop mode samplerate n (nextDuration d) with
      | none => simp [hr] at h
      | some L' =>
        rw [hr] at h
        rw [ih _ _ hr k]
        exact h
    · exact h

/-- Two completed runs of the loop from the same start agree. -/
theorem ladderLoop_unique (mode : DevMode) (samplerate : ℕ) (f1 f2 : ℕ) (d : ℚ) (L1 L2 : List ℚ)
    (h1 : ladderLoop mode samplerate f1 d = some L1)
    (h2 : ladderLoop mode samplerate f2 d = some L2) : L1 = L2 := by
  have a := ladderLoop_fuel_mono mode samplerate f1 d L1 h1 f2
  have b := ladderLoop_fuel_mono mode samplerate f2 d L2 h2 f1
  rw [Nat.add_comm] at b
  rw [a] at b
  exact Option.some.inj b

/-- Shape of a completed ladder: it starts with the start value, every entry
is positive and at most the start value, and it is strictly decreasing. -/
theorem ladderLoop_sorted (mode : DevMode) (samplerate : ℕ) :
    ∀ (fuel : ℕ) (d : ℚ) (L : List ℚ), 0 < d → ladderLoop mode samplerate fuel d = some L →
      (∃ t, L = d :: t) ∧ (∀ x ∈ L, 0 < x ∧ x ≤ d) ∧ L.Pairwise (fun a b => a > b) := by
  intro fuel
  induction fuel with
  | zero => intro d L _ h; simp [ladderLoop] at h
  | succ n ih =>
    intro d L hd h
    simp only [ladderLoop] at h
    split_ifs at h with c
    · cases hr : ladderLoop mode samplerate n (nextDuration d) with
      | none => simp [hr] at h
      | some L' =>
        rw [hr] at h
        simp only [Option.map_some', Option.some.injEq] at h
        subst h
        have hn := nextDuration_lt d hd
        obtain ⟨_, hall, hpw⟩ := ih _ _ hn.1 hr
        refine ⟨⟨L', rfl⟩, ?_, ?_⟩
        · intro x hx
          rcases List.mem_cons.1 hx with rfl | hx
          · exact ⟨hd, le_refl _⟩
          · exact ⟨(hall x hx).1, by linarith [(hall x hx).2]⟩
        · refine List.Pairwise.cons ?_ hpw
          intro x hx
          have := (hall x hx).2
          show d > x
          linarith
    · simp only [Option.some.injEq] at h
      subst h
      exact ⟨⟨[], rfl⟩, by simp [hd], by simp⟩

/-- The start value heads every completed ladder. -/
theorem ladderLoop_head (mode : DevMode) (samplerate : ℕ) (fuel : ℕ) (d : ℚ) (L : List ℚ)
    (h : ladderLoop mode samplerate fuel d = some L) : ∃ t, L = d :: t := by
  cases fuel with
  | zero => simp [ladderLoop] at h
  | succ n =>
    simp only [ladderLoop] at h
    split_ifs at h with c
    · cases hr : ladderLoop mode samplerate n (nextDuration d) with
      | none => simp [hr] at h
      | some L' =>
        rw [hr] at h
        simp only [Option.map_some', Option.some.injEq] at h
        exact ⟨L', h.symm⟩
    · simp only [Option.some.injEq] at h
      exact ⟨[], h.symm⟩

/-- The last entry of a completed ladder: the step below it fails the loop
test, and it passes the test itself as soon as the start value does. -/
theorem ladderLoop_last (mode : DevMode) (samplerate : ℕ) :
    ∀ (fuel : ℕ) (d : ℚ) (L : List ℚ), ladderLoop mode samplerate fuel d = some L →
      ∃ e, L.getLast? = some e ∧ notLast mode samplerate (nextDuration e) = false ∧
        (notLast mode samplerate d = true → notLast mode samplerate e = true) := by
  intro fuel
  induction fuel with
  | zero => intro d L h; simp [ladderLoop] at h
  | succ n ih =>
    intro d L h
    simp only [ladderLoop] at h
    split_ifs at h with c
    · cases hr : ladderLoop mode samplerate n (nextDuration d) with
      | none => simp [hr] at h
      | some L' =>
        rw [hr] at h
        simp only [Option.map_some', Option.some.injEq] at h
        subst h
        obtain ⟨e, he, h1, h2⟩ := ih _ _ hr
        obtain ⟨t, ht⟩ := ladderLoop_head mode samplerate n _ L' hr
        refine ⟨e, ?_, h1, fun _ => h2 c⟩
        rw [ht] at he ⊢
        simpa [List.getLast?_cons_cons] using he
    · simp only [Option.some.injEq] at h
      subst h
      exact ⟨d, by simp, by simpa using c, fun h => h⟩

/-! ## Facts about the selectors -/

theorem foldl_addItem_items {α : Type} (l : List α) (c : ComboBox α) :
    (l.foldl ComboBox.addItem c).items = c.items ++ l := by
  induction l generalizing c with
  | nil => simp
  | cons x xs ih => simp [List.foldl, ih, ComboBox.addItem]

theorem foldl_addItem_index {α : Type} (l : List α) (c : ComboBox α) (h : 0 ≤ c.currentIndex) :
    (l.foldl ComboBox.addItem c).currentIndex = c.currentIndex := by
  induction l generalizing c with
  | nil => simp
  | cons x xs ih =>
    simp only [List.foldl]
    have e : (c.addItem x).currentIndex = c.currentIndex := by
      simp only [ComboBox.addItem]
      rw [if_neg]
      omega
    rw [ih _ (by rw [e]; exact h), e]

/-- Refilling an emptied box with a non-empty list leaves index 0 current. -/
theorem refill_box {α : Type} (x : α) (xs : List α) (c : ComboBox α) :
    (x :: xs).foldl ComboBox.addItem c.clear = ⟨x :: xs, 0⟩ := by
  have hi : ((x :: xs).foldl ComboBox.addItem c.clear).items = x :: xs := by
    rw [foldl_addItem_items]; simp [ComboBox.clear]
  have hc : ((x :: xs).foldl ComboBox.addItem c.clear).currentIndex = 0 := by
    simp only [List.foldl]
    rw [foldl_addItem_index]
    · simp [ComboBox.addItem, ComboBox.clear]
    · simp [ComboBox.addItem, ComboBox.clear]
  cases h : (x :: xs).foldl ComboBox.addItem c.clear with
  | mk items idx =>
    rw [h] at hi hc
    simp only at hi hc
    rw [hi, hc]

/-- With the signal of the duration selector disconnected, `setCurrentIndex`
runs no slot. -/
theorem set_count_index_disconnected (env : Env) (fuel : ℕ) (i : ℤ) (s : SamplingBar)
    (hc : s.samplecount_sel_connected = false) :
    set_count_index env fuel i s =
      Except.ok { s with sample_count := s.sample_count.setCurrentIndex i } := by
  unfold set_count_index
  simp [hc]

/-- With the signal disconnected `update_sample_count_selector_value` only
moves the selection, as `select_hori_res` describes. -/
theorem update_sample_count_selector_value_disconnected (env : Env) (fuel : ℕ)
    (s : SamplingBar) (dev : DevInst) (tb : ℕ) (hg : s.updating_sample_count = false)
    (hdev : s.device = some dev) (htb : dev.timebase = some tb)
    (hc : s.samplecount_sel_connected = false) :
    update_sample_count_selector_value env fuel s =
      Except.ok { s with sample_count := select_hori_res (tb : ℚ) s.sample_count,
                         updating_sample_count := false } := by
  unfold update_sample_count_selector_value
  simp only [hg, Bool.false_eq_true, if_false, SamplingBar.deref_device, hdev, bind,
    Except.bind, htb, select_hori_res]
  by_cases he : (tb : ℚ) = s.sample_count.itemData s.sample_count.currentIndex
  · simp [he]
  · simp only [ne_eq, he, not_false_eq_true, if_true]
    cases hsc : scanDown (fun i => decide ((tb : ℚ) = s.sample_count.itemData i))
        s.sample_count.count.toNat with
    | none => simp
    | some i =>
      simp only
      rw [set_count_index_disconnected]
      exact hc

/-- With `TIMEBASE` unreadable `update_sample_count_selector_value` changes
nothing. -/
theorem update_sample_count_selector_value_no_timebase (env : Env) (fuel : ℕ)
    (s : SamplingBar) (dev : DevInst) (hdev : s.device = some dev)
    (htb : dev.timebase = none) :
    update_sample_count_selector_value env fuel s = Except.ok s := by
  unfold update_sample_count_selector_value
  split_ifs
  · rfl
  · simp only [SamplingBar.deref_device, hdev, bind, Except.bind, htb]

/-- What a call of `update_sample_count_selector` that completes its ladder
leaves behind. -/
theorem update_sample_count_selector_ok (env : Env) (fuel : ℕ) (s : SamplingBar) (dev : DevInst)
    (L : List ℚ) (hg : s.updating_sample_count = false) (hdev : s.device = some dev)
    (hL : ladderLoop dev.mode (selected_rate s) fuel
      (startDuration env dev s.session.ch_num_logic (selected_rate s)) = some L) :
    ∃ s', update_sample_count_selector env fuel s = Except.ok s' ∧
      s'.sample_count = refilled dev (pre_duration s) L ∧
      s'.sample_rate = s.sample_rate ∧ s'.device = some dev ∧ s'.session = s.session ∧
      s'.updating_sample_count = false ∧ s'.updating_sample_rate = s.updating_sample_rate := by
  obtain ⟨t, rfl⟩ := ladderLoop_head _ _ _ _ _ hL
  unfold selected_rate at hL
  unfold selected_rate pre_duration refilled
  simp only [update_sample_count_selector, hg, SamplingBar.deref_device, hdev, Bool.false_eq_true,
    if_false, bind, Except.bind, hL, refill_box]
  generalize resnap _ _ = r
  obtain ⟨rb, rf⟩ := r
  by_cases hm : dev.mode = DevMode.DSO
  · rcases htb : dev.timebase with _ | tb
    · cases rf
      · simp only [hm, if_true, Bool.false_eq_true, if_false]
        rw [update_sample_count_selector_value_no_timebase env fuel _ dev rfl htb]
        simp [hdev]
      · simp only [hm, if_true]
        rw [update_sample_count_selector_value_no_timebase env fuel _ dev rfl htb]
        simp [SamplingBar.log, hdev]
    · cases rf
      · simp only [hm, if_true, Bool.false_eq_true, if_false]
        rw [update_sample_count_selector_value_disconnected env fuel _ dev tb rfl rfl htb rfl]
        simp [hdev]
      · simp only [hm, if_true]
        rw [update_sample_count_selector_value_disconnected env fuel _ dev tb rfl rfl htb rfl]
        simp [SamplingBar.log, hdev]
  · cases rf <;> simp [hm, hdev, SamplingBar.log]

theorem scanUp_some (p : ℕ → Bool) : ∀ (n i j : ℕ), scanUp p n i = some j →
    i ≤ j ∧ j < i + n ∧ p j = true ∧ ∀ k, i ≤ k → k < j → p k = false := by
  intro n
  induction n with
  | zero => intro i j h; simp [scanUp] at h
  | succ n ih =>
    intro i j h
    simp only [scanUp] at h
    split_ifs at h with c
    · simp only [Option.some.injEq] at h
      subst h
      exact ⟨le_refl _, by omega, c, fun k h1 h2 => by omega⟩
    · obtain ⟨h1, h2, h3, h4⟩ := ih _ _ h
      refine ⟨by omega, by omega, h3, ?_⟩
      intro k hk1 hk2
      rcases Nat.eq_or_lt_of_le hk1 with e | e
      · rw [← e]; simpa using c
      · exact h4 k (by omega) hk2

theorem scanUp_none (p : ℕ → Bool) : ∀ (n i : ℕ), scanUp p n i = none →
    ∀ k, i ≤ k → k < i + n → p k = false := by
  intro n
  induction n with
  | zero => intro i _ k h1 h2; omega
  | succ n ih =>
    intro i h k hk1 hk2
    simp only [scanUp] at h
    split_ifs at h with c
    rcases Nat.eq_or_lt_of_le hk1 with e | e
    · rw [← e]; simpa using c
    · exact ih _ h k (by omega) (by omega)

theorem scanDown_some (p : ℕ → Bool) : ∀ (n j : ℕ), scanDown p n = some j →
    j < n ∧ p j = true ∧ ∀ k, j < k → k < n → p k = false := by
  intro n
  induction n with
  | zero => intro j h; simp [scanDown] at h
  | succ n ih =>
    intro j h
    simp only [scanDown] at h
    split_ifs at h with c
    · simp only [Option.some.injEq] at h
      subst h
      exact ⟨by omega, c, fun k h1 h2 => by omega⟩
    · obtain ⟨h1, h2, h3⟩ := ih _ h
      refine ⟨by omega, h2, ?_⟩
      intro k hk1 hk2
      rcases Nat.eq_or_lt_of_le (Nat.lt_succ_iff.1 hk2) with e | e
      · rw [e]; simpa using c
      · exact h3 k hk1 e

theorem scanDown_none (p : ℕ → Bool) : ∀ (n : ℕ), scanDown p n = none →
    ∀ k, k < n → p k = false := by
  intro n
  induction n with
  | zero => intro _ k h; omega
  | succ n ih =>
    intro h k hk
    simp only [scanDown] at h
    split_ifs at h with c
    rcases Nat.eq_or_lt_of_le (Nat.lt_succ_iff.1 hk) with e | e
    · rw [e]; simpa using c
    · exact ih h k e

theorem scanDown_exists (p : ℕ → Bool) (n k : ℕ) (hk : k < n) (hp : p k = true) :
    ∃ j, scanDown p n = some j := by
  cases h : scanDown p n with
  | none => have := scanDown_none p n h k hk; rw [hp] at this; cases this
  | some j => exact ⟨j, rfl⟩

theorem setCurrentIndex_items {α : Type} (c : ComboBox α) (i : ℤ) :
    (c.setCurrentIndex i).items = c.items := rfl

theorem setCurrentIndex_valid {α : Type} (c : ComboBox α) (i : ℤ) (h0 : 0 ≤ i)
    (h1 : i < c.items.length) : (c.setCurrentIndex i).currentIndex = i := by
  simp [ComboBox.setCurrentIndex, ComboBox.count, h0, h1]

theorem itemData_nat (c : ComboBox ℚ) (i : ℕ) : c.itemData (i : ℤ) = c.items.getD i 0 := by
  simp [ComboBox.itemData]

theorem resnap_items (pre : ℚ) (box : ComboBox ℚ) : (resnap pre box).1.items = box.items := by
  unfold resnap
  split_ifs
  · rfl
  · rfl
  · cases scanUp (fun i => decide (pre ≥ box.itemData ↑i)) box.count.toNat 0 <;> rfl

theorem select_hori_res_items (t : ℚ) (box : ComboBox ℚ) :
    (select_hori_res t box).items = box.items := by
  unfold select_hori_res
  split_ifs
  · cases scanDown (fun i => decide (t = box.itemData ↑i)) box.count.toNat <;> rfl
  · rfl

theorem refilled_items (dev : DevInst) (pre : ℚ) (L : List ℚ) :
    (refilled dev pre L).items = L := by
  unfold refilled
  simp only
  split_ifs
  · cases dev.timebase with
    | none => simp [resnap_items]
    | some tb => simp [select_hori_res_items, resnap_items]
  · simp [resnap_items]

theorem resnap_valid (pre : ℚ) (box : ComboBox ℚ) (hv : box.valid) : (resnap pre box).1.valid := by
  obtain ⟨h0, h1⟩ := hv
  have hlen : 0 < (box.items.length : ℤ) := by omega
  unfold resnap
  split_ifs
  · refine ⟨?_, ?_⟩ <;> simp [ComboBox.setCurrentIndex, ComboBox.count, hlen]
  · have e : (box.setCurrentIndex (box.count - 1)).currentIndex = box.count - 1 :=
      setCurrentIndex_valid _ _ (by simp only [ComboBox.count]; omega)
        (by simp only [ComboBox.count]; omega)
    refine ⟨?_, ?_⟩
    · rw [e]; simp only [ComboBox.count]; omega
    · rw [e]; simp only [ComboBox.count, ComboBox.setCurrentIndex]; omega
  · cases h : scanUp (fun i => decide (pre ≥ box.itemData ↑i)) box.count.toNat 0 with
    | none => exact ⟨h0, h1⟩
    | some j =>
      obtain ⟨-, hj, -, -⟩ := scanUp_some _ _ _ _ h
      simp only [ComboBox.count, Int.toNat_ofNat, zero_add] at hj
      have hj' : (j : ℤ) < box.items.length := by exact_mod_cast hj
      refine ⟨?_, ?_⟩ <;>
        simp [ComboBox.setCurrentIndex, ComboBox.count, hj']

theorem select_hori_res_valid (t : ℚ) (box : ComboBox ℚ) (hv : box.valid) :
    (select_hori_res t box).valid := by
  unfold select_hori_res
  split_ifs
  · cases h : scanDown (fun i => decide (t = box.itemData ↑i)) box.count.toNat with
    | none => exact hv
    | some j =>
      obtain ⟨hj, -, -⟩ := scanDown_some _ _ _ h
      simp only [ComboBox.count, Int.toNat_ofNat] at hj
      have hj' : (j : ℤ) < box.items.length := by exact_mod_cast hj
      refine ⟨?_, ?_⟩ <;>
        simp [ComboBox.setCurrentIndex, ComboBox.count, hj']
  · exact hv

theorem refilled_valid (dev : DevInst) (pre : ℚ) (L : List ℚ) (hL : L ≠ []) :
    (refilled dev pre L).valid := by
  have hb : (⟨L, 0⟩ : ComboBox ℚ).valid := by
    refine ⟨le_refl _, ?_⟩
    have : 0 < L.length := List.length_pos.2 hL
    show (0 : ℤ) < (L.length : ℤ)
    exact_mod_cast this
  unfold refilled
  simp only
  split_ifs
  · cases dev.timebase with
    | none => exact resnap_valid _ _ hb
    | some tb => exact select_hori_res_valid _ _ (resnap_valid _ _ hb)
  · exact resnap_valid _ _ hb

/-- A call that returns has completed its ladder. -/
theorem update_sample_count_selector_ladder (env : Env) (fuel : ℕ) (s s' : SamplingBar)
    (dev : DevInst) (hg : s.updating_sample_count = false) (hdev : s.device = some dev)
    (h : update_sample_count_selector env fuel s = Except.ok s') :
    ∃ L, ladderLoop dev.mode (selected_rate s) fuel
        (startDuration env dev s.session.ch_num_logic (selected_rate s)) = some L ∧
      s'.sample_count = refilled dev (pre_duration s) L ∧
      s'.sample_rate = s.sample_rate ∧ s'.device = some dev ∧ s'.session = s.session ∧
      s'.updating_sample_count = false ∧ s'.updating_sample_rate = s.updating_sample_rate := by
  cases hL : ladderLoop dev.mode (selected_rate s) fuel
      (startDuration env dev s.session.ch_num_logic (selected_rate s)) with
  | none =>
    unfold selected_rate at hL
    simp [update_sample_count_selector, hg, SamplingBar.deref_device, hdev, bind, Except.bind,
      hL] at h
  | some L =>
    obtain ⟨s'', h1, h2⟩ := update_sample_count_selector_ok env fuel s dev L hg hdev hL
    rw [h1] at h
    cases h
    exact ⟨L, rfl, h2⟩

theorem startDuration_nonneg (env : Env) (dev : DevInst) (ch_num : ℤ) (samplerate : ℕ) :
    0 ≤ startDuration env dev ch_num samplerate := by
  unfold startDuration
  split_ifs <;> positivity

/-- With a device selected and the guard clear, the call returns once the fuel
is large enough. -/
theorem update_sample_count_selector_returns (env : Env) (s : SamplingBar) (dev : DevInst)
    (hg : s.updating_sample_count = false) (hdev : s.device = some dev) :
    ∃ fuel, ∀ k, ∃ s', update_sample_count_selector env (fuel + k) s = Except.ok s' := by
  obtain ⟨fuel, L, hL⟩ := ladderLoop_terminates dev.mode (selected_rate s)
    (startDuration env dev s.session.ch_num_logic (selected_rate s))
    (startDuration_nonneg _ _ _ _)
  refine ⟨fuel, fun k => ?_⟩
  obtain ⟨s', h, -⟩ := update_sample_count_selector_ok env (fuel + k) s dev L hg hdev
    (ladderLoop_fuel_mono _ _ _ _ _ hL k)
  exact ⟨s', h⟩

theorem startDuration_pos (env : Env) (dev : DevInst) (ch_num : ℤ) (samplerate : ℕ)
    (h : dev.mode = DevMode.DSO ∨ (0 < samplerate ∧ 0 < usedDepth env dev ch_num)) :
    0 < startDuration env dev ch_num samplerate := by
  unfold startDuration SR_SEC
  split_ifs with h1 h2
  · norm_num
  · obtain ⟨hrate, hdepth⟩ := h.resolve_left h1
    have hs : (0 : ℚ) < samplerate := by exact_mod_cast hrate
    unfold usedDepth at hdepth
    rw [if_pos h2] at hdepth
    have : (0 : ℚ) < sw_depth env dev.mode ch_num := by exact_mod_cast hdepth
    positivity
  · obtain ⟨hrate, hdepth⟩ := h.resolve_left h1
    have hs : (0 : ℚ) < samplerate := by exact_mod_cast hrate
    unfold usedDepth at hdepth
    rw [if_neg h2] at hdepth
    have : (0 : ℚ) < (dev.hw_depth.getD 0 : ℕ) := by exact_mod_cast hdepth
    positivity

/-- Below one minute the step from `5 * 10^k` is `2 * 10^k`, from `2 * 10^k`
it is `10^k`, and from `10^k` it is half of it. -/
theorem nextDuration_sub_minute (k : ℤ) (h : 5 * (10 : ℚ) ^ k < 60000000000) :
    nextDuration (5 * (10 : ℚ) ^ k) = 2 * (10 : ℚ) ^ k ∧
    nextDuration (2 * (10 : ℚ) ^ k) = (10 : ℚ) ^ k ∧
    nextDuration ((10 : ℚ) ^ k) = (10 : ℚ) ^ k * (1 / 2) := by
  have hp : (0 : ℚ) < (10 : ℚ) ^ k := by positivity
  have hz : (10 : ℚ) ^ (k + 1) = 10 * (10 : ℚ) ^ k := by
    rw [zpow_add₀ (by norm_num : (10 : ℚ) ≠ 0), zpow_one]; ring
  have hu : ∀ e : ℚ, e ≤ 5 * (10 : ℚ) ^ k → timeUnit e = 1 := by
    intro e he
    unfold timeUnit SR_DAY SR_HOUR SR_MIN
    have : e < 60000000000 := lt_of_le_of_lt he h
    rw [if_neg, if_neg, if_neg] <;> push_cast <;> linarith
  have hl : ∀ e : ℚ, (10 : ℚ) ^ k ≤ e → e ≤ 5 * (10 : ℚ) ^ k →
      pow10FloorLog10 (e / 1) = (10 : ℚ) ^ k := by
    intro e h1 h2
    rw [div_one]
    exact pow10FloorLog10_eq e k h1 (by rw [hz]; linarith)
  have hd : (1 : ℚ) ≠ ((SR_DAY 1 : ℕ) : ℚ) := by unfold SR_DAY; norm_num
  have hh : (1 : ℚ) ≠ ((SR_HOUR 1 : ℕ) : ℚ) := by unfold SR_HOUR; norm_num
  have hmn : (1 : ℚ) ≠ ((SR_MIN 1 : ℕ) : ℚ) := by unfold SR_MIN; norm_num
  refine ⟨?_, ?_, ?_⟩
  · simp only [nextDuration, hu _ (le_refl _), hl _ (by linarith) (le_refl _)]
    rw [if_neg (by linarith), if_pos (by linarith)]
    ring
  · simp only [nextDuration, hu _ (by linarith : 2 * (10 : ℚ) ^ k ≤ 5 * (10 : ℚ) ^ k),
      hl _ (by linarith : (10 : ℚ) ^ k ≤ 2 * (10 : ℚ) ^ k) (by linarith)]
    rw [if_neg (by linarith), if_neg (by linarith), if_pos (by linarith)]
    ring
  · simp only [nextDuration, hu _ (by linarith : (10 : ℚ) ^ k ≤ 5 * (10 : ℚ) ^ k),
      hl _ (le_refl _) (by linarith)]
    rw [if_neg (by linarith), if_neg (by linarith), if_neg (by linarith)]
    simp only [if_neg hd, if_neg hh, if_neg hmn]
    split_ifs <;> rfl

/-- In oscilloscope mode the ladder from `10^k` nanoseconds, `1 ≤ k ≤ 10`, ends
at 10 nanoseconds. -/
theorem dso_ladder_last (samplerate : ℕ) : ∀ k : ℕ, k + 1 ≤ 10 →
    ∃ L, ladderLoop DevMode.DSO samplerate (3 * k + 1) ((10 : ℚ) ^ (k + 1)) = some L ∧
      L.getLast? = some 10 := by
  have hn : ∀ x : ℚ, notLast DevMode.DSO samplerate x = decide (10 ≤ x) := by
    intro x; simp [notLast, SR_NS]
  intro k
  induction k with
  | zero =>
    intro _
    have h := (nextDuration_sub_minute 1 (by norm_num)).2.2
    norm_num at h
    refine ⟨[10], ?_, by simp⟩
    simp only [ladderLoop, Nat.zero_add, pow_one, h, hn]
    norm_num
  | succ k ih =>
    intro hk
    obtain ⟨L, hL, hlast⟩ := ih (by omega)
    have hbound : (10 : ℚ) ^ (k + 1) ≤ 10 ^ 9 := pow_le_pow_right₀ (by norm_num) (by omega)
    have hge : (10 : ℚ) ≤ 10 ^ (k + 1) := by
      calc (10 : ℚ) = 10 ^ 1 := by norm_num
        _ ≤ 10 ^ (k + 1) := pow_le_pow_right₀ (by norm_num) (by omega)
    have hz : (10 : ℚ) ^ ((k + 1 : ℕ) : ℤ) = (10 : ℚ) ^ (k + 1) := zpow_natCast _ _
    have hz2 : (10 : ℚ) ^ ((k + 1 + 1 : ℕ) : ℤ) = (10 : ℚ) ^ (k + 1 + 1) := zpow_natCast _ _
    obtain ⟨h5, h2, -⟩ := nextDuration_sub_minute ((k + 1 : ℕ) : ℤ) (by rw [hz]; linarith)
    have h1 := (nextDuration_sub_minute ((k + 1 + 1 : ℕ) : ℤ)
      (by rw [hz2, pow_succ]; linarith)).2.2
    rw [hz] at h5 h2
    rw [hz2] at h1
    have h1' : nextDuration ((10 : ℚ) ^ (k + 1 + 1)) = 5 * (10 : ℚ) ^ (k + 1) := by
      rw [h1, pow_succ]; ring
    obtain ⟨t, ht⟩ := ladderLoop_head _ _ _ _ _ hL
    refine ⟨(10 : ℚ) ^ (k + 1 + 1) :: 5 * (10 : ℚ) ^ (k + 1) :: 2 * (10 : ℚ) ^ (k + 1) :: L,
      ?_, ?_⟩
    · have e : 3 * (k + 1) + 1 = (3 * k + 1) + 1 + 1 + 1 := by ring
      rw [e, ladderLoop_succ, h1', hn, if_pos (by simp; linarith), ladderLoop_succ, h5, hn,
        if_pos (by simp; linarith), ladderLoop_succ, h2, hn, if_pos (by simp; linarith), hL]
      rfl
    · rw [ht] at hlast ⊢
      simpa [List.getLast?_cons_cons] using hlast

theorem sorted_getD (L : List ℚ) (hpw : L.Pairwise (fun a b => a > b)) (i j : ℕ) (hij : i < j)
    (hj : j < L.length) : L.getD j 0 < L.getD i 0 := by
  rw [List.getD_eq_getElem _ _ hj, List.getD_eq_getElem _ _ (by omega : i < L.length)]
  exact (List.pairwise_iff_getElem.1 hpw) i j (by omega) hj hij

/-- The three-way choice of lines 517-527 on a non-empty refilled selector:
the first entry when the old duration lies above it, the last entry when it
lies below that one, and otherwise the first entry that does not exceed it. -/
theorem resnap_spec (pre : ℚ) (L : List ℚ) (hL : L ≠ []) :
    ∃ i : ℕ, i < L.length ∧ (resnap pre ⟨L, 0⟩).1 = ⟨L, (i : ℤ)⟩ ∧
      ((pre > L.getD 0 0 ∧ i = 0) ∨
       (¬ pre > L.getD 0 0 ∧ pre < L.getD (L.length - 1) 0 ∧ i = L.length - 1) ∨
       (¬ pre > L.getD 0 0 ∧ ¬ pre < L.getD (L.length - 1) 0 ∧ L.getD i 0 ≤ pre ∧
         ∀ j, j < i → pre < L.getD j 0)) := by
  have hlen : 0 < L.length := List.length_pos.2 hL
  have hlenz : (0 : ℤ) < (L.length : ℤ) := by exact_mod_cast hlen
  have h0 : (⟨L, 0⟩ : ComboBox ℚ).itemData 0 = L.getD 0 0 := by simp [ComboBox.itemData]
  have hlast : (⟨L, 0⟩ : ComboBox ℚ).itemData ((⟨L, 0⟩ : ComboBox ℚ).count - 1) =
      L.getD (L.length - 1) 0 := by
    have e : ((L.length : ℤ) - 1) = ((L.length - 1 : ℕ) : ℤ) := by omega
    simp only [ComboBox.count, e, itemData_nat]
  unfold resnap
  rw [h0, hlast]
  by_cases c1 : pre > L.getD 0 0
  · refine ⟨0, hlen, ?_, Or.inl ⟨c1, rfl⟩⟩
    rw [if_pos c1]
    simp [ComboBox.setCurrentIndex, ComboBox.count, hlenz]
  · rw [if_neg c1]
    by_cases c2 : pre < L.getD (L.length - 1) 0
    · refine ⟨L.length - 1, by omega, ?_, Or.inr (Or.inl ⟨c1, c2, rfl⟩)⟩
      rw [if_pos c2]
      have e : ((L.length : ℤ) - 1) = ((L.length - 1 : ℕ) : ℤ) := by omega
      simp only [ComboBox.setCurrentIndex, ComboBox.count, e]
      rw [if_pos]
      constructor <;> omega
    · rw [if_neg c2]
      have hp : (fun i : ℕ => decide (pre ≥ (⟨L, 0⟩ : ComboBox ℚ).itemData (i : ℤ))) =
          (fun i : ℕ => decide (L.getD i 0 ≤ pre)) := by
        funext i; simp [itemData_nat]
      simp only [hp, ComboBox.count, Int.toNat_ofNat]
      cases hs : scanUp (fun i : ℕ => decide (L.getD i 0 ≤ pre)) L.length 0 with
      | none =>
        have := scanUp_none _ _ _ hs (L.length - 1) (by omega) (by omega)
        simp only [decide_eq_false_iff_not, not_le] at this
        exact absurd this c2
      | some j =>
        obtain ⟨-, hj, hpj, hbefore⟩ := scanUp_some _ _ _ _ hs
        refine ⟨j, by omega, ?_, Or.inr (Or.inr ⟨c1, c2, by simpa using hpj, ?_⟩)⟩
        · simp only [ComboBox.setCurrentIndex, ComboBox.count]
          rw [if_pos]
          constructor <;> omega
        · intro k hk
          have := hbefore k (by omega) hk
          simpa using this

/-- On a strictly decreasing ladder the re-snap of an entry's own value lands
on that entry. -/
theorem resnap_at_entry (L : List ℚ) (hpw : L.Pairwise (fun a b => a > b)) (i : ℕ)
    (hi : i < L.length) : (resnap (L.getD i 0) ⟨L, 0⟩).1 = ⟨L, (i : ℤ)⟩ := by
  have hL : L ≠ [] := by intro h; rw [h] at hi; simp at hi
  obtain ⟨j, hj, hbox, hcase⟩ := resnap_spec (L.getD i 0) L hL
  rw [hbox]
  have : j = i := by
    rcases hcase with ⟨h1, h2⟩ | ⟨h1, h2, h3⟩ | ⟨h1, h2, h3, h4⟩
    · rcases Nat.eq_zero_or_pos i with e | e
      · omega
      · have := sorted_getD L hpw 0 i e hi
        linarith
    · rcases Nat.lt_or_ge i (L.length - 1) with e | e
      · have := sorted_getD L hpw i (L.length - 1) e (by omega)
        linarith
      · omega
    · rcases Nat.lt_trichotomy j i with e | e | e
      · have hlt := sorted_getD L hpw j i e hi
        linarith
      · exact e
      · have := h4 i e
        linarith
  rw [this]

theorem select_hori_res_idem (t : ℚ) (box : ComboBox ℚ) :
    select_hori_res t (select_hori_res t box) = select_hori_res t box := by
  by_cases c : t ≠ box.itemData box.currentIndex
  · cases hs : scanDown (fun i : ℕ => decide (t = box.itemData (i : ℤ))) box.count.toNat with
    | none =>
      have e : select_hori_res t box = box := by
        unfold select_hori_res; rw [if_pos c, hs]
      rw [e, e]
    | some j =>
      have e : select_hori_res t box = box.setCurrentIndex j := by
        unfold select_hori_res; rw [if_pos c, hs]
      obtain ⟨hj, hpj, -⟩ := scanDown_some _ _ _ hs
      simp only [ComboBox.count, Int.toNat_ofNat] at hj
      have hj' : (j : ℤ) < box.items.length := by exact_mod_cast hj
      have hv : (box.setCurrentIndex j).currentIndex = j :=
        setCurrentIndex_valid _ _ (by omega) hj'
      have hval : (box.setCurrentIndex j).itemData (box.setCurrentIndex j).currentIndex = t := by
        rw [hv]
        have : t = box.itemData (j : ℤ) := by simpa using hpj
        rw [this]
        simp [ComboBox.itemData, ComboBox.setCurrentIndex]
      rw [e]
      unfold select_hori_res
      rw [if_neg (by rw [hval]; simp)]
  · have e : select_hori_res t box = box := by
      unfold select_hori_res; rw [if_neg c]
    rw [e, e]

/-- Every completed ladder from a non-negative start value is strictly decreasing. -/
theorem ladderLoop_pairwise (mode : DevMode) (samplerate fuel : ℕ) (d : ℚ) (L : List ℚ)
    (hd : 0 ≤ d) (h : ladderLoop mode samplerate fuel d = some L) :
    L ≠ [] ∧ L.Pairwise (fun a b => a > b) := by
  obtain ⟨t, ht⟩ := ladderLoop_head _ _ _ _ _ h
  refine ⟨by rw [ht]; simp, ?_⟩
  rcases hd.eq_or_lt with h0 | hpos
  · obtain ⟨c, hc, hfloor⟩ := notLast_floor mode samplerate
    have hnl : notLast mode samplerate (nextDuration d) = false := by
      by_contra hh
      have := hfloor _ (by simpa using hh)
      rw [← h0, nextDuration_zero] at this
      linarith
    cases fuel with
    | zero => simp [ladderLoop] at h
    | succ n =>
      rw [ladderLoop_succ, hnl] at h
      simp at h
      rw [← h]
      simp
  · exact (ladderLoop_sorted _ _ _ _ _ hpos h).2.2

/-- Refilling again from the value just selected reproduces the selector. -/
theorem refilled_idem (dev : DevInst) (pre : ℚ) (L : List ℚ) (hL : L ≠ [])
    (hpw : L.Pairwise (fun a b => a > b)) :
    refilled dev ((refilled dev pre L).itemData (refilled dev pre L).currentIndex) L =
      refilled dev pre L := by
  have hv := refilled_valid dev pre L hL
  have hi := refilled_items dev pre L
  obtain ⟨h0, h1⟩ := hv
  rw [hi] at h1
  obtain ⟨n, hn⟩ := Int.eq_ofNat_of_zero_le h0
  have hnl : n < L.length := by rw [hn] at h1; exact_mod_cast h1
  have hval : (refilled dev pre L).itemData (refilled dev pre L).currentIndex = L.getD n 0 := by
    rw [hn, itemData_nat, hi]
  have hbox : refilled dev pre L = ⟨L, (n : ℤ)⟩ := by
    cases hb : refilled dev pre L with
    | mk items idx =>
      rw [hb] at hi hn
      simp only at hi hn
      rw [hi, hn]
  have hre := resnap_at_entry L hpw n hnl
  rw [hval]
  unfold refilled at hbox ⊢
  simp only at hbox ⊢
  rw [hre]
  split_ifs at hbox ⊢ with hm
  · cases htb : dev.timebase with
    | none => rw [htb] at hbox; simpa using hbox.symm
    | some tb =>
      rw [htb] at hbox
      simp only at hbox ⊢
      rw [← hbox, select_hori_res_idem]
  · exact hbox.symm

/-- Evaluation of one step once the unit and the decade of the value are known. -/
theorem nextDuration_eval (d u : ℚ) (k : ℤ) (hu : timeUnit d = u)
    (h1 : (10 : ℚ) ^ k * u ≤ d) (h2 : d < (10 : ℚ) ^ (k + 1) * u) :
    nextDuration d =
      if d > 5 * (10 : ℚ) ^ k * u then 5 * (10 : ℚ) ^ k * u
      else if d > 2 * (10 : ℚ) ^ k * u then 2 * (10 : ℚ) ^ k * u
      else if d > (10 : ℚ) ^ k * u then (10 : ℚ) ^ k * u
      else if (10 : ℚ) ^ k > 1 then d * (1 / 2)
      else if u = (SR_DAY 1 : ℕ) then ((SR_HOUR 20 : ℕ) : ℚ)
      else if u = (SR_HOUR 1 : ℕ) then ((SR_MIN 50 : ℕ) : ℚ)
      else if u = (SR_MIN 1 : ℕ) then ((SR_SEC 50 : ℕ) : ℚ)
      else d * (1 / 2) := by
  have hu0 : 0 < u := hu ▸ timeUnit_pos d
  have hlog : pow10FloorLog10 (d / u) = (10 : ℚ) ^ k :=
    pow10FloorLog10_eq _ k ((le_div_iff₀ hu0).2 h1) ((div_lt_iff₀ hu0).2 h2)
  simp only [nextDuration, hu, hlog]

/-- The ladder of a logic analyzer of depth 5800 samples at 1 Hz: 5800 s, 1 h,
50 min, 20 min. -/
theorem ladder_5800_at_1Hz :
    ladderLoop DevMode.LOGIC 1 4 5800000000000 =
      some [5800000000000, 3600000000000, 3000000000000, 1200000000000] := by
  have hH : ∀ d : ℚ, 3600000000000 ≤ d → d < 86400000000000 → timeUnit d = 3600000000000 := by
    intro d h1 h2
    unfold timeUnit SR_DAY SR_HOUR SR_MIN
    rw [if_neg (by push_cast; linarith), if_pos (by push_cast; linarith)]
    norm_num
  have hM : ∀ d : ℚ, 60000000000 ≤ d → d < 3600000000000 → timeUnit d = 60000000000 := by
    intro d h1 h2
    unfold timeUnit SR_DAY SR_HOUR SR_MIN
    rw [if_neg (by push_cast; linarith), if_neg (by push_cast; linarith),
      if_pos (by push_cast; linarith)]
    norm_num
  have n1 : nextDuration 5800000000000 = 3600000000000 := by
    rw [nextDuration_eval 5800000000000 3600000000000 0 (hH _ (by norm_num) (by norm_num))
      (by norm_num) (by norm_num)]
    norm_num [SR_DAY, SR_HOUR, SR_MIN, SR_SEC]
  have n2 : nextDuration 3600000000000 = 3000000000000 := by
    rw [nextDuration_eval 3600000000000 3600000000000 0 (hH _ (by norm_num) (by norm_num))
      (by norm_num) (by norm_num)]
    norm_num [SR_DAY, SR_HOUR, SR_MIN, SR_SEC]
  have n3 : nextDuration 3000000000000 = 1200000000000 := by
    rw [nextDuration_eval 3000000000000 60000000000 1 (hM _ (by norm_num) (by norm_num))
      (by norm_num) (by norm_num)]
    norm_num [SR_DAY, SR_HOUR, SR_MIN, SR_SEC]
  have n4 : nextDuration 1200000000000 = 600000000000 := by
    rw [nextDuration_eval 1200000000000 60000000000 1 (hM _ (by norm_num) (by norm_num))
      (by norm_num) (by norm_num)]
    norm_num [SR_DAY, SR_HOUR, SR_MIN, SR_SEC]
  have hn : ∀ x : ℚ, notLast DevMode.LOGIC 1 x = decide (1024000000000 ≤ x) := by
    intro x
    simp only [notLast, SR_SEC, SR_KB]
    rw [if_neg (by decide)]
    congr 1
    push_cast
    apply propext
    constructor <;> intro h <;> linarith
  rw [ladderLoop_succ, n1, hn, if_pos (by simp; norm_num), ladderLoop_succ, n2, hn,
    if_pos (by simp; norm_num), ladderLoop_succ, n3, hn, if_pos (by simp; norm_num),
    ladderLoop_succ, n4, hn, if_neg (by simp; norm_num)]
  rfl

theorem select_hori_res_cases (t : ℚ) (box : ComboBox ℚ) :
    select_hori_res t box = box ∨
      ∃ j : ℕ, j < box.items.length ∧ select_hori_res t box = ⟨box.items, (j : ℤ)⟩ ∧
        box.items.getD j 0 = t := by
  unfold select_hori_res
  split_ifs with c
  · cases hs : scanDown (fun i : ℕ => decide (t = box.itemData (i : ℤ))) box.count.toNat with
    | none => left; rfl
    | some j =>
      right
      obtain ⟨hj, hpj, -⟩ := scanDown_some _ _ _ hs
      simp only [ComboBox.count, Int.toNat_ofNat] at hj
      refine ⟨j, hj, ?_, ?_⟩
      · simp only [ComboBox.setCurrentIndex, ComboBox.count]
        rw [if_pos]
        constructor <;> omega
      · have : t = box.itemData (j : ℤ) := by simpa using hpj
        rw [this, itemData_nat]
  · left; rfl

/-! ## Facts about the rate selector -/

theorem set_config_sample_rate (s : SamplingBar) (w : ConfigWrite) :
    (s.set_config w).sample_rate = s.sample_rate ∧
      (s.set_config w).sample_count = s.sample_count := by
  unfold SamplingBar.set_config
  cases s.device <;> exact ⟨rfl, rfl⟩

theorem commit_settings_boxes (env : Env) (s : SamplingBar) :
    (commit_settings env s).sample_rate = s.sample_rate ∧
      (commit_settings env s).sample_count = s.sample_count := by
  unfold commit_settings
  cases hd : s.device with
  | none => exact ⟨rfl, rfl⟩
  | some dev =>
    simp only
    split_ifs <;> simp [set_config_sample_rate]

theorem update_sample_count_selector_rate (env : Env) (fuel : ℕ) (s s' : SamplingBar)
    (h : update_sample_count_selector env fuel s = Except.ok s') :
    s'.sample_rate = s.sample_rate := by
  cases hg : s.updating_sample_count with
  | true =>
    simp [update_sample_count_selector, hg] at h
    rw [← h]
  | false =>
    cases hd : s.device with
    | none =>
      simp [update_sample_count_selector, hg, SamplingBar.deref_device, hd, bind,
        Except.bind] at h
    | some dev =>
      obtain ⟨L, -, -, hr, -⟩ := update_sample_count_selector_ladder env fuel s s' dev hg hd h
      exact hr

theorem on_samplerate_sel_rate (env : Env) (fuel : ℕ) (s s' : SamplingBar)
    (h : on_samplerate_sel env fuel s = Except.ok s') : s'.sample_rate = s.sample_rate := by
  unfold on_samplerate_sel at h
  cases hd : s.device with
  | none => simp [SamplingBar.deref_device, hd, bind, Except.bind] at h
  | some dev =>
    simp only [SamplingBar.deref_device, hd, bind, Except.bind] at h
    split_ifs at h with c
    · exact update_sample_count_selector_rate env fuel s s' h
    · cases h; rfl

theorem set_rate_index_rate (env : Env) (fuel : ℕ) (i : ℤ) (s s' : SamplingBar)
    (h : set_rate_index env fuel i s = Except.ok s') :
    s'.sample_rate = s.sample_rate.setCurrentIndex i := by
  unfold set_rate_index at h
  simp only at h
  split_ifs at h with c
  · exact on_samplerate_sel_rate env fuel _ s' h
  · cases h; rfl

/-- The rate selector after `set_sample_rate`: the last entry of the list that
does not exceed the requested rate becomes current; when every entry exceeds
it, the selector is left as it was. -/
theorem set_sample_rate_rate (env : Env) (fuel : ℕ) (sample_rate : ℕ) (s s' : SamplingBar)
    (h : set_sample_rate env fuel sample_rate s = Except.ok s') :
    s'.sample_rate =
      match scanDown (fun i => decide (sample_rate ≥ s.sample_rate.itemData i))
          s.sample_rate.count.toNat with
      | some i => s.sample_rate.setCurrentIndex i
      | none => s.sample_rate := by
  unfold set_sample_rate at h
  cases hs : scanDown (fun i : ℕ => decide (sample_rate ≥ s.sample_rate.itemData (i : ℤ)))
      s.sample_rate.count.toNat with
  | none =>
    simp only [hs, bind, Except.bind] at h
    cases h
    exact (commit_settings_boxes env s).1
  | some i =>
    simp only [hs, bind, Except.bind] at h
    cases h1 : set_rate_index env fuel (i : ℤ) s with
    | error e => rw [h1] at h; cases h
    | ok s1 =>
      rw [h1] at h
      cases h
      simp only
      rw [(commit_settings_boxes env s1).1]
      exact set_rate_index_rate env fuel _ s s1 h1

/-- A call of `commit_hori_res` that finds `MAX_DSO_SAMPLERATE` readable has
asked `set_sample_rate` for the rate of lines 621-624. -/
theorem commit_hori_res_rate (env : Env) (fuel : ℕ) (s s' : SamplingBar) (r : ℚ) (dev : DevInst)
    (m : ℕ) (hdev : s.device = some dev) (hmax : dev.max_dso_samplerate = some m)
    (h : commit_hori_res env fuel s = Except.ok (s', r)) :
    r = selected_duration s ∧
    s'.sample_rate =
      match scanDown (fun i => decide
          (dso_sample_rate dev.sample_limit (selected_duration s) m s.session.ch_num_dso ≥
            s.sample_rate.itemData i)) s.sample_rate.count.toNat with
      | some i => s.sample_rate.setCurrentIndex i
      | none => s.sample_rate := by
  unfold commit_hori_res at h
  unfold selected_duration
  have hd1 : ∀ b : Bool, (if b then s.log Event.refresh else s).device = some dev := by
    intro b; cases b <;> simp [SamplingBar.log, hdev]
  have hr1 : ∀ b : Bool, (if b then s.log Event.refresh else s).sample_rate = s.sample_rate := by
    intro b; cases b <;> simp [SamplingBar.log]
  simp only [bind, Except.bind, SamplingBar.deref_device] at h
  have hdd := hd1 (decide (s.session.capture_state = CaptureState.Running))
  have hrr := hr1 (decide (s.session.capture_state = CaptureState.Running))
  simp only [decide_eq_true_eq] at hdd hrr
  rw [hdd] at h
  simp only [hmax] at h
  cases h2 : set_sample_rate env fuel
      (dso_sample_rate dev.sample_limit (s.sample_count.itemData s.sample_count.currentIndex) m
        s.session.ch_num_dso)
      (if s.session.capture_state = CaptureState.Running then s.log Event.refresh else s) with
  | error e => rw [h2] at h; cases h
  | ok s2 =>
    rw [h2] at h
    have hs2 := set_sample_rate_rate env fuel _ _ s2 h2
    rw [hrr] at hs2
    cases hd2 : s2.device with
    | none => simp only [hd2] at h; cases h
    | some dev2 =>
      simp only [hd2, Except.ok.injEq, Prod.mk.injEq] at h
      obtain ⟨h3, h4⟩ := h
      refine ⟨h4.symm, ?_⟩
      rw [← h3, (set_config_sample_rate _ _).1]
      split_ifs
      · exact hs2
      · exact hs2

theorem set_config_device (s : SamplingBar) (w : ConfigWrite) (dev : DevInst)
    (hdev : s.device = some dev) : (s.set_config w).device = some (dev.set_config w) := by
  unfold SamplingBar.set_config
  rw [hdev]

theorem commit_settings_device (env : Env) (s : SamplingBar) (dev : DevInst)
    (hdev : s.device = some dev) : ∃ dev', (commit_settings env s).device = some dev' := by
  have sc : ∀ (t : SamplingBar) (w : ConfigWrite), (∃ d, t.device = some d) →
      ∃ d, (t.set_config w).device = some d := by
    intro t w ⟨d, hd⟩
    exact ⟨_, set_config_device t w d hd⟩
  have h0 : ∃ d, s.device = some d := ⟨dev, hdev⟩
  unfold commit_settings
  simp only [hdev]
  split_ifs
  · exact sc _ _ (sc _ _ (sc _ _ h0))
  · exact sc _ _ (sc _ _ h0)
  · exact sc _ _ (sc _ _ h0)
  · exact sc _ _ h0
  · exact sc _ _ h0
  · exact h0

/-- In oscilloscope mode `commit_hori_res` returns whatever the fuel. -/
theorem commit_hori_res_returns_dso (env : Env) (fuel : ℕ) (s : SamplingBar) (dev : DevInst)
    (hdev : s.device = some dev) (hm : dev.mode = DevMode.DSO) :
    ∃ s' r, commit_hori_res env fuel s = Except.ok (s', r) := by
  have hsel : ∀ t : SamplingBar, t.device = some dev →
      on_samplerate_sel env fuel t = Except.ok t := by
    intro t ht
    simp [on_samplerate_sel, SamplingBar.deref_device, ht, hm, bind, Except.bind]
  have hidx : ∀ (i : ℤ) (t : SamplingBar), t.device = some dev →
      ∃ t', set_rate_index env fuel i t = Except.ok t' ∧ t'.device = some dev := by
    intro i t ht
    unfold set_rate_index
    simp only
    split_ifs
    · exact ⟨_, hsel _ ht, ht⟩
    · exact ⟨_, rfl, ht⟩
  have hset : ∀ (r : ℕ) (t : SamplingBar), t.device = some dev →
      ∃ t', set_sample_rate env fuel r t = Except.ok t' ∧ ∃ d, t'.device = some d := by
    intro r t ht
    unfold set_sample_rate
    cases scanDown (fun i : ℕ => decide (r ≥ t.sample_rate.itemData (i : ℤ)))
        t.sample_rate.count.toNat with
    | none =>
      exact ⟨_, rfl, commit_settings_device env t dev ht⟩
    | some i =>
      obtain ⟨t1, h1, hd1⟩ := hidx i t ht
      simp only [h1, bind, Except.bind]
      exact ⟨_, rfl, commit_settings_device env t1 dev hd1⟩
  unfold commit_hori_res
  have hd1 : (if s.session.capture_state = CaptureState.Running then s.log Event.refresh
      else s).device = some dev := by
    split_ifs <;> simp [SamplingBar.log, hdev]
  simp only [bind, Except.bind, SamplingBar.deref_device, hd1]
  cases hmax : dev.max_dso_samplerate with
  | none => exact ⟨_, _, rfl⟩
  | some m =>
    simp only
    obtain ⟨t', h1, d, hd⟩ := hset
      (dso_sample_rate dev.sample_limit (s.sample_count.itemData s.sample_count.currentIndex) m
        s.session.ch_num_dso) _ hd1
    rw [h1]
    simp only [hd]
    exact ⟨_, _, rfl⟩

theorem dso_sample_rate_eq_spec (sample_limit : ℕ) (hori_res : ℚ) (max_sample_rate ch_num : ℕ)
    (hwrap : sample_limit * SR_SEC 1 < 2 ^ 64) :
    dso_sample_rate sample_limit hori_res max_sample_rate ch_num =
      implied_rate_spec sample_limit hori_res max_sample_rate ch_num := by
  unfold dso_sample_rate implied_rate_spec
  rw [Nat.mod_eq_of_lt hwrap, Nat.floor_div_eq_div]
  have e : (if ch_num ≠ 0 then ch_num else 1) = max ch_num 1 := by
    split_ifs with c
    · omega
    · omega
  rw [e]
  unfold SR_SEC DS_CONF_DSO_HDIVS
  push_cast
  rfl

/-- The computed rate never exceeds either operand of the specification's
minimum, wrap or no wrap. -/
theorem dso_sample_rate_le (sample_limit : ℕ) (hori_res : ℚ) (max_sample_rate ch_num : ℕ)
    (hres : 0 < hori_res) :
    dso_sample_rate sample_limit hori_res max_sample_rate ch_num ≤
        max_sample_rate / max ch_num 1 ∧
      (dso_sample_rate sample_limit hori_res max_sample_rate ch_num : ℚ) ≤
        (sample_limit : ℚ) * 1000000000 / (hori_res * 10) := by
  have e : (if ch_num ≠ 0 then ch_num else 1) = max ch_num 1 := by
    split_ifs with c
    · omega
    · omega
  unfold dso_sample_rate
  rw [e]
  refine ⟨min_le_right _ _, ?_⟩
  have hden : (0 : ℚ) < hori_res * ((DS_CONF_DSO_HDIVS : ℕ) : ℚ) := by
    unfold DS_CONF_DSO_HDIVS; positivity
  have h1 : ((min ⌊(((sample_limit * SR_SEC 1) % 2 ^ 64 : ℕ) : ℚ) /
      (hori_res * ((DS_CONF_DSO_HDIVS : ℕ) : ℚ))⌋₊ (max_sample_rate / max ch_num 1) : ℕ) : ℚ) ≤
      (⌊(((sample_limit * SR_SEC 1) % 2 ^ 64 : ℕ) : ℚ) /
        (hori_res * ((DS_CONF_DSO_HDIVS : ℕ) : ℚ))⌋₊ : ℚ) := by
    exact_mod_cast min_le_left _ _
  have h2 := Nat.floor_le (div_nonneg (Nat.cast_nonneg ((sample_limit * SR_SEC 1) % 2 ^ 64))
    hden.le : (0 : ℚ) ≤ (((sample_limit * SR_SEC 1) % 2 ^ 64 : ℕ) : ℚ) /
      (hori_res * ((DS_CONF_DSO_HDIVS : ℕ) : ℚ)))
  have h3 : (((sample_limit * SR_SEC 1) % 2 ^ 64 : ℕ) : ℚ) ≤ (sample_limit : ℚ) * 1000000000 := by
    have : (sample_limit * SR_SEC 1) % 2 ^ 64 ≤ sample_limit * 1000000000 := by
      unfold SR_SEC
      rw [one_mul]
      exact Nat.mod_le _ _
    exact_mod_cast this
  have h4 : (((sample_limit * SR_SEC 1) % 2 ^ 64 : ℕ) : ℚ) /
      (hori_res * ((DS_CONF_DSO_HDIVS : ℕ) : ℚ)) ≤
      (sample_limit : ℚ) * 1000000000 / (hori_res * 10) := by
    have e10 : ((DS_CONF_DSO_HDIVS : ℕ) : ℚ) = 10 := by unfold DS_CONF_DSO_HDIVS; norm_num
    rw [e10]
    exact div_le_div_of_nonneg_right h3 (by positivity)
  linarith

/-! ## Facts about `commit_settings` and the run/stop slots -/

/-- The device writes of `commit_settings`, in order. -/
theorem commit_settings_trace (env : Env) (s : SamplingBar) (dev : DevInst)
    (hdev : s.device = some dev) :
    (commit_settings env s).trace = s.trace ++
      ((if selected_rate s ≠ dev.sample_rate then
          [Event.set_config (ConfigWrite.SAMPLERATE (selected_rate s))] else []) ++
       (if dev.mode ≠ DevMode.DSO then
          (if commit_sample_count s ≠ dev.sample_limit then
            [Event.set_config (ConfigWrite.LIMIT_SAMPLES (commit_sample_count s))] else []) ++
          [Event.set_config (ConfigWrite.RLE (decide (0 ≤ s.sample_count.currentIndex) &&
            env.labelHasRLE (s.sample_count.itemData s.sample_count.currentIndex)))]
        else [])) := by
  unfold commit_settings selected_rate
  simp only [hdev]
  split_ifs <;> simp [SamplingBar.set_config, hdev]

theorem commit_settings_frame (env : Env) (s : SamplingBar) :
    (commit_settings env s).session = s.session ∧
    (commit_settings env s).sampling = s.sampling ∧
    (commit_settings env s).instant = s.instant ∧
    (commit_settings env s).run_stop_enabled = s.run_stop_enabled ∧
    (commit_settings env s).instant_enabled = s.instant_enabled := by
  unfold commit_settings
  cases hd : s.device with
  | none => simp
  | some dev =>
    simp only
    split_ifs <;> simp [SamplingBar.set_config, hd]

/-- `commit_settings` issues device writes only. -/
theorem commit_settings_writes (env : Env) (s : SamplingBar) :
    ∃ new, (commit_settings env s).trace = s.trace ++ new ∧
      ∀ e ∈ new, ∃ w, e = Event.set_config w := by
  cases hd : s.device with
  | none =>
    refine ⟨[], ?_, by simp⟩
    simp [commit_settings, hd]
  | some dev =>
    refine ⟨_, commit_settings_trace env s dev hd, ?_⟩
    intro e he
    simp only [List.mem_append] at he
    rcases he with he | he
    · split_ifs at he
      · exact ⟨_, by simpa using he⟩
      · simp at he
    · split_ifs at he
      · simp only [List.mem_append, List.mem_singleton] at he
        rcases he with he | he
        · exact ⟨_, by simpa using he⟩
        · exact ⟨_, he⟩
      · simp only [List.mem_append, List.mem_singleton, List.not_mem_nil, false_or] at he
        exact ⟨_, he⟩
      · simp at he

/-- While sampling, `on_run_stop` leaves one of two states: the repeat flag
cleared, with or without the stop command and the Stopped notification. -/
theorem on_run_stop_armed (env : Env) (accept : Bool) (waits : List Wait)
    (s s' : SamplingBar)
    (hs : s.sampling = true) (h : on_run_stop env accept waits s = Except.ok s') :
    s' = set_repeating false s ∨
      s' = ((set_repeating false s).log Event.stop_capture).log
        Event.capture_state_changed_Stopped := by
  have hmode : (set_repeating false s).session.run_mode = s.session.run_mode := by
    simp [set_repeating, SamplingBar.log]
  have hdev : (set_repeating false s).device = s.device := by
    simp [set_repeating, SamplingBar.log]
  simp only [on_run_stop, hs, Bool.true_or, if_true, hmode, bind, Except.bind, pure,
    Except.pure, SamplingBar.deref_device, hdev] at h
  by_cases hrm : s.session.run_mode = RunMode.Repetitive
  · simp only [hrm, ne_eq, not_true_eq_false, if_false, Bool.not_false, if_true,
      Except.ok.injEq] at h
    right; exact h.symm
  · simp only [hrm, ne_eq, not_false_eq_true, if_true] at h
    rcases hd : s.device with _ | dev
    · simp [hd] at h
    · simp only [hd] at h
      rcases hw : dev.wait_upload with _ | b
      · simp only [hw, Bool.not_false, if_true, Except.ok.injEq] at h
        right; exact h.symm
      · cases b
        · simp only [hw, Bool.not_false, if_true, Except.ok.injEq] at h
          right; exact h.symm
        · simp only [hw, Bool.not_true, Bool.false_eq_true, if_false, Except.ok.injEq] at h
          left; exact h.symm

/-- `commit_settings` keeps the device selected, in its mode and with its
pending-calibration flag. -/
theorem commit_settings_mode (env : Env) (s : SamplingBar) (dev : DevInst)
    (hdev : s.device = some dev) :
    ∃ dev', (commit_settings env s).device = some dev' ∧ dev'.mode = dev.mode ∧
      dev'.zero = dev.zero := by
  unfold commit_settings
  simp only [hdev]
  split_ifs <;> simp [SamplingBar.set_config, hdev, DevInst.set_config]

/-- The zero test of lines 688-694 sees through `commit_settings`. -/
theorem prepared_device (env : Env) (instant : Bool) (s : SamplingBar) (dev : DevInst)
    (hdev : s.device = some dev) :
    ∃ dev', (prepared env instant s).device = some dev' ∧ dev'.mode = dev.mode ∧
      dev'.zero = dev.zero := by
  obtain ⟨dev', hd', hm', hz'⟩ := commit_settings_mode env
    (enable_instant false (enable_run_stop false s)) dev hdev
  exact ⟨dev', hd', hm', hz'⟩

theorem prepared_no_device (env : Env) (instant : Bool) (s : SamplingBar)
    (hdev : s.device = none) :
    prepared env instant s =
      { enable_instant false (enable_run_stop false s) with instant := instant } := by
  simp [prepared, commit_settings, enable_instant, enable_run_stop, hdev]

/-- What `prepared` keeps and what it sets. -/
theorem prepared_frame (env : Env) (instant : Bool) (s : SamplingBar) :
    (prepared env instant s).session = s.session ∧
    (prepared env instant s).sampling = s.sampling ∧
    (prepared env instant s).instant = instant ∧
    (prepared env instant s).run_stop_enabled = false ∧
    (prepared env instant s).instant_enabled = false := by
  obtain ⟨f1, f2, -, f4, f5⟩ := commit_settings_frame env
    (enable_instant false (enable_run_stop false s))
  exact ⟨f1, f2, rfl, f4, f5⟩

/-- Up to `prepared` only device writes are issued. -/
theorem prepared_writes (env : Env) (instant : Bool) (s : SamplingBar) :
    ∃ new, (prepared env instant s).trace = s.trace ++ new ∧
      ∀ e ∈ new, ∃ w, e = Event.set_config w :=
  commit_settings_writes env (enable_instant false (enable_run_stop false s))

/-- The trace up to `prepared` does not depend on the instant flag. -/
theorem prepared_instant (env : Env) (a b : Bool) (s : SamplingBar) :
    prepared env b s = { prepared env a s with instant := b } := rfl

/-- One run of `zero_adj`: it enables the oscilloscope signals, emits the run
start request, shows the waiting dialog and, if that was rejected, has the
signals commit their settings; if the capture is running afterwards it calls
`on_run_stop`. -/
theorem zero_adj_cons (env : Env) (w : Wait) (rest : List Wait) (s : SamplingBar) :
    zero_adj env (w :: rest) s =
      if (w.after (zero_adj_logged w.rejected s)).session.capture_state =
          CaptureState.Running then
        on_run_stop env w.accept rest
          { w.after (zero_adj_logged w.rejected s) with
            trace := (zero_adj_logged w.rejected s).trace }
      else
        Except.ok { w.after (zero_adj_logged w.rejected s) with
          trace := (zero_adj_logged w.rejected s).trace } := by
  rw [zero_adj]
  rfl

theorem zero_adj_nil (env : Env) (s : SamplingBar) :
    zero_adj env [] s = Except.error Fault.out_of_fuel := by
  rw [zero_adj]

theorem zero_adj_logged_trace (rejected : Bool) (s : SamplingBar) :
    (zero_adj_logged rejected s).trace =
      s.trace ++ [Event.dso_set_enable, Event.run_stop, Event.waiting_dialog] ++
        (if rejected then [Event.dso_commit_settings] else []) := by
  cases rejected <;> simp [zero_adj_logged, SamplingBar.log]

/-- While idle and not repeating, with no device selected, `on_run_stop`
returns after the preparation. -/
theorem on_run_stop_no_device (env : Env) (accept : Bool) (waits : List Wait)
    (s : SamplingBar) (hs : s.sampling = false) (hr : s.session.repeating = false)
    (hdev : s.device = none) :
    on_run_stop env accept waits s = Except.ok (prepared env false s) := by
  have hd : (prepared env false s).device = none := by
    rw [prepared_no_device env false s hdev]; exact hdev
  rw [on_run_stop]
  simp only [hs, hr, Bool.or_false, Bool.false_eq_true, if_false]
  split
  · rfl
  · rename_i d heq
    exact absurd (hd.symm.trans heq) (by simp)

/-- While idle and not repeating, with a device that needs no calibration,
`on_run_stop` disables both start controls, commits the settings and emits
the start request. -/
theorem on_run_stop_start (env : Env) (accept : Bool) (waits : List Wait) (s : SamplingBar)
    (dev : DevInst) (hs : s.sampling = false) (hr : s.session.repeating = false)
    (hdev : s.device = some dev) (hz : dev.mode ≠ DevMode.DSO ∨ dev.zero ≠ some true) :
    on_run_stop env accept waits s = Except.ok ((prepared env false s).log Event.run_stop) := by
  obtain ⟨dev', hd', hm', hz'⟩ := prepared_device env false s dev hdev
  rw [on_run_stop]
  simp only [hs, hr, Bool.or_false, Bool.false_eq_true, if_false]
  split
  · rename_i heq
    exact absurd (hd'.symm.trans heq) (by simp)
  · rename_i d heq
    have hdd : dev' = d := Option.some.inj (hd'.symm.trans heq)
    subst hdd
    rw [← hm', ← hz'] at hz
    by_cases hmm : dev'.mode = DevMode.DSO
    · rcases hzv : dev'.zero with _ | b
      · simp only [hmm, hzv, if_true, Bool.false_eq_true, if_false]
        rfl
      · cases b
        · simp only [hmm, hzv, if_true, Bool.false_eq_true, if_false]
          rfl
        · exact absurd hzv (hz.resolve_left (not_not.2 hmm))
    · simp only [hmm, if_false, Bool.false_eq_true]
      rfl

/-- While idle and not repeating, with a calibration pending and declined,
`on_run_stop` writes `ZERO = false` and enables both start controls again. -/
theorem on_run_stop_declined (env : Env) (waits : List Wait) (s : SamplingBar)
    (dev : DevInst) (hs : s.sampling = false) (hr : s.session.repeating = false)
    (hdev : s.device = some dev) (hm : dev.mode = DevMode.DSO) (hz : dev.zero = some true) :
    on_run_stop env false waits s = Except.ok (enable_instant true (enable_run_stop true
      (((prepared env false s).log Event.calibration_dialog).set_config
        (ConfigWrite.ZERO false)))) := by
  obtain ⟨dev', hd', hm', hz'⟩ := prepared_device env false s dev hdev
  rw [on_run_stop]
  simp only [hs, hr, Bool.or_false, Bool.false_eq_true, if_false]
  split
  · rename_i heq
    exact absurd (hd'.symm.trans heq) (by simp)
  · rename_i d heq
    have hdd : dev' = d := Option.some.inj (hd'.symm.trans heq)
    subst hdd
    rw [← hm'] at hm
    rw [← hz'] at hz
    simp only [hm, hz, if_true, Bool.false_eq_true, if_false]
    rfl

/-- While idle and not repeating, with a calibration pending and accepted,
`on_run_stop` shows the dialog and hands over to `zero_adj`. -/
theorem on_run_stop_calibrate (env : Env) (waits : List Wait) (s : SamplingBar)
    (dev : DevInst) (hs : s.sampling = false) (hr : s.session.repeating = false)
    (hdev : s.device = some dev) (hm : dev.mode = DevMode.DSO) (hz : dev.zero = some true) :
    on_run_stop env true waits s =
      zero_adj env waits ((prepared env false s).log Event.calibration_dialog) := by
  obtain ⟨dev', hd', hm', hz'⟩ := prepared_device env false s dev hdev
  rw [on_run_stop]
  simp only [hs, hr, Bool.or_false, Bool.false_eq_true, if_false]
  split
  · rename_i heq
    exact absurd (hd'.symm.trans heq) (by simp)
  · rename_i d heq
    have hdd : dev' = d := Option.some.inj (hd'.symm.trans heq)
    subst hdd
    rw [← hm'] at hm
    rw [← hz'] at hz
    simp only [hm, hz, if_true]
    rfl

/-- The same four cases for `on_instant_stop`, which tests the sampling flag
alone: no device selected. -/
theorem on_instant_stop_no_device (env : Env) (accept : Bool) (waits : List Wait)
    (s : SamplingBar) (hs : s.sampling = false)
    (hdev : s.device = none) :
    on_instant_stop env accept waits s = Except.ok (prepared env true s) := by
  have hd : (prepared env true s).device = none := by
    rw [prepared_no_device env true s hdev]; exact hdev
  rw [on_instant_stop]
  simp only [hs, Bool.false_eq_true, if_false]
  split
  · rfl
  · rename_i d heq
    exact absurd (hd.symm.trans heq) (by simp)

/-- No calibration pending: the instant start request is emitted. -/
theorem on_instant_stop_start (env : Env) (accept : Bool) (waits : List Wait) (s : SamplingBar)
    (dev : DevInst) (hs : s.sampling = false)
    (hdev : s.device = some dev) (hz : dev.mode ≠ DevMode.DSO ∨ dev.zero ≠ some true) :
    on_instant_stop env accept waits s = Except.ok ((prepared env true s).log Event.instant_stop) := by
  obtain ⟨dev', hd', hm', hz'⟩ := prepared_device env true s dev hdev
  rw [on_instant_stop]
  simp only [hs, Bool.false_eq_true, if_false]
  split
  · rename_i heq
    exact absurd (hd'.symm.trans heq) (by simp)
  · rename_i d heq
    have hdd : dev' = d := Option.some.inj (hd'.symm.trans heq)
    subst hdd
    rw [← hm', ← hz'] at hz
    by_cases hmm : dev'.mode = DevMode.DSO
    · rcases hzv : dev'.zero with _ | b
      · simp only [hmm, hzv, if_true, Bool.false_eq_true, if_false]
        rfl
      · cases b
        · simp only [hmm, hzv, if_true, Bool.false_eq_true, if_false]
          rfl
        · exact absurd hzv (hz.resolve_left (not_not.2 hmm))
    · simp only [hmm, if_false, Bool.false_eq_true]
      rfl

/-- Calibration pending and declined. -/
theorem on_instant_stop_declined (env : Env) (waits : List Wait) (s : SamplingBar)
    (dev : DevInst) (hs : s.sampling = false)
    (hdev : s.device = some dev) (hm : dev.mode = DevMode.DSO) (hz : dev.zero = some true) :
    on_instant_stop env false waits s = Except.ok (enable_instant true (enable_run_stop true
      (((prepared env true s).log Event.calibration_dialog).set_config
        (ConfigWrite.ZERO false)))) := by
  obtain ⟨dev', hd', hm', hz'⟩ := prepared_device env true s dev hdev
  rw [on_instant_stop]
  simp only [hs, Bool.false_eq_true, if_false]
  split
  · rename_i heq
    exact absurd (hd'.symm.trans heq) (by simp)
  · rename_i d heq
    have hdd : dev' = d := Option.some.inj (hd'.symm.trans heq)
    subst hdd
    rw [← hm'] at hm
    rw [← hz'] at hz
    simp only [hm, hz, if_true, Bool.false_eq_true, if_false]
    rfl

/-- Calibration pending and accepted. -/
theorem on_instant_stop_calibrate (env : Env) (waits : List Wait) (s : SamplingBar)
    (dev : DevInst) (hs : s.sampling = false)
    (hdev : s.device = some dev) (hm : dev.mode = DevMode.DSO) (hz : dev.zero = some true) :
    on_instant_stop env true waits s =
      zero_adj env waits ((prepared env true s).log Event.calibration_dialog) := by
  obtain ⟨dev', hd', hm', hz'⟩ := prepared_device env true s dev hdev
  rw [on_instant_stop]
  simp only [hs, Bool.false_eq_true, if_false]
  split
  · rename_i heq
    exact absurd (hd'.symm.trans heq) (by simp)
  · rename_i d heq
    have hdd : dev' = d := Option.some.inj (hd'.symm.trans heq)
    subst hdd
    rw [← hm'] at hm
    rw [← hz'] at hz
    simp only [hm, hz, if_true]
    rfl

/-! ## Facts about the grid, the guards, capability failures and the start branches -/

/-- The length of a completed ladder is the number of steps after which the
stepped value first fails the loop test. -/
theorem ladderLoop_iterate (mode : DevMode) (samplerate : ℕ) :
    ∀ (fuel : ℕ) (d : ℚ) (L : List ℚ), ladderLoop mode samplerate fuel d = some L →
      0 < L.length ∧ ladderLoop mode samplerate L.length d = some L ∧
      notLast mode samplerate (nextDuration^[L.length] d) = false ∧
      ∀ i, 0 < i → i < L.length → notLast mode samplerate (nextDuration^[i] d) = true := by
  intro fuel
  induction fuel with
  | zero => intro d L h; simp [ladderLoop] at h
  | succ n ih =>
    intro d L h
    rw [ladderLoop_succ] at h
    split_ifs at h with c
    · cases hr : ladderLoop mode samplerate n (nextDuration d) with
      | none => simp [hr] at h
      | some L' =>
        rw [hr] at h
        simp only [Option.map_some', Option.some.injEq] at h
        subst h
        obtain ⟨h0, h1, h2, h3⟩ := ih _ _ hr
        refine ⟨by simp, ?_, ?_, ?_⟩
        · rw [List.length_cons, ladderLoop_succ, if_pos c, h1]
          rfl
        · simpa [Function.iterate_succ_apply] using h2
        · intro i hi hlt
          obtain ⟨j, rfl⟩ : ∃ j, i = j + 1 := ⟨i - 1, by omega⟩
          rw [Function.iterate_succ_apply]
          rcases Nat.eq_zero_or_pos j with hj | hj
          · subst hj; simpa using c
          · exact h3 j hj (by simp at hlt; omega)
    · simp only [Option.some.injEq] at h
      subst h
      refine ⟨by simp, by simp [ladderLoop, c], by simpa using c, ?_⟩
      intro i hi hlt
      simp at hlt
      omega

theorem except_bind_ok {α β : Type} (x : Except Fault α) (f : α → Except Fault β) (b : β)
    (h : x >>= f = Except.ok b) : ∃ a, x = Except.ok a ∧ f a = Except.ok b := by
  cases x with
  | error e => cases h
  | ok a => exact ⟨a, rfl, h⟩

theorem deref_device_ok (s : SamplingBar) (dev : DevInst)
    (h : s.deref_device = Except.ok dev) : s.device = some dev := by
  unfold SamplingBar.deref_device at h
  cases hd : s.device with
  | none => rw [hd] at h; cases h
  | some d => rw [hd] at h; cases h; rfl

/-- `update_sample_count_selector` leaves both guard flags as it found them. -/
theorem update_sample_count_selector_flags (env : Env) (fuel : ℕ) (s s' : SamplingBar)
    (h : update_sample_count_selector env fuel s = Except.ok s') :
    s'.updating_sample_rate = s.updating_sample_rate ∧
      s'.updating_sample_count = s.updating_sample_count := by
  cases hg : s.updating_sample_count with
  | true =>
    simp [update_sample_count_selector, hg] at h
    rw [← h]
    exact ⟨rfl, hg⟩
  | false =>
    cases hd : s.device with
    | none =>
      simp [update_sample_count_selector, hg, SamplingBar.deref_device, hd, bind,
        Except.bind] at h
    | some dev =>
      obtain ⟨L, -, -, -, -, -, hc, hr⟩ :=
        update_sample_count_selector_ladder env fuel s s' dev hg hd h
      exact ⟨hr, hc⟩

theorem on_samplerate_sel_flags (env : Env) (fuel : ℕ) (s s' : SamplingBar)
    (h : on_samplerate_sel env fuel s = Except.ok s') :
    s'.updating_sample_rate = s.updating_sample_rate ∧
      s'.updating_sample_count = s.updating_sample_count := by
  unfold on_samplerate_sel at h
  cases hd : s.device with
  | none => simp [SamplingBar.deref_device, hd, bind, Except.bind] at h
  | some dev =>
    simp only [SamplingBar.deref_device, hd, bind, Except.bind] at h
    split_ifs at h with c
    · exact update_sample_count_selector_flags env fuel s s' h
    · cases h; exact ⟨rfl, rfl⟩

theorem set_rate_index_flags (env : Env) (fuel : ℕ) (i : ℤ) (s s' : SamplingBar)
    (h : set_rate_index env fuel i s = Except.ok s') :
    s'.updating_sample_rate = s.updating_sample_rate ∧
      s'.updating_sample_count = s.updating_sample_count := by
  unfold set_rate_index at h
  simp only at h
  split_ifs at h with c
  · have := on_samplerate_sel_flags env fuel _ s' h
    exact this
  · cases h; exact ⟨rfl, rfl⟩

/-- `commit_settings` touches neither guard flag. -/
theorem commit_settings_flags (env : Env) (s : SamplingBar) :
    (commit_settings env s).updating_sample_rate = s.updating_sample_rate ∧
      (commit_settings env s).updating_sample_count = s.updating_sample_count := by
  unfold commit_settings
  cases hd : s.device with
  | none => simp
  | some dev =>
    simp only
    split_ifs <;> simp [SamplingBar.set_config, hd]

theorem set_sample_rate_flags (env : Env) (fuel : ℕ) (sample_rate : ℕ) (s s' : SamplingBar)
    (h : set_sample_rate env fuel sample_rate s = Except.ok s') :
    s'.updating_sample_rate = s.updating_sample_rate ∧
      s'.updating_sample_count = s.updating_sample_count := by
  unfold set_sample_rate at h
  simp only at h
  split at h
  · obtain ⟨s1, h1, h⟩ := except_bind_ok _ _ _ h
    simp only [Except.ok.injEq] at h
    subst h
    obtain ⟨c1, c2⟩ := commit_settings_flags env s1
    obtain ⟨k1, k2⟩ := set_rate_index_flags env fuel _ s s1 h1
    exact ⟨c1.trans k1, c2.trans k2⟩
  · obtain ⟨s1, h1, h⟩ := except_bind_ok _ _ _ h
    cases h1
    simp only [Except.ok.injEq] at h
    subst h
    exact commit_settings_flags env s

theorem set_config_flags (s : SamplingBar) (w : ConfigWrite) :
    (s.set_config w).updating_sample_rate = s.updating_sample_rate ∧
      (s.set_config w).updating_sample_count = s.updating_sample_count := by
  unfold SamplingBar.set_config
  cases s.device <;> exact ⟨rfl, rfl⟩

theorem commit_hori_res_flags (env : Env) (fuel : ℕ) (s s' : SamplingBar) (r : ℚ)
    (h : commit_hori_res env fuel s = Except.ok (s', r)) :
    s'.updating_sample_rate = s.updating_sample_rate ∧
      s'.updating_sample_count = s.updating_sample_count := by
  unfold commit_hori_res at h
  have hf : ∀ b : Prop, ∀ _ : Decidable b,
      (if b then s.log Event.refresh else s).updating_sample_rate = s.updating_sample_rate ∧
      (if b then s.log Event.refresh else s).updating_sample_count =
        s.updating_sample_count := by
    intro b _
    split_ifs <;> exact ⟨rfl, rfl⟩
  obtain ⟨g1, g2⟩ := hf (s.session.capture_state = CaptureState.Running) inferInstance
  generalize (if s.session.capture_state = CaptureState.Running then s.log Event.refresh
    else s) = s1 at h g1 g2
  obtain ⟨dev, -, h⟩ := except_bind_ok _ _ _ h
  simp only at h
  split at h
  · simp only [Except.ok.injEq, Prod.mk.injEq] at h
    rw [← h.1]
    exact ⟨g1, g2⟩
  · obtain ⟨s2, h2, h⟩ := except_bind_ok _ _ _ h
    obtain ⟨dev2, -, h⟩ := except_bind_ok _ _ _ h
    simp only [Except.ok.injEq, Prod.mk.injEq] at h
    obtain ⟨k1, k2⟩ := set_sample_rate_flags env fuel _ s1 s2 h2
    rw [← h.1]
    obtain ⟨c1, c2⟩ := set_config_flags
      (if s2.session.capture_state ≠ CaptureState.Stopped then
        s2.log (Event.set_cur_samplerate dev2.sample_rate) else s2)
      (ConfigWrite.TIMEBASE ⌊s.sample_count.itemData s.sample_count.currentIndex⌋₊)
    rw [c1, c2]
    split_ifs
    · exact ⟨k1.trans g1, k2.trans g2⟩
    · exact ⟨k1.trans g1, k2.trans g2⟩

theorem on_samplecount_sel_flags (env : Env) (fuel : ℕ) (s s' : SamplingBar)
    (h : on_samplecount_sel env fuel s = Except.ok s') :
    s'.updating_sample_rate = s.updating_sample_rate ∧
      s'.updating_sample_count = s.updating_sample_count := by
  cases fuel with
  | zero => rw [on_samplecount_sel] at h; cases h
  | succ depth =>
    rw [on_samplecount_sel] at h
    obtain ⟨dev, -, h⟩ := except_bind_ok _ _ _ h
    split_ifs at h
    · obtain ⟨r, hr, h⟩ := except_bind_ok _ _ _ h
      simp only [Except.ok.injEq] at h
      subst h
      exact commit_hori_res_flags env depth s r.1 r.2 hr
    · simp only [Except.ok.injEq] at h
      subst h
      exact ⟨rfl, rfl⟩

theorem set_count_index_flags (env : Env) (fuel : ℕ) (i : ℤ) (s s' : SamplingBar)
    (h : set_count_index env fuel i s = Except.ok s') :
    s'.updating_sample_rate = s.updating_sample_rate ∧
      s'.updating_sample_count = s.updating_sample_count := by
  unfold set_count_index at h
  simp only at h
  split_ifs at h with c
  · have := on_samplecount_sel_flags env fuel _ s' h
    exact this
  · cases h; exact ⟨rfl, rfl⟩

/-- Every return of `update_sample_rate_selector_value` entered with its guard
clear leaves the rate guard clear, and the count guard clear if it was. -/
theorem update_sample_rate_selector_value_flags (env : Env) (fuel : ℕ) (s s' : SamplingBar)
    (hg : s.updating_sample_rate = false)
    (h : update_sample_rate_selector_value env fuel s = Except.ok s') :
    s'.updating_sample_rate = false ∧
      (s.updating_sample_count = false → s'.updating_sample_count = false) := by
  unfold update_sample_rate_selector_value at h
  rw [if_neg (by simp [hg])] at h
  obtain ⟨dev, -, h⟩ := except_bind_ok _ _ _ h
  simp only at h
  split_ifs at h with c
  · split at h
    · obtain ⟨s2, hs2, h⟩ := except_bind_ok _ _ _ h
      simp only [Except.ok.injEq] at h
      subst h
      have := (set_rate_index_flags env fuel _ _ s2 hs2).2
      exact ⟨rfl, fun hc => this.trans hc⟩
    · obtain ⟨s2, hs2, h⟩ := except_bind_ok _ _ _ h
      cases hs2
      simp only [Except.ok.injEq] at h
      subst h
      exact ⟨rfl, fun hc => hc⟩
  · obtain ⟨s2, hs2, h⟩ := except_bind_ok _ _ _ h
    cases hs2
    simp only [Except.ok.injEq] at h
    subst h
    exact ⟨rfl, fun hc => hc⟩

/-- Every return of `update_sample_count_selector_value` entered with its
guard clear leaves both guards as they were, whatever the slot of the
duration selector did in between. -/
theorem update_sample_count_selector_value_flags (env : Env) (fuel : ℕ) (s s' : SamplingBar)
    (hg : s.updating_sample_count = false)
    (h : update_sample_count_selector_value env fuel s = Except.ok s') :
    s'.updating_sample_count = false ∧ s'.updating_sample_rate = s.updating_sample_rate := by
  unfold update_sample_count_selector_value at h
  rw [if_neg (by simp [hg])] at h
  obtain ⟨dev, -, h⟩ := except_bind_ok _ _ _ h
  simp only at h
  split at h
  · cases h; exact ⟨hg, rfl⟩
  · split_ifs at h with c
    · split at h
      · obtain ⟨s2, hs2, h⟩ := except_bind_ok _ _ _ h
        simp only [Except.ok.injEq] at h
        subst h
        have := (set_count_index_flags env fuel _ _ s2 hs2).1
        exact ⟨rfl, this⟩
      · obtain ⟨s2, hs2, h⟩ := except_bind_ok _ _ _ h
        cases hs2
        simp only [Except.ok.injEq] at h
        subst h
        exact ⟨rfl, rfl⟩
    · obtain ⟨s2, hs2, h⟩ := except_bind_ok _ _ _ h
      cases hs2
      simp only [Except.ok.injEq] at h
      subst h
      exact ⟨rfl, rfl⟩

/-- Every return of `update_sample_rate_selector` entered with both guards
clear leaves both clear. -/
theorem update_sample_rate_selector_flags (env : Env) (fuel : ℕ) (s s' : SamplingBar)
    (hg : s.updating_sample_rate = false) (hc : s.updating_sample_count = false)
    (h : update_sample_rate_selector env fuel s = Except.ok s') :
    s'.updating_sample_rate = false ∧ s'.updating_sample_count = false := by
  unfold update_sample_rate_selector at h
  rw [if_neg (by simp [hg])] at h
  simp only at h
  cases hd : s.device with
  | none =>
    simp only [hd, Except.ok.injEq] at h
    subst h
    exact ⟨hg, hc⟩
  | some dev =>
    simp only [hd] at h
    cases hsr : dev.samplerates with
    | none =>
      simp only [hsr, Except.ok.injEq] at h
      subst h
      exact ⟨rfl, hc⟩
    | some gl =>
      simp only [hsr, bind, Except.bind] at h
      split at h
      · cases h
      · rename_i s3 hs3
        have h3 := update_sample_rate_selector_value_flags env fuel _ s3 rfl hs3
        have h4 := update_sample_count_selector_flags env fuel _ s' h
        exact ⟨by rw [h4.1]; exact h3.1, h4.2.trans (h3.2 hc)⟩

/-! ## The four update functions return -/

theorem update_sample_count_selector_returns_any (env : Env) (s : SamplingBar) (dev : DevInst)
    (hdev : s.device = some dev) :
    ∃ fuel, ∀ k, ∃ s', update_sample_count_selector env (fuel + k) s = Except.ok s' := by
  cases hg : s.updating_sample_count with
  | true => exact ⟨0, fun k => ⟨s, by simp [update_sample_count_selector, hg]⟩⟩
  | false => exact update_sample_count_selector_returns env s dev hg hdev

theorem set_rate_index_returns (env : Env) (i : ℤ) (s : SamplingBar) (dev : DevInst)
    (hdev : s.device = some dev) :
    ∃ fuel, ∀ k, ∃ s', set_rate_index env (fuel + k) i s = Except.ok s' := by
  obtain ⟨fuel, hf⟩ := update_sample_count_selector_returns_any env
    { s with sample_rate := s.sample_rate.setCurrentIndex i } dev hdev
  refine ⟨fuel, fun k => ?_⟩
  unfold set_rate_index
  simp only
  split_ifs with c
  · unfold on_samplerate_sel
    simp only [SamplingBar.deref_device, hdev, bind, Except.bind]
    split_ifs with c2
    · have := hf k
      simp only [hdev] at this
      exact this
    · exact ⟨_, rfl⟩
  · exact ⟨_, rfl⟩

theorem update_sample_rate_selector_value_returns (env : Env) (s : SamplingBar) (dev : DevInst)
    (hdev : s.device = some dev) :
    ∃ fuel, ∀ k, ∃ s', update_sample_rate_selector_value env (fuel + k) s = Except.ok s' := by
  cases hg : s.updating_sample_rate with
  | true => exact ⟨0, fun k => ⟨s, by simp [update_sample_rate_selector_value, hg]⟩⟩
  | false =>
    cases hs : scanDown (fun i : ℕ => decide (dev.sample_rate ≥ s.sample_rate.itemData (i : ℤ)))
        s.sample_rate.count.toNat with
    | none =>
      refine ⟨0, fun k => ?_⟩
      unfold update_sample_rate_selector_value
      simp only [hg, Bool.false_eq_true, if_false, SamplingBar.deref_device, hdev, bind,
        Except.bind, hs]
      split_ifs <;> exact ⟨_, rfl⟩
    | some i =>
      obtain ⟨fuel, hf⟩ := set_rate_index_returns env (i : ℤ)
        { s with updating_sample_rate := true } dev hdev
      refine ⟨fuel, fun k => ?_⟩
      obtain ⟨s2, h2⟩ := hf k
      unfold update_sample_rate_selector_value
      simp only [hg, Bool.false_eq_true, if_false, SamplingBar.deref_device, hdev, bind,
        Except.bind, hs]
      simp only [hdev] at h2
      split_ifs
      · rw [h2]; exact ⟨_, rfl⟩
      · exact ⟨_, rfl⟩

/-- With a device selected the slot of the duration selector returns, given
one unit of fuel. -/
theorem on_samplecount_sel_returns (env : Env) (fuel : ℕ) (s : SamplingBar) (dev : DevInst)
    (hdev : s.device = some dev) :
    ∃ s', on_samplecount_sel env (fuel + 1) s = Except.ok s' := by
  rw [on_samplecount_sel]
  simp only [SamplingBar.deref_device, hdev, bind, Except.bind]
  by_cases hm : dev.mode = DevMode.DSO
  · obtain ⟨s', r, h⟩ := commit_hori_res_returns_dso env fuel s dev hdev hm
    simp only [hm, if_true, h]
    exact ⟨_, rfl⟩
  · simp only [hm, if_false]
    exact ⟨_, rfl⟩

theorem set_count_index_returns (env : Env) (fuel : ℕ) (i : ℤ) (s : SamplingBar) (dev : DevInst)
    (hdev : s.device = some dev) :
    ∃ s', set_count_index env (fuel + 1) i s = Except.ok s' := by
  unfold set_count_index
  simp only
  split_ifs
  · exact on_samplecount_sel_returns env fuel _ dev hdev
  · exact ⟨_, rfl⟩

/-- With a device selected `update_sample_count_selector_value` returns, given
one unit of fuel for the slot of the duration selector. -/
theorem update_sample_count_selector_value_returns (env : Env) (fuel : ℕ) (s : SamplingBar)
    (dev : DevInst) (hdev : s.device = some dev) :
    ∃ s', update_sample_count_selector_value env (fuel + 1) s = Except.ok s' := by
  unfold update_sample_count_selector_value
  split_ifs
  · exact ⟨_, rfl⟩
  · simp only [SamplingBar.deref_device, hdev, bind, Except.bind]
    rcases htb : dev.timebase with _ | tb
    · exact ⟨_, rfl⟩
    · simp only
      split_ifs
      · split
        · rename_i i hi
          obtain ⟨s2, h2⟩ := set_count_index_returns env fuel i
            { s with updating_sample_count := true } dev hdev
          refine ⟨{ s2 with updating_sample_count := false }, ?_⟩
          have h2' := h2
          simp only [hdev] at h2'
          rw [h2']
        · exact ⟨_, rfl⟩
      · exact ⟨_, rfl⟩

/-- With its slot disconnected, `update_sample_rate_selector_value` needs no
fuel and keeps the device. -/
theorem update_sample_rate_selector_value_disconnected (env : Env) (s : SamplingBar)
    (dev : DevInst) (hc : s.samplerate_sel_connected = false)
    (hg : s.updating_sample_rate = false) (hdev : s.device = some dev) :
    ∃ s3, (∀ fuel, update_sample_rate_selector_value env fuel s = Except.ok s3) ∧
      s3.device = some dev := by
  unfold update_sample_rate_selector_value
  simp only [hg, Bool.false_eq_true, if_false, SamplingBar.deref_device, hdev, bind,
    Except.bind, set_rate_index, hc, and_false]
  split_ifs
  · cases scanDown (fun i : ℕ => decide (dev.sample_rate ≥ s.sample_rate.itemData (i : ℤ)))
        s.sample_rate.count.toNat with
    | none => exact ⟨_, fun _ => rfl, rfl⟩
    | some i => exact ⟨_, fun _ => rfl, rfl⟩
  · exact ⟨_, fun _ => rfl, rfl⟩

theorem update_sample_rate_selector_returns (env : Env) (s : SamplingBar) :
    ∃ fuel, ∀ k, ∃ s', update_sample_rate_selector env (fuel + k) s = Except.ok s' := by
  cases hg : s.updating_sample_rate with
  | true => exact ⟨0, fun k => ⟨s, by simp [update_sample_rate_selector, hg]⟩⟩
  | false =>
    cases hd : s.device with
    | none =>
      refine ⟨0, fun k => ?_⟩
      unfold update_sample_rate_selector
      simp only [hg, Bool.false_eq_true, if_false, hd]
      exact ⟨_, rfl⟩
    | some dev =>
      have key : ∀ box : ComboBox ℕ, ∃ fuel, ∀ k, ∃ s',
          (update_sample_rate_selector_value env (fuel + k)
              { s with samplerate_sel_connected := false, sample_rate := box,
                       updating_sample_rate := false } >>= fun s3 =>
            update_sample_count_selector env (fuel + k)
              { s3 with samplerate_sel_connected := true }) = Except.ok s' := by
        intro box
        obtain ⟨s3, h3, hd3⟩ := update_sample_rate_selector_value_disconnected env
          { s with samplerate_sel_connected := false, sample_rate := box,
                   updating_sample_rate := false } dev rfl rfl hd
        obtain ⟨fuel, hf⟩ := update_sample_count_selector_returns_any env
          { s3 with samplerate_sel_connected := true } dev hd3
        refine ⟨fuel, fun k => ?_⟩
        rw [h3 (fuel + k)]
        exact hf k
      rcases hsr : dev.samplerates with _ | gl
      · refine ⟨0, fun k => ?_⟩
        unfold update_sample_rate_selector
        simp only [hg, Bool.false_eq_true, if_false, hd, hsr]
        exact ⟨_, rfl⟩
      · rcases gl with _ | elements
        · obtain ⟨fuel, hf⟩ := key s.sample_rate
          refine ⟨fuel, fun k => ?_⟩
          unfold update_sample_rate_selector
          simp only [hg, Bool.false_eq_true, if_false, hd, hsr]
          have := hf k
          simp only [hd] at this
          exact this
        · obtain ⟨fuel, hf⟩ := key (elements.foldl ComboBox.addItem s.sample_rate.clear)
          refine ⟨fuel, fun k => ?_⟩
          unfold update_sample_rate_selector
          simp only [hg, Bool.false_eq_true, if_false, hd, hsr]
          have := hf k
          simp only [hd] at this
          exact this

/-- With `MAX_DSO_SAMPLERATE` unreadable `commit_hori_res` returns -1 and at
most refreshes the session. -/
theorem commit_hori_res_no_max (env : Env) (fuel : ℕ) (s : SamplingBar) (dev : DevInst)
    (hdev : s.device = some dev) (hmax : dev.max_dso_samplerate = none) :
    commit_hori_res env fuel s = Except.ok
      (if s.session.capture_state = CaptureState.Running then s.log Event.refresh else s, -1) := by
  have hd1 : (if s.session.capture_state = CaptureState.Running then s.log Event.refresh
      else s).device = some dev := by
    split_ifs <;> simp [SamplingBar.log, hdev]
  unfold commit_hori_res
  simp only [bind, Except.bind, SamplingBar.deref_device, hd1, hmax]

theorem map_swapStart_writes (new : List Event) (h : ∀ e ∈ new, ∃ w, e = Event.set_config w) :
    new.map swapStart = new := by
  induction new with
  | nil => rfl
  | cons e es ih =>
    obtain ⟨w, hw⟩ := h e (by simp)
    rw [List.map_cons, ih (fun x hx => h x (by simp [hx])), hw]
    rfl

theorem calibration_pending_true (s : SamplingBar) (h : calibration_pending s = true) :
    ∃ dev, s.device = some dev ∧ dev.mode = DevMode.DSO ∧ dev.zero = some true := by
  unfold calibration_pending at h
  rcases hd : s.device with _ | dev
  · simp [hd] at h
  · simp only [hd, Bool.and_eq_true, decide_eq_true_eq, beq_iff_eq] at h
    exact ⟨dev, rfl, h.1, h.2⟩

theorem calibration_pending_false (s : SamplingBar) (dev : DevInst)
    (h : calibration_pending s = false) (hdev : s.device = some dev) :
    dev.mode ≠ DevMode.DSO ∨ dev.zero ≠ some true := by
  unfold calibration_pending at h
  simp only [hdev, Bool.and_eq_false_imp, decide_eq_true_eq, beq_eq_false_iff_ne, ne_eq] at h
  by_cases hm : dev.mode = DevMode.DSO
  · exact Or.inr (h hm)
  · exact Or.inl hm

/-- From idle and not repeating, unless a pending calibration is accepted,
the instant slot leaves what the run slot leaves, with the instant flag set
and the start request exchanged. -/
theorem start_branches_mirror (env : Env) (accept : Bool) (waits : List Wait) (s : SamplingBar)
    (hs : s.sampling = false) (hr : s.session.repeating = false)
    (hna : accept = false ∨ calibration_pending s = false) :
    ∃ r new, on_run_stop env accept waits s = Except.ok r ∧ r.trace = s.trace ++ new ∧
      r.instant = false ∧
      on_instant_stop env accept waits s =
        Except.ok { r with instant := true, trace := s.trace ++ new.map swapStart } := by
  obtain ⟨new0, ht, hw⟩ := prepared_writes env false s
  have hmap := map_swapStart_writes new0 hw
  have hstart : ∀ dev, s.device = some dev → (dev.mode ≠ DevMode.DSO ∨ dev.zero ≠ some true) →
      ∃ r new, on_run_stop env accept waits s = Except.ok r ∧ r.trace = s.trace ++ new ∧
        r.instant = false ∧
        on_instant_stop env accept waits s =
          Except.ok { r with instant := true, trace := s.trace ++ new.map swapStart } := by
    intro dev hdev hz
    refine ⟨_, new0 ++ [Event.run_stop], on_run_stop_start env accept waits s dev hs hr hdev hz,
      by simp [SamplingBar.log, ht], rfl, ?_⟩
    rw [on_instant_stop_start env accept waits s dev hs hdev hz, prepared_instant env false true]
    simp [SamplingBar.log, ht, hmap, swapStart]
  rcases hd : s.device with _ | dev
  · refine ⟨_, new0, on_run_stop_no_device env accept waits s hs hr hd, ht, rfl, ?_⟩
    rw [on_instant_stop_no_device env accept waits s hs hd, prepared_instant env false true]
    simp [ht, hmap]
  · by_cases hp : calibration_pending s = false
    · exact hstart dev hd (calibration_pending_false s dev hp hd)
    · have hacc : accept = false := hna.resolve_right hp
      subst hacc
      obtain ⟨dev', hd', hm, hz⟩ := calibration_pending_true s (by simpa using hp)
      refine ⟨_, new0 ++ [Event.calibration_dialog, Event.set_config (ConfigWrite.ZERO false)],
        on_run_stop_declined env waits s dev' hs hr hd' hm hz, ?_, ?_, ?_⟩
      · obtain ⟨d2, h2, -, -⟩ := prepared_device env false s dev' hd'
        simp [SamplingBar.log, SamplingBar.set_config, enable_instant, enable_run_stop, h2, ht]
      · obtain ⟨d2, h2, -, -⟩ := prepared_device env false s dev' hd'
        simp [SamplingBar.log, SamplingBar.set_config, enable_instant, enable_run_stop, h2]
        exact (prepared_frame env false s).2.2.1
      · rw [on_instant_stop_declined env waits s dev' hs hd' hm hz,
          prepared_instant env false true]
        obtain ⟨d2, h2, -, -⟩ := prepared_device env false s dev' hd'
        simp [SamplingBar.log, SamplingBar.set_config, enable_instant, enable_run_stop, h2, ht,
          hmap, swapStart]

/-- From idle and not repeating, with a pending calibration accepted, both
slots show the dialog and hand over to `zero_adj`, from states that differ in
the instant flag only. -/
theorem start_branches_calibrate (env : Env) (waits : List Wait) (s : SamplingBar)
    (hs : s.sampling = false) (hr : s.session.repeating = false)
    (hp : calibration_pending s = true) :
    on_run_stop env true waits s =
        zero_adj env waits ((prepared env false s).log Event.calibration_dialog) ∧
      on_instant_stop env true waits s =
        zero_adj env waits
          { (prepared env false s).log Event.calibration_dialog with instant := true } := by
  obtain ⟨dev, hd, hm, hz⟩ := calibration_pending_true s hp
  exact ⟨on_run_stop_calibrate env waits s dev hs hr hd hm hz,
    on_instant_stop_calibrate env waits s dev hs hd hm hz⟩

/-- While sampling the two slots are the same function. -/
theorem stop_branches_equal (env : Env) (accept : Bool) (waits : List Wait) (s : SamplingBar)
    (hs : s.sampling = true) :
    on_instant_stop env accept waits s = on_run_stop env accept waits s := by
  simp only [on_run_stop, on_instant_stop, hs, Bool.true_or, if_true]

/-- Between two captures of a repetitive run (not sampling, repeat flag set)
the run slot takes the stop branch: it clears the repeat flag and leaves the
instant flag and both start controls as they were. -/
theorem on_run_stop_repeating (env : Env) (accept : Bool) (waits : List Wait) (s : SamplingBar)
    (hr : s.session.repeating = true)
    (hd : s.session.run_mode = RunMode.Repetitive ∨ ∃ dev, s.device = some dev) :
    ∃ r, on_run_stop env accept waits s = Except.ok r ∧ r.session.repeating = false ∧
      r.instant = s.instant ∧ r.run_stop_enabled = s.run_stop_enabled ∧
      r.instant_enabled = s.instant_enabled ∧
      ∀ e ∈ r.trace, e ∈ s.trace ∨ e = Event.set_repeating false ∨
        e = Event.stop_capture ∨ e = Event.capture_state_changed_Stopped := by
  simp only [on_run_stop, hr, Bool.or_true, if_true]
  by_cases hm : s.session.run_mode = RunMode.Repetitive
  · simp [set_repeating, SamplingBar.log, hm, bind, Except.bind, pure, Except.pure]
  · rcases hd with hd | ⟨dev, hdev⟩
    · exact absurd hd hm
    · rcases hw : dev.wait_upload with _ | b
      · simp [set_repeating, SamplingBar.log, SamplingBar.deref_device, hm, hdev, hw, bind,
          Except.bind, pure, Except.pure]
      · cases b
        · simp [set_repeating, SamplingBar.log, SamplingBar.deref_device, hm, hdev, hw, bind,
            Except.bind, pure, Except.pure]
        · simp only [set_repeating, SamplingBar.log, SamplingBar.deref_device, hm, hdev, hw,
            bind, Except.bind, pure, Except.pure, ne_eq, not_false_eq_true, if_true,
            Bool.not_true, Bool.false_eq_true, if_false, Except.ok.injEq, exists_eq_left']
          refine ⟨trivial, trivial, trivial, trivial, fun e he => ?_⟩
          rcases List.mem_append.1 he with h | h
          · exact Or.inl h
          · exact Or.inr (Or.inl (List.mem_singleton.1 h))

/-- While not sampling the instant slot takes the start branch whatever the
repeat flag: unless a pending calibration is accepted it returns with the
instant flag set and the session as it was. -/
theorem on_instant_stop_idle (env : Env) (accept : Bool) (waits : List Wait) (s : SamplingBar)
    (hs : s.sampling = false) (hna : accept = false ∨ calibration_pending s = false) :
    ∃ i, on_instant_stop env accept waits s = Except.ok i ∧ i.instant = true ∧
      i.session = s.session := by
  obtain ⟨f1, -, f3, -, -⟩ := prepared_frame env true s
  rcases hd : s.device with _ | dev
  · exact ⟨_, on_instant_stop_no_device env accept waits s hs hd, f3, f1⟩
  · by_cases hp : calibration_pending s = false
    · exact ⟨_, on_instant_stop_start env accept waits s dev hs hd
        (calibration_pending_false s dev hp hd), f3, f1⟩
    · have hacc : accept = false := hna.resolve_right hp
      subst hacc
      obtain ⟨dev', hd', hm, hz⟩ := calibration_pending_true s (by simpa using hp)
      refine ⟨_, on_instant_stop_declined env waits s dev' hs hd' hm hz, ?_, ?_⟩
      · simp only [enable_instant, enable_run_stop, SamplingBar.set_config, SamplingBar.log]
        split <;> exact f3
      · simp only [enable_instant, enable_run_stop, SamplingBar.set_config, SamplingBar.log]
        split <;> exact f1

/-- While idle and not repeating, unless a pending calibration is accepted,
`on_run_stop` returns, appends only device writes, the calibration dialog or
the start request, clears the instant flag and leaves the session and the
sampling flag alone. -/
theorem on_run_stop_idle (env : Env) (accept : Bool) (waits : List Wait) (s : SamplingBar)
    (hs : s.sampling = false) (hr : s.session.repeating = false)
    (hna : accept = false ∨ calibration_pending s = false) :
    ∃ r new, on_run_stop env accept waits s = Except.ok r ∧ r.trace = s.trace ++ new ∧
      (∀ e ∈ new, (∃ w, e = Event.set_config w) ∨ e = Event.calibration_dialog ∨
        e = Event.run_stop) ∧
      r.session = s.session ∧ r.sampling = s.sampling ∧ r.instant = false := by
  obtain ⟨f1, f2, f3, -, -⟩ := prepared_frame env false s
  obtain ⟨new0, ht, hw⟩ := prepared_writes env false s
  have hw' : ∀ e ∈ new0, (∃ w, e = Event.set_config w) ∨ e = Event.calibration_dialog ∨
      e = Event.run_stop := fun e he => Or.inl (hw e he)
  rcases hd : s.device with _ | dev
  · exact ⟨_, new0, on_run_stop_no_device env accept waits s hs hr hd, ht, hw', f1, f2, f3⟩
  · by_cases hp : calibration_pending s = false
    · refine ⟨_, new0 ++ [Event.run_stop], on_run_stop_start env accept waits s dev hs hr hd
        (calibration_pending_false s dev hp hd), by simp [SamplingBar.log, ht], ?_, f1, f2, f3⟩
      intro e he
      rcases List.mem_append.1 he with he | he
      · exact hw' e he
      · simp at he; simp [he]
    · have hacc : accept = false := hna.resolve_right hp
      subst hacc
      obtain ⟨dev', hd', hm, hz⟩ := calibration_pending_true s (by simpa using hp)
      obtain ⟨d2, h2, -, -⟩ := prepared_device env false s dev' hd'
      refine ⟨_, new0 ++ [Event.calibration_dialog, Event.set_config (ConfigWrite.ZERO false)],
        on_run_stop_declined env waits s dev' hs hr hd' hm hz, ?_, ?_, ?_, ?_, ?_⟩
      · simp [SamplingBar.log, SamplingBar.set_config, enable_instant, enable_run_stop, h2, ht]
      · intro e he
        rcases List.mem_append.1 he with he | he
        · exact hw' e he
        · simp at he
          rcases he with he | he
          · simp [he]
          · left; exact ⟨_, he⟩
      · simp [SamplingBar.log, SamplingBar.set_config, enable_instant, enable_run_stop, h2]
        exact f1
      · simp [SamplingBar.log, SamplingBar.set_config, enable_instant, enable_run_stop, h2]
        exact f2
      · simp [SamplingBar.log, SamplingBar.set_config, enable_instant, enable_run_stop, h2]
        exact f3

/-- The stop branch of `on_run_stop` (sampling or repeating): it returns as
soon as the run mode is Repetitive or a device is selected, having cleared
the repeat flag and, unless the stop is deferred, issued the stop command and
the Stopped notification. -/
theorem on_run_stop_stop (env : Env) (accept : Bool) (waits : List Wait) (s : SamplingBar)
    (hs : (s.sampling || s.session.repeating) = true)
    (hd : s.session.run_mode = RunMode.Repetitive ∨ ∃ dev, s.device = some dev) :
    on_run_stop env accept waits s = Except.ok
      (if stop_deferred s then set_repeating false s
       else ((set_repeating false s).log Event.stop_capture).log
        Event.capture_state_changed_Stopped) := by
  by_cases hrm : s.session.run_mode = RunMode.Repetitive
  · simp [on_run_stop, hs, stop_deferred, set_repeating, SamplingBar.log, hrm, bind,
      Except.bind, pure, Except.pure]
  · rcases hd with hd | ⟨dev, hdev⟩
    · exact absurd hd hrm
    · rcases hw : dev.wait_upload with _ | b
      · simp [on_run_stop, hs, stop_deferred, set_repeating, SamplingBar.log,
          SamplingBar.deref_device, hdev, hrm, hw, bind, Except.bind, pure, Except.pure]
      · cases b <;>
          simp [on_run_stop, hs, stop_deferred, set_repeating, SamplingBar.log,
            SamplingBar.deref_device, hdev, hrm, hw, bind, Except.bind, pure, Except.pure]

/-- Without a device and outside Repetitive mode the stop branch dereferences
the absent device. -/
theorem on_run_stop_stop_fault (env : Env) (accept : Bool) (waits : List Wait) (s : SamplingBar)
    (hs : (s.sampling || s.session.repeating) = true)
    (hrm : s.session.run_mode ≠ RunMode.Repetitive) (hdev : s.device = none) :
    on_run_stop env accept waits s = Except.error Fault.null_device := by
  simp [on_run_stop, hs, set_repeating, SamplingBar.log, SamplingBar.deref_device, hdev, hrm,
    bind, Except.bind]

/-- Every return of the stop branch is the one `on_run_stop_stop` names. -/
theorem on_run_stop_stop_ok (env : Env) (accept : Bool) (waits : List Wait) (s s' : SamplingBar)
    (hs : (s.sampling || s.session.repeating) = true)
    (h : on_run_stop env accept waits s = Except.ok s') :
    s' = (if stop_deferred s then set_repeating false s
       else ((set_repeating false s).log Event.stop_capture).log
        Event.capture_state_changed_Stopped) := by
  by_cases hd : s.session.run_mode = RunMode.Repetitive ∨ ∃ dev, s.device = some dev
  · rw [on_run_stop_stop env accept waits s hs hd] at h
    exact (Except.ok.inj h).symm
  · exfalso
    have hrm : s.session.run_mode ≠ RunMode.Repetitive := fun c => hd (Or.inl c)
    have hdev : s.device = none := by
      rcases hdv : s.device with _ | dev
      · rfl
      · exact absurd (Or.inr ⟨dev, hdv⟩) hd
    rw [on_run_stop_stop_fault env accept waits s hs hrm hdev] at h
    cases h

/-- The trace only grows: every return of `zero_adj` has appended the enabling
of the signals and the run start request, and every return of `on_run_stop`
has appended to the trace it found. -/
theorem slots_trace (env : Env) : ∀ waits : List Wait,
    (∀ s s', zero_adj env waits s = Except.ok s' →
      ∃ new, s'.trace = s.trace ++ Event.dso_set_enable :: Event.run_stop :: new) ∧
    (∀ accept s s', on_run_stop env accept waits s = Except.ok s' →
      ∃ new, s'.trace = s.trace ++ new) := by
  have step : ∀ waits : List Wait,
      (∀ s s', zero_adj env waits s = Except.ok s' →
        ∃ new, s'.trace = s.trace ++ Event.dso_set_enable :: Event.run_stop :: new) →
      ∀ accept s s', on_run_stop env accept waits s = Except.ok s' →
        ∃ new, s'.trace = s.trace ++ new := by
    intro waits hz accept s s' h
    by_cases hs : (s.sampling || s.session.repeating) = true
    · have e := on_run_stop_stop_ok env accept waits s s' hs h
      rw [e]
      split_ifs
      · exact ⟨[Event.set_repeating false], by simp [set_repeating, SamplingBar.log]⟩
      · exact ⟨[Event.set_repeating false, Event.stop_capture,
          Event.capture_state_changed_Stopped], by simp [set_repeating, SamplingBar.log]⟩
    · have hs1 : s.sampling = false := by
        cases hb : s.sampling
        · rfl
        · rw [hb] at hs; simp at hs
      have hr1 : s.session.repeating = false := by
        cases hb : s.session.repeating
        · rfl
        · rw [hb] at hs; simp at hs
      by_cases hna : accept = false ∨ calibration_pending s = false
      · obtain ⟨r, new, hr, ht, -⟩ := on_run_stop_idle env accept waits s hs1 hr1 hna
        rw [hr] at h
        cases h
        exact ⟨new, ht⟩
      · have hacc : accept = true := by
          cases hb : accept
          · exact absurd (Or.inl hb) hna
          · rfl
        have hp : calibration_pending s = true := by
          cases hb : calibration_pending s
          · exact absurd (Or.inr hb) hna
          · rfl
        subst hacc
        rw [(start_branches_calibrate env waits s hs1 hr1 hp).1] at h
        obtain ⟨new, hnew⟩ := hz _ _ h
        obtain ⟨new0, ht0, -⟩ := prepared_writes env false s
        refine ⟨new0 ++ Event.calibration_dialog :: Event.dso_set_enable :: Event.run_stop :: new,
          ?_⟩
        rw [hnew]
        simp [SamplingBar.log, ht0]
  intro waits
  induction waits with
  | nil =>
    have hz : ∀ s s', zero_adj env [] s = Except.ok s' →
        ∃ new, s'.trace = s.trace ++ Event.dso_set_enable :: Event.run_stop :: new := by
      intro s s' h
      rw [zero_adj_nil] at h
      cases h
    exact ⟨hz, step [] hz⟩
  | cons w rest ih =>
    have hz : ∀ s s', zero_adj env (w :: rest) s = Except.ok s' →
        ∃ new, s'.trace = s.trace ++ Event.dso_set_enable :: Event.run_stop :: new := by
      intro s s' h
      rw [zero_adj_cons] at h
      have hl := zero_adj_logged_trace w.rejected s
      split_ifs at h
      · obtain ⟨new, hnew⟩ := ih.2 _ _ _ h
        simp only at hnew
        rw [hnew, hl]
        exact ⟨Event.waiting_dialog ::
          ((if w.rejected then [Event.dso_commit_settings] else []) ++ new), by simp⟩
      · cases h
        simp only
        rw [hl]
        exact ⟨Event.waiting_dialog ::
          (if w.rejected then [Event.dso_commit_settings] else []), by simp⟩
    exact ⟨hz, step (w :: rest) hz⟩

/-- The example oscilloscope needs no device write before a start. -/
theorem prepared_calibratingBar :
    prepared exampleEnv false calibratingBar =
      { calibratingBar with run_stop_enabled := false, instant_enabled := false } := by
  simp [prepared, commit_settings, calibratingBar, dsoBar, initialBar, dsoDevice,
    enable_instant, enable_run_stop, ComboBox.itemData, SamplingBar.set_config]

/-- The example oscilloscope with 1 µs selected and a TIMEBASE of 1 ms: called
on its own, `update_sample_count_selector_value` moves the selection to 1 ms
and the connected slot runs `commit_hori_res`, which reports the rate and
writes `TIMEBASE`. -/
theorem dsoBar_value_slot :
    ∃ s', update_sample_count_selector_value exampleEnv 1 (dsoBar 21 1 1) = Except.ok s' ∧
      s'.sample_count.currentIndex = 12 ∧
      s'.trace = [Event.set_cur_samplerate 1000000,
        Event.set_config (ConfigWrite.TIMEBASE 1000000)] ∧
      s'.updating_sample_count = false := by
  have hrate : dso_sample_rate 10000 1000000 100000000 1 = 1000000 := by
    simp [dso_sample_rate, SR_SEC, DS_CONF_DSO_HDIVS]
    norm_num
  unfold update_sample_count_selector_value
  simp [dsoBar, initialBar, dsoDevice, SamplingBar.deref_device, bind, Except.bind, dsoLadder,
    ComboBox.itemData, ComboBox.count, scanDown, set_count_index, ComboBox.setCurrentIndex,
    on_samplecount_sel, commit_hori_res, hrate, set_sample_rate, set_rate_index, commit_settings,
    SamplingBar.set_config, SamplingBar.log, DevInst.set_config]

/-! ## The claims -/

/-- C1: for every device mode, streaming flag, positive selected sample rate
and positive depth (rate and depth play no part in oscilloscope mode),
`update_sample_count_selector` returns, and the ladder it leaves in the
duration selector is non-empty and strictly decreasing (every entry is
strictly smaller than the entry before it), so that the entry at index 0 is
the longest duration. -/
theorem C1_ladder_nonempty_strictly_decreasing (env : Env) (s : SamplingBar) (dev : DevInst)
    (hg : s.updating_sample_count = false) (hdev : s.device = some dev)
    (hpos : dev.mode = DevMode.DSO ∨
      (0 < selected_rate s ∧ 0 < usedDepth env dev s.session.ch_num_logic)) :
    (∃ fuel s', update_sample_count_selector env fuel s = Except.ok s') ∧
    ∀ fuel s', update_sample_count_selector env fuel s = Except.ok s' →
      s'.sample_count.items ≠ [] ∧
      s'.sample_count.items.Chain' (fun a b => b < a) ∧
      ∀ x ∈ s'.sample_count.items, x ≤ s'.sample_count.itemData 0 := by
  constructor
  · obtain ⟨fuel, hf⟩ := update_sample_count_selector_returns env s dev hg hdev
    exact ⟨fuel + 0, hf 0⟩
  · intro fuel s' h
    obtain ⟨L, hL, hbox, -⟩ := update_sample_count_selector_ladder env fuel s s' dev hg hdev h
    have hstart := startDuration_pos env dev s.session.ch_num_logic (selected_rate s) hpos
    obtain ⟨⟨t, ht⟩, hall, hpw⟩ := ladderLoop_sorted _ _ _ _ _ hstart hL
    have hitems : s'.sample_count.items = L := by rw [hbox, refilled_items]
    refine ⟨?_, ?_, ?_⟩
    · rw [hitems, ht]; simp
    · rw [hitems]
      exact List.Pairwise.chain' hpw
    · intro x hx
      rw [hitems] at hx
      have h0 : s'.sample_count.itemData 0 =
          startDuration env dev s.session.ch_num_logic (selected_rate s) := by
        simp [ComboBox.itemData, hitems, ht]
      rw [h0]
      exact (hall x hx).2

/-- Instance of C1: a logic analyzer of depth 5800 samples at 1 Hz, empty selector. -/
theorem C1_witness :
    (∃ fuel s', update_sample_count_selector exampleEnv fuel (logicBar 5800 0 ⟨[], -1⟩) =
        Except.ok s') ∧
    ∀ fuel s', update_sample_count_selector exampleEnv fuel (logicBar 5800 0 ⟨[], -1⟩) =
        Except.ok s' →
      s'.sample_count.items ≠ [] ∧
      s'.sample_count.items.Chain' (fun a b => b < a) ∧
      ∀ x ∈ s'.sample_count.items, x ≤ s'.sample_count.itemData 0 :=
  C1_ladder_nonempty_strictly_decreasing exampleEnv (logicBar 5800 0 ⟨[], -1⟩) (logicDevice 5800)
    rfl rfl (Or.inr ⟨by simp [selected_rate, logicBar, ComboBox.itemData],
      by simp [usedDepth, logicDevice]⟩)

/-- C2 fails as stated: a logic analyzer with a hardware depth of 1000 samples
at 1 MHz gets the one-entry ladder `[1 ms]`, whose last entry stands for 1000
samples, fewer than 1024. -/
theorem C2_counterexample :
    ∃ s', update_sample_count_selector exampleEnv 1 (logicBar 1000 2 ⟨[], -1⟩) = Except.ok s' ∧
      s'.sample_count.items.getLast? = some 1000000 ∧
      ¬ ((1024 : ℚ) ≤ 1000000 / 1000000000 * (selected_rate (logicBar 1000 2 ⟨[], -1⟩) : ℚ)) := by
  have hr : selected_rate (logicBar 1000 2 ⟨[], -1⟩) = 1000000 := by
    simp [selected_rate, logicBar, ComboBox.itemData]
  have hs : startDuration exampleEnv (logicDevice 1000)
      (logicBar 1000 2 ⟨[], -1⟩).session.ch_num_logic 1000000 = (10 : ℚ) ^ (6 : ℤ) := by
    simp [startDuration, logicDevice, SR_SEC]; norm_num
  have hn := (nextDuration_sub_minute 6 (by norm_num)).2.2
  have hL : ladderLoop (logicDevice 1000).mode (selected_rate (logicBar 1000 2 ⟨[], -1⟩)) 1
      (startDuration exampleEnv (logicDevice 1000)
        (logicBar 1000 2 ⟨[], -1⟩).session.ch_num_logic
        (selected_rate (logicBar 1000 2 ⟨[], -1⟩))) = some [1000000] := by
    rw [hr, hs, ladderLoop_succ, hn]
    simp [notLast, logicDevice, SR_SEC, SR_KB]
    norm_num
  obtain ⟨s', h1, h2, -⟩ := update_sample_count_selector_ok exampleEnv 1
    (logicBar 1000 2 ⟨[], -1⟩) (logicDevice 1000) [1000000] rfl rfl hL
  refine ⟨s', h1, ?_, ?_⟩
  · rw [h2, refilled_items]; rfl
  · rw [hr]; norm_num

theorem startDuration_samples (env : Env) (dev : DevInst) (ch_num : ℤ) (samplerate : ℕ)
    (hm : dev.mode ≠ DevMode.DSO) (hrate : 0 < samplerate) :
    startDuration env dev ch_num samplerate / (SR_SEC 1 : ℕ) * (samplerate : ℚ) =
      (usedDepth env dev ch_num : ℚ) := by
  have hs : (samplerate : ℚ) ≠ 0 := by exact_mod_cast hrate.ne'
  unfold startDuration usedDepth SR_SEC
  simp only [hm, if_false]
  split_ifs <;> field_simp <;> ring

/-- C2, amended: for every ladder left by `update_sample_count_selector`, the
decade step below the last entry falls under the floor of the mode (10 ns
in oscilloscope mode, 1024 samples otherwise); in oscilloscope mode the last
entry is exactly 10 ns; in the other modes the last entry stands for at least
1024 samples whenever the depth the ladder starts from is at least 1024
samples. -/
theorem C2_last_entry_floor (env : Env) (s : SamplingBar) (dev : DevInst)
    (hg : s.updating_sample_count = false) (hdev : s.device = some dev)
    (hrate : dev.mode = DevMode.DSO ∨ 0 < selected_rate s) :
    (∃ fuel s', update_sample_count_selector env fuel s = Except.ok s') ∧
    ∀ fuel s', update_sample_count_selector env fuel s = Except.ok s' →
      ∃ e, s'.sample_count.items.getLast? = some e ∧
        (dev.mode = DevMode.DSO → e = 10 ∧ nextDuration e < 10) ∧
        (dev.mode ≠ DevMode.DSO →
          nextDuration e / 1000000000 * (selected_rate s : ℚ) < 1024 ∧
          (1024 ≤ usedDepth env dev s.session.ch_num_logic →
            (1024 : ℚ) ≤ e / 1000000000 * (selected_rate s : ℚ))) := by
  constructor
  · obtain ⟨fuel, hf⟩ := update_sample_count_selector_returns env s dev hg hdev
    exact ⟨fuel + 0, hf 0⟩
  · intro fuel s' h
    obtain ⟨L, hL, hbox, -⟩ := update_sample_count_selector_ladder env fuel s s' dev hg hdev h
    have hitems : s'.sample_count.items = L := by rw [hbox, refilled_items]
    obtain ⟨e, he, hnext, hkeep⟩ := ladderLoop_last _ _ _ _ _ hL
    rw [hitems]
    refine ⟨e, he, ?_, ?_⟩
    · intro hm
      obtain ⟨L', hL', hlast'⟩ := dso_ladder_last (selected_rate s) 9 (by norm_num)
      have hstart : startDuration env dev s.session.ch_num_logic (selected_rate s) =
          (10 : ℚ) ^ (9 + 1) := by
        simp [startDuration, hm, SR_SEC]; norm_num
      rw [hstart, hm] at hL
      have hLL := ladderLoop_unique _ _ _ _ _ _ _ hL hL'
      rw [hLL, hlast'] at he
      have he10 : e = 10 := (Option.some.inj he).symm
      refine ⟨he10, ?_⟩
      have h5 := (nextDuration_sub_minute 1 (by norm_num)).2.2
      norm_num at h5
      rw [he10, h5]; norm_num
    · intro hm
      have hr : 0 < selected_rate s := hrate.resolve_left hm
      constructor
      · simp only [notLast, hm, if_false, decide_eq_false_iff_not, not_le, SR_SEC, SR_KB] at hnext
        push_cast at hnext
        simpa using hnext
      · intro hdepth
        have hd : notLast dev.mode (selected_rate s)
            (startDuration env dev s.session.ch_num_logic (selected_rate s)) = true := by
          simp only [notLast, hm, if_false, decide_eq_true_eq]
          rw [startDuration_samples env dev _ _ hm hr]
          unfold SR_KB
          exact_mod_cast hdepth
        have := hkeep hd
        simp only [notLast, hm, if_false, decide_eq_true_eq, SR_SEC, SR_KB] at this
        push_cast at this
        simpa using this

/-- Instance of the amended C2: a logic analyzer of depth 5800 samples at 2 Hz. -/
theorem C2_witness :
    (∃ fuel s', update_sample_count_selector exampleEnv fuel (logicBar 5800 1 ⟨[], -1⟩) =
        Except.ok s') ∧
    ∀ fuel s', update_sample_count_selector exampleEnv fuel (logicBar 5800 1 ⟨[], -1⟩) =
        Except.ok s' →
      ∃ e, s'.sample_count.items.getLast? = some e ∧
        ((logicDevice 5800).mode = DevMode.DSO → e = 10 ∧ nextDuration e < 10) ∧
        ((logicDevice 5800).mode ≠ DevMode.DSO →
          nextDuration e / 1000000000 * (selected_rate (logicBar 5800 1 ⟨[], -1⟩) : ℚ) < 1024 ∧
          (1024 ≤ usedDepth exampleEnv (logicDevice 5800)
              (logicBar 5800 1 ⟨[], -1⟩).session.ch_num_logic →
            (1024 : ℚ) ≤ e / 1000000000 * (selected_rate (logicBar 5800 1 ⟨[], -1⟩) : ℚ))) :=
  C2_last_entry_floor exampleEnv (logicBar 5800 1 ⟨[], -1⟩) (logicDevice 5800)
    rfl rfl (Or.inr (by simp [selected_rate, logicBar, ComboBox.itemData]))

/-- C4: regeneration is idempotent.  For every toolbar state with a device
selected, two calls of `update_sample_count_selector` in a row (the device
state and the selected sample rate are not touched in between) both return,
and the second call leaves exactly the ladder and the current entry that the
first call left. -/
theorem C4_regeneration_idempotent (env : Env) (s : SamplingBar) (dev : DevInst)
    (hdev : s.device = some dev) :
    (∃ fuel s1 s2, update_sample_count_selector env fuel s = Except.ok s1 ∧
      update_sample_count_selector env fuel s1 = Except.ok s2) ∧
    ∀ f1 f2 s1 s2, update_sample_count_selector env f1 s = Except.ok s1 →
      update_sample_count_selector env f2 s1 = Except.ok s2 →
      s2.sample_count = s1.sample_count ∧ s2.sample_rate = s1.sample_rate ∧
        s2.device = s1.device := by
  cases hg : s.updating_sample_count with
  | true =>
    have hs : ∀ f, update_sample_count_selector env f s = Except.ok s := by
      intro f; simp [update_sample_count_selector, hg]
    refine ⟨⟨0, s, s, hs 0, hs 0⟩, ?_⟩
    intro f1 f2 s1 s2 h1 h2
    rw [hs f1] at h1
    cases h1
    rw [hs f2] at h2
    cases h2
    exact ⟨rfl, rfl, rfl⟩
  | false =>
    have key : ∀ f1 s1, update_sample_count_selector env f1 s = Except.ok s1 →
        ∃ L, L ≠ [] ∧ L.Pairwise (fun a b => a > b) ∧
          ladderLoop dev.mode (selected_rate s1) f1
            (startDuration env dev s1.session.ch_num_logic (selected_rate s1)) = some L ∧
          s1.sample_count = refilled dev (pre_duration s) L ∧
          pre_duration s1 = (refilled dev (pre_duration s) L).itemData
            (refilled dev (pre_duration s) L).currentIndex ∧
          s1.updating_sample_count = false ∧ s1.device = some dev ∧
          s1.sample_rate = s.sample_rate := by
      intro f1 s1 h1
      obtain ⟨L, hL, hbox, hrate, hdev1, hsess, hg1, -⟩ :=
        update_sample_count_selector_ladder env f1 s s1 dev hg hdev h1
      obtain ⟨hne, hpw⟩ := ladderLoop_pairwise _ _ _ _ _ (startDuration_nonneg _ _ _ _) hL
      have hsr : selected_rate s1 = selected_rate s := by
        unfold selected_rate; rw [hrate]
      refine ⟨L, hne, hpw, by rw [hsr, hsess]; exact hL, hbox, ?_, hg1, hdev1, hrate⟩
      unfold pre_duration
      rw [hbox]
      have hc : (0 : ℤ) ≠ (refilled dev (pre_duration s) L).count := by
        simp only [ComboBox.count, refilled_items]
        have : 0 < L.length := List.length_pos.2 hne
        omega
      rw [if_pos hc]
      rfl
    constructor
    · obtain ⟨fuel, hf⟩ := update_sample_count_selector_returns env s dev hg hdev
      obtain ⟨s1, h1⟩ := hf 0
      obtain ⟨L, -, -, hL, -, -, hg1, hdev1, -⟩ := key _ s1 h1
      obtain ⟨s2, h2, -⟩ := update_sample_count_selector_ok env (fuel + 0) s1 dev L hg1 hdev1 hL
      exact ⟨fuel + 0, s1, s2, h1, h2⟩
    · intro f1 f2 s1 s2 h1 h2
      obtain ⟨L, hne, hpw, hL, hbox, hpre, hg1, hdev1, hrate1⟩ := key _ s1 h1
      obtain ⟨L2, hL2, hbox2, hrate2, hdev2, -⟩ :=
        update_sample_count_selector_ladder env f2 s1 s2 dev hg1 hdev1 h2
      have hLL : L2 = L := ladderLoop_unique _ _ _ _ _ _ _ hL2 hL
      refine ⟨?_, hrate2, by rw [hdev2, hdev1]⟩
      rw [hbox2, hLL, hpre, refilled_idem dev _ L hne hpw, hbox]

/-- Instance of C4: a logic analyzer of depth 5800 samples at 2 Hz, empty selector. -/
theorem C4_witness :
    (∃ fuel s1 s2,
      update_sample_count_selector exampleEnv fuel (logicBar 5800 1 ⟨[], -1⟩) = Except.ok s1 ∧
      update_sample_count_selector exampleEnv fuel s1 = Except.ok s2) ∧
    ∀ f1 f2 s1 s2,
      update_sample_count_selector exampleEnv f1 (logicBar 5800 1 ⟨[], -1⟩) = Except.ok s1 →
      update_sample_count_selector exampleEnv f2 s1 = Except.ok s2 →
      s2.sample_count = s1.sample_count ∧ s2.sample_rate = s1.sample_rate ∧
        s2.device = s1.device :=
  C4_regeneration_idempotent exampleEnv (logicBar 5800 1 ⟨[], -1⟩) (logicDevice 5800) rfl

/-- C5 fails as stated: a logic analyzer of depth 5800 samples whose duration
selector holds the ladder of 2 Hz with its longest entry, 2900 s, selected is
switched to 1 Hz.  The regenerated ladder is 5800 s, 3600 s, 3000 s, 1200 s;
the entry selected is 1200 s although 3000 s is nearer to 2900 s. -/
theorem C5_counterexample :
    pre_duration (logicBar 5800 0 ⟨[2900000000000, 1200000000000, 600000000000], 0⟩) =
      2900000000000 ∧
    ∃ s', update_sample_count_selector exampleEnv 4
        (logicBar 5800 0 ⟨[2900000000000, 1200000000000, 600000000000], 0⟩) = Except.ok s' ∧
      s'.sample_count.itemData s'.sample_count.currentIndex = 1200000000000 ∧
      (3000000000000 : ℚ) ∈ s'.sample_count.items ∧
      |(3000000000000 : ℚ) - 2900000000000| < |(1200000000000 : ℚ) - 2900000000000| := by
  have hpre : pre_duration
      (logicBar 5800 0 ⟨[2900000000000, 1200000000000, 600000000000], 0⟩) = 2900000000000 := by
    simp [pre_duration, logicBar, ComboBox.itemData, ComboBox.count]
  have hr : selected_rate
      (logicBar 5800 0 ⟨[2900000000000, 1200000000000, 600000000000], 0⟩) = 1 := by
    simp [selected_rate, logicBar, ComboBox.itemData]
  have hs : startDuration exampleEnv (logicDevice 5800)
      (logicBar 5800 0 ⟨[2900000000000, 1200000000000, 600000000000], 0⟩).session.ch_num_logic
      1 = 5800000000000 := by
    simp [startDuration, logicDevice, SR_SEC]; norm_num
  have hL : ladderLoop (logicDevice 5800).mode
      (selected_rate (logicBar 5800 0 ⟨[2900000000000, 1200000000000, 600000000000], 0⟩)) 4
      (startDuration exampleEnv (logicDevice 5800)
        (logicBar 5800 0 ⟨[2900000000000, 1200000000000, 600000000000], 0⟩).session.ch_num_logic
        (selected_rate (logicBar 5800 0 ⟨[2900000000000, 1200000000000, 600000000000], 0⟩))) =
      some [5800000000000, 3600000000000, 3000000000000, 1200000000000] := by
    rw [hr, hs]
    exact ladder_5800_at_1Hz
  obtain ⟨s', h1, h2, -⟩ := update_sample_count_selector_ok exampleEnv 4 _ (logicDevice 5800) _
    rfl rfl hL
  have hbox : refilled (logicDevice 5800) 2900000000000
      [5800000000000, 3600000000000, 3000000000000, 1200000000000] =
      ⟨[5800000000000, 3600000000000, 3000000000000, 1200000000000], 3⟩ := by
    have e1 : ¬ ((2900000000000 : ℚ) > 5800000000000) := by norm_num
    have e2 : ¬ ((2900000000000 : ℚ) < 1200000000000) := by norm_num
    have e3 : ¬ ((3600000000000 : ℚ) ≤ 2900000000000) := by norm_num
    have e4 : ¬ ((3000000000000 : ℚ) ≤ 2900000000000) := by norm_num
    have e5 : ¬ ((5800000000000 : ℚ) ≤ 2900000000000) := by norm_num
    have e6 : (1200000000000 : ℚ) ≤ 2900000000000 := by norm_num
    simp [refilled, logicDevice, resnap, ComboBox.itemData, ComboBox.count, scanUp,
      ComboBox.setCurrentIndex, e1, e2, e3, e4, e5, e6]
  rw [hpre] at h2
  rw [hbox] at h2
  refine ⟨hpre, s', h1, ?_, ?_, ?_⟩
  · rw [h2]; simp [ComboBox.itemData]
  · rw [h2]; simp
  · norm_num [abs_lt]

/-- When the box holds `t`, `select_hori_res` ends on an entry equal to `t`. -/
theorem select_hori_res_found (t : ℚ) (L : List ℚ) (i : ℕ) (hi : i < L.length) (hmem : t ∈ L) :
    ∃ j : ℕ, j < L.length ∧ select_hori_res t ⟨L, (i : ℤ)⟩ = ⟨L, (j : ℤ)⟩ ∧
      L.getD j 0 = t := by
  obtain ⟨k, hk, hkt⟩ := List.getElem_of_mem hmem
  have hkd : L.getD k 0 = t := by rw [List.getD_eq_getElem _ _ hk]; exact hkt
  rcases select_hori_res_cases t ⟨L, (i : ℤ)⟩ with e | ⟨j, hj, e, hv⟩
  · by_cases c : t ≠ (⟨L, (i : ℤ)⟩ : ComboBox ℚ).itemData (i : ℤ)
    · exfalso
      have hpk : (fun n : ℕ => decide (t = (⟨L, (i : ℤ)⟩ : ComboBox ℚ).itemData (n : ℤ))) k =
          true := by
        simp only [itemData_nat, decide_eq_true_eq]
        exact hkd.symm
      obtain ⟨j, hj⟩ := scanDown_exists
        (fun n : ℕ => decide (t = (⟨L, (i : ℤ)⟩ : ComboBox ℚ).itemData (n : ℤ)))
        (⟨L, (i : ℤ)⟩ : ComboBox ℚ).count.toNat k
        (by simpa [ComboBox.count] using hk) hpk
      obtain ⟨hj1, hpj, -⟩ := scanDown_some _ _ _ hj
      simp only [ComboBox.count, Int.toNat_ofNat] at hj1
      have hpj' : L.getD j 0 = t := by
        simp only [itemData_nat, decide_eq_true_eq] at hpj
        exact hpj.symm
      have e2 : select_hori_res t ⟨L, (i : ℤ)⟩ =
          (⟨L, (i : ℤ)⟩ : ComboBox ℚ).setCurrentIndex j := by
        unfold select_hori_res; rw [if_pos c, hj]
      rw [e] at e2
      have hidx : ((⟨L, (i : ℤ)⟩ : ComboBox ℚ).setCurrentIndex j).currentIndex = j :=
        setCurrentIndex_valid _ _ (by omega) (by exact_mod_cast hj1)
      rw [← e2] at hidx
      simp only at hidx
      have hij : i = j := by exact_mod_cast hidx
      subst hij
      exact c (by rw [itemData_nat]; exact hpj'.symm)
    · have c' : t = L.getD i 0 := by
        have := not_not.1 c
        rwa [itemData_nat] at this
      exact ⟨i, hi, e, c'.symm⟩
  · exact ⟨j, hj, e, hv⟩

/-- When the box does not hold `t`, `select_hori_res` leaves it alone. -/
theorem select_hori_res_absent (t : ℚ) (box : ComboBox ℚ) (hmem : t ∉ box.items) :
    select_hori_res t box = box := by
  rcases select_hori_res_cases t box with e | ⟨j, hj, -, hv⟩
  · exact e
  · exfalso
    apply hmem
    rw [← hv, List.getD_eq_getElem _ _ hj]
    exact List.getElem_mem hj

/-- The oscilloscope ladder is the same at every rate: ten seconds down to ten
nanoseconds in 28 entries. -/
theorem dso_ladder (samplerate : ℕ) :
    ladderLoop DevMode.DSO samplerate 28 10000000000 = some dsoLadder := by
  have hn : ∀ x : ℚ, notLast DevMode.DSO samplerate x = decide (10 ≤ x) := by
    intro x; simp [notLast, SR_NS]
  obtain ⟨a1, b1, c1⟩ := nextDuration_sub_minute 1 (by norm_num)
  norm_num at a1 b1 c1
  obtain ⟨a2, b2, c2⟩ := nextDuration_sub_minute 2 (by norm_num)
  norm_num at a2 b2 c2
  obtain ⟨a3, b3, c3⟩ := nextDuration_sub_minute 3 (by norm_num)
  norm_num at a3 b3 c3
  obtain ⟨a4, b4, c4⟩ := nextDuration_sub_minute 4 (by norm_num)
  norm_num at a4 b4 c4
  obtain ⟨a5, b5, c5⟩ := nextDuration_sub_minute 5 (by norm_num)
  norm_num at a5 b5 c5
  obtain ⟨a6, b6, c6⟩ := nextDuration_sub_minute 6 (by norm_num)
  norm_num at a6 b6 c6
  obtain ⟨a7, b7, c7⟩ := nextDuration_sub_minute 7 (by norm_num)
  norm_num at a7 b7 c7
  obtain ⟨a8, b8, c8⟩ := nextDuration_sub_minute 8 (by norm_num)
  norm_num at a8 b8 c8
  obtain ⟨a9, b9, c9⟩ := nextDuration_sub_minute 9 (by norm_num)
  norm_num at a9 b9 c9
  have c10 := (nextDuration_sub_minute 10 (by norm_num)).2.2
  norm_num at c10
  rw [ladderLoop_succ, c10, hn, if_pos (by norm_num),
    ladderLoop_succ, a9, hn, if_pos (by norm_num),
    ladderLoop_succ, b9, hn, if_pos (by norm_num),
    ladderLoop_succ, c9, hn, if_pos (by norm_num),
    ladderLoop_succ, a8, hn, if_pos (by norm_num),
    ladderLoop_succ, b8, hn, if_pos (by norm_num),
    ladderLoop_succ, c8, hn, if_pos (by norm_num),
    ladderLoop_succ, a7, hn, if_pos (by norm_num),
    ladderLoop_succ, b7, hn, if_pos (by norm_num),
    ladderLoop_succ, c7, hn, if_pos (by norm_num),
    ladderLoop_succ, a6, hn, if_pos (by norm_num),
    ladderLoop_succ, b6, hn, if_pos (by norm_num),
    ladderLoop_succ, c6, hn, if_pos (by norm_num),
    ladderLoop_succ, a5, hn, if_pos (by norm_num),
    ladderLoop_succ, b5, hn, if_pos (by norm_num),
    ladderLoop_succ, c5, hn, if_pos (by norm_num),
    ladderLoop_succ, a4, hn, if_pos (by norm_num),
    ladderLoop_succ, b4, hn, if_pos (by norm_num),
    ladderLoop_succ, c4, hn, if_pos (by norm_num),
    ladderLoop_succ, a3, hn, if_pos (by norm_num),
    ladderLoop_succ, b3, hn, if_pos (by norm_num),
    ladderLoop_succ, c3, hn, if_pos (by norm_num),
    ladderLoop_succ, a2, hn, if_pos (by norm_num),
    ladderLoop_succ, b2, hn, if_pos (by norm_num),
    ladderLoop_succ, c2, hn, if_pos (by norm_num),
    ladderLoop_succ, a1, hn, if_pos (by norm_num),
    ladderLoop_succ, b1, hn, if_pos (by norm_num),
    ladderLoop_succ, c1, hn, if_neg (by norm_num)]
  rfl

/-- In oscilloscope mode every regeneration leaves the 28-entry ladder in the
selector. -/
theorem dsoBar_items (fuel : ℕ) (i j : ℤ) (ch : ℕ) (s' : SamplingBar)
    (h : update_sample_count_selector exampleEnv fuel (dsoBar i j ch) = Except.ok s') :
    s'.sample_count.items = dsoLadder := by
  obtain ⟨L, hL, hbox, -⟩ := update_sample_count_selector_ladder exampleEnv fuel (dsoBar i j ch) s'
    (dsoDevice (some 1000000) 10000 100000000) rfl rfl h
  have hs : startDuration exampleEnv (dsoDevice (some 1000000) 10000 100000000)
      (dsoBar i j ch).session.ch_num_logic (selected_rate (dsoBar i j ch)) = 10000000000 := by
    simp [startDuration, dsoDevice, SR_SEC]
  rw [hs] at hL
  have e := ladderLoop_unique _ _ _ _ _ _ _ hL
    (dso_ladder (selected_rate (dsoBar i j ch)))
  rw [hbox, refilled_items, e]

/-- C5, amended: after `update_sample_count_selector` regenerated the ladder,
the current index is always a valid ladder index.  In oscilloscope mode, when
the device's TIMEBASE is readable and the ladder holds it, the selected entry
is the one equal to TIMEBASE.  In every other case, with `d` the previously
selected duration: when `d` lies above the first (largest) entry, index 0 is
selected; when `d` lies below the last (smallest) entry, the last index is
selected; otherwise the selected entry is the first one that does not exceed
`d`, every entry before it being larger than `d` (a round-down, not a nearest
match). -/
theorem C5_resnap_rounds_down (env : Env) (s : SamplingBar) (dev : DevInst)
    (hg : s.updating_sample_count = false) (hdev : s.device = some dev) :
    (∃ fuel s', update_sample_count_selector env fuel s = Except.ok s') ∧
    ∀ fuel s', update_sample_count_selector env fuel s = Except.ok s' →
      ∃ i : ℕ, s'.sample_count.currentIndex = (i : ℤ) ∧ i < s'.sample_count.items.length ∧
        (∀ tb : ℕ, dev.mode = DevMode.DSO → dev.timebase = some tb →
          (tb : ℚ) ∈ s'.sample_count.items → s'.sample_count.items.getD i 0 = (tb : ℚ)) ∧
        ((dev.mode ≠ DevMode.DSO ∨ dev.timebase = none ∨
            ∃ tb : ℕ, dev.timebase = some tb ∧ (tb : ℚ) ∉ s'.sample_count.items) →
          ((pre_duration s > s'.sample_count.items.getD 0 0 ∧ i = 0) ∨
           (pre_duration s < s'.sample_count.items.getD (s'.sample_count.items.length - 1) 0 ∧
              i = s'.sample_count.items.length - 1) ∨
           (s'.sample_count.items.getD i 0 ≤ pre_duration s ∧
              ∀ j, j < i → pre_duration s < s'.sample_count.items.getD j 0))) := by
  constructor
  · obtain ⟨fuel, hf⟩ := update_sample_count_selector_returns env s dev hg hdev
    exact ⟨fuel + 0, hf 0⟩
  · intro fuel s' h
    obtain ⟨L, hL, hbox, -⟩ := update_sample_count_selector_ladder env fuel s s' dev hg hdev h
    obtain ⟨t, ht⟩ := ladderLoop_head _ _ _ _ _ hL
    have hne : L ≠ [] := by rw [ht]; simp
    obtain ⟨i, hi, hres, hcase⟩ := resnap_spec (pre_duration s) L hne
    have hround : (pre_duration s > L.getD 0 0 ∧ i = 0) ∨
        (pre_duration s < L.getD (L.length - 1) 0 ∧ i = L.length - 1) ∨
        (L.getD i 0 ≤ pre_duration s ∧ ∀ j, j < i → pre_duration s < L.getD j 0) := by
      rcases hcase with ⟨h1, h2⟩ | ⟨_, h2, h3⟩ | ⟨_, _, h3, h4⟩
      · exact Or.inl ⟨h1, h2⟩
      · exact Or.inr (Or.inl ⟨h2, h3⟩)
      · exact Or.inr (Or.inr ⟨h3, h4⟩)
    have hitems : s'.sample_count.items = L := by rw [hbox]; exact refilled_items _ _ _
    unfold refilled at hbox
    simp only [hres] at hbox
    have hplain : s'.sample_count = ⟨L, (i : ℤ)⟩ →
        (∀ tb : ℕ, dev.mode = DevMode.DSO → dev.timebase = some tb → (tb : ℚ) ∈ L →
          (tb : ℚ) ∈ L → L.getD i 0 = (tb : ℚ)) →
        ∃ i : ℕ, s'.sample_count.currentIndex = (i : ℤ) ∧
          i < s'.sample_count.items.length ∧
          (∀ tb : ℕ, dev.mode = DevMode.DSO → dev.timebase = some tb →
            (tb : ℚ) ∈ s'.sample_count.items → s'.sample_count.items.getD i 0 = (tb : ℚ)) ∧
          ((dev.mode ≠ DevMode.DSO ∨ dev.timebase = none ∨
              ∃ tb : ℕ, dev.timebase = some tb ∧ (tb : ℚ) ∉ s'.sample_count.items) →
            ((pre_duration s > s'.sample_count.items.getD 0 0 ∧ i = 0) ∨
             (pre_duration s <
                s'.sample_count.items.getD (s'.sample_count.items.length - 1) 0 ∧
                i = s'.sample_count.items.length - 1) ∨
             (s'.sample_count.items.getD i 0 ≤ pre_duration s ∧
                ∀ j, j < i → pre_duration s < s'.sample_count.items.getD j 0))) := by
      intro e htb
      rw [e]
      exact ⟨i, rfl, hi, fun tb hm ht hmem => htb tb hm ht hmem hmem, fun _ => hround⟩
    by_cases hm : dev.mode = DevMode.DSO
    · rw [if_pos hm] at hbox
      have hopt : dev.timebase = none ∨ ∃ tb, dev.timebase = some tb := by
        cases dev.timebase <;> simp
      rcases hopt with htb | ⟨tb, htb⟩
      · rw [htb] at hbox
        exact hplain hbox (fun tb' _ ht' => by rw [htb] at ht'; cases ht')
      · rw [htb] at hbox
        simp only at hbox
        by_cases hmem : (tb : ℚ) ∈ L
        · obtain ⟨j, hj, e, hv⟩ := select_hori_res_found (tb : ℚ) L i hi hmem
          rw [e] at hbox
          rw [hbox]
          refine ⟨j, rfl, hj, ?_, ?_⟩
          · intro tb' _ ht' _
            rw [htb] at ht'
            cases ht'
            exact hv
          · intro hcase2
            exfalso
            rcases hcase2 with h1 | h1 | ⟨tb', h1, h2⟩
            · exact h1 hm
            · rw [htb] at h1; cases h1
            · rw [htb] at h1
              cases h1
              exact h2 hmem
        · rw [select_hori_res_absent (tb : ℚ) ⟨L, (i : ℤ)⟩ hmem] at hbox
          exact hplain hbox (fun tb' _ ht' hm' => by
            rw [htb] at ht'; cases ht'; exact absurd hm' hmem)
    · rw [if_neg hm] at hbox
      exact hplain hbox (fun tb' hm' => absurd hm' hm)

/-- Instances of the amended C5: a logic analyzer of depth 5800 samples with
2900 s selected, switched to 1 Hz; and an oscilloscope with 1 µs selected
whose TIMEBASE is 1 ms: the entry selected after regeneration is 1 ms. -/
theorem C5_witness :
    ((∃ fuel s', update_sample_count_selector exampleEnv fuel
        (logicBar 5800 0 ⟨[2900000000000, 1200000000000, 600000000000], 0⟩) = Except.ok s') ∧
    ∀ fuel s', update_sample_count_selector exampleEnv fuel
        (logicBar 5800 0 ⟨[2900000000000, 1200000000000, 600000000000], 0⟩) = Except.ok s' →
      ∃ i : ℕ, s'.sample_count.currentIndex = (i : ℤ) ∧ i < s'.sample_count.items.length ∧
        (∀ tb : ℕ, (logicDevice 5800).mode = DevMode.DSO →
          (logicDevice 5800).timebase = some tb →
          (tb : ℚ) ∈ s'.sample_count.items → s'.sample_count.items.getD i 0 = (tb : ℚ)) ∧
        (((logicDevice 5800).mode ≠ DevMode.DSO ∨ (logicDevice 5800).timebase = none ∨
            ∃ tb : ℕ, (logicDevice 5800).timebase = some tb ∧
              (tb : ℚ) ∉ s'.sample_count.items) →
          ((pre_duration (logicBar 5800 0 ⟨[2900000000000, 1200000000000, 600000000000], 0⟩) >
              s'.sample_count.items.getD 0 0 ∧ i = 0) ∨
           (pre_duration (logicBar 5800 0 ⟨[2900000000000, 1200000000000, 600000000000], 0⟩) <
              s'.sample_count.items.getD (s'.sample_count.items.length - 1) 0 ∧
              i = s'.sample_count.items.length - 1) ∨
           (s'.sample_count.items.getD i 0 ≤
              pre_duration
                (logicBar 5800 0 ⟨[2900000000000, 1200000000000, 600000000000], 0⟩) ∧
              ∀ j, j < i →
                pre_duration
                  (logicBar 5800 0 ⟨[2900000000000, 1200000000000, 600000000000], 0⟩) <
                  s'.sample_count.items.getD j 0)))) ∧
    (∃ fuel s', update_sample_count_selector exampleEnv fuel (dsoBar 21 1 1) = Except.ok s') ∧
    pre_duration (dsoBar 21 1 1) = 1000 ∧
    ∀ fuel s', update_sample_count_selector exampleEnv fuel (dsoBar 21 1 1) = Except.ok s' →
      ∃ i : ℕ, s'.sample_count.currentIndex = (i : ℤ) ∧ i < s'.sample_count.items.length ∧
        s'.sample_count.items.getD i 0 = 1000000 := by
  refine ⟨C5_resnap_rounds_down exampleEnv
      (logicBar 5800 0 ⟨[2900000000000, 1200000000000, 600000000000], 0⟩) (logicDevice 5800)
      rfl rfl,
    (C5_resnap_rounds_down exampleEnv (dsoBar 21 1 1)
      (dsoDevice (some 1000000) 10000 100000000) rfl rfl).1, ?_, ?_⟩
  · simp [pre_duration, dsoBar, dsoLadder, ComboBox.itemData, ComboBox.count]
  · intro fuel s' h
    obtain ⟨i, h1, h2, h3, -⟩ := (C5_resnap_rounds_down exampleEnv (dsoBar 21 1 1)
      (dsoDevice (some 1000000) 10000 100000000) rfl rfl).2 fuel s' h
    refine ⟨i, h1, h2, ?_⟩
    have hmem : ((1000000 : ℕ) : ℚ) ∈ s'.sample_count.items := by
      rw [dsoBar_items fuel 21 1 1 s' h]
      simp [dsoLadder]
    have := h3 1000000 rfl rfl hmem
    exact_mod_cast this

/-- C7 fails as stated: an oscilloscope with two channels, 100 MHz selected,
is set to 10 s per division.  The implied rate is 100 Hz, below every rate
of the list, so `set_sample_rate` selects nothing and 100 MHz stays selected,
above both 100 MHz / 2 and the implied rate. -/
theorem C7_counterexample :
    ∃ s' r, commit_hori_res exampleEnv 0 (dsoBar 0 2 2) = Except.ok (s', r) ∧
      selected_rate s' = 100000000 ∧
      ¬ (selected_rate s' ≤ 100000000 / max 2 1) ∧
      ¬ ((selected_rate s' : ℚ) ≤ (10000 : ℚ) * 1000000000 / (10000000000 * 10)) := by
  obtain ⟨s', r, h⟩ := commit_hori_res_returns_dso exampleEnv 0 (dsoBar 0 2 2)
    (dsoDevice (some 1000000) 10000 100000000) rfl rfl
  have hrate := (commit_hori_res_rate exampleEnv 0 (dsoBar 0 2 2) s' r
    (dsoDevice (some 1000000) 10000 100000000) 100000000 rfl rfl h).2
  have hd : selected_duration (dsoBar 0 2 2) = 10000000000 := by
    simp [selected_duration, dsoBar, dsoLadder, ComboBox.itemData]
  have hv : dso_sample_rate (dsoDevice (some 1000000) 10000 100000000).sample_limit 10000000000
      100000000 (dsoBar 0 2 2).session.ch_num_dso = 100 := by
    rw [dso_sample_rate_eq_spec _ _ _ _ (by norm_num [SR_SEC, dsoDevice])]
    simp only [implied_rate_spec, dsoDevice, dsoBar]
    norm_num
  rw [hd, hv] at hrate
  have hsel : selected_rate s' = 100000000 := by
    unfold selected_rate
    rw [hrate]
    simp [dsoBar, ComboBox.itemData, ComboBox.count, scanDown]
  refine ⟨s', r, h, hsel, ?_, ?_⟩
  · rw [hsel]; norm_num
  · rw [hsel]; norm_num

/-- C7, amended: after a call of `commit_hori_res` that finds
`MAX_DSO_SAMPLERATE` readable and a positive duration selected, if the rate
list holds at least one rate that does not exceed the rate asked of
`set_sample_rate`, the rate left selected exceeds neither
`maxDeviceRate / max(channelCount, 1)` nor the implied rate
`sampleLimit × 1 s / (duration × horizontalDivisions)`; if every rate of the
list exceeds the rate asked for, the rate selector is left as it was. -/
theorem C7_selected_rate_bound (env : Env) (fuel : ℕ) (s s' : SamplingBar) (r : ℚ)
    (dev : DevInst) (m : ℕ) (hdev : s.device = some dev) (hmax : dev.max_dso_samplerate = some m)
    (hres : 0 < selected_duration s)
    (h : commit_hori_res env fuel s = Except.ok (s', r)) :
    ((∃ i : ℕ, i < s.sample_rate.items.length ∧ s.sample_rate.items.getD i 0 ≤
        dso_sample_rate dev.sample_limit (selected_duration s) m s.session.ch_num_dso) →
      selected_rate s' ≤ m / max s.session.ch_num_dso 1 ∧
      (selected_rate s' : ℚ) ≤
        (dev.sample_limit : ℚ) * 1000000000 / (selected_duration s * 10)) ∧
    ((∀ i : ℕ, i < s.sample_rate.items.length →
        dso_sample_rate dev.sample_limit (selected_duration s) m s.session.ch_num_dso <
          s.sample_rate.items.getD i 0) →
      s'.sample_rate = s.sample_rate) := by
  have hrate := (commit_hori_res_rate env fuel s s' r dev m hdev hmax h).2
  have hle := dso_sample_rate_le dev.sample_limit (selected_duration s) m s.session.ch_num_dso hres
  have hitem : ∀ i : ℕ, s.sample_rate.itemData (i : ℤ) = s.sample_rate.items.getD i 0 := by
    intro i; simp [ComboBox.itemData]
  cases hs : scanDown (fun i : ℕ => decide
      (dso_sample_rate dev.sample_limit (selected_duration s) m s.session.ch_num_dso ≥
        s.sample_rate.itemData (i : ℤ))) s.sample_rate.count.toNat with
  | none =>
    rw [hs] at hrate
    have hn := scanDown_none _ _ hs
    simp only [ComboBox.count, Int.toNat_ofNat] at hn
    refine ⟨?_, fun _ => hrate⟩
    rintro ⟨i, hi, hi2⟩
    have := hn i hi
    rw [hitem] at this
    simp only [ge_iff_le, decide_eq_false_iff_not] at this
    exact absurd hi2 this
  | some j =>
    rw [hs] at hrate
    obtain ⟨hj, hpj, -⟩ := scanDown_some _ _ _ hs
    simp only [ComboBox.count, Int.toNat_ofNat] at hj
    rw [hitem] at hpj
    simp only [ge_iff_le, decide_eq_true_eq] at hpj
    constructor
    · intro _
      have hj' : (j : ℤ) < s.sample_rate.items.length := by exact_mod_cast hj
      have hsel : selected_rate s' = s.sample_rate.items.getD j 0 := by
        unfold selected_rate
        rw [hrate]
        simp only at *
        rw [setCurrentIndex_valid _ _ (by omega) hj']
        simp [ComboBox.itemData, ComboBox.setCurrentIndex]
      rw [hsel]
      refine ⟨le_trans hpj hle.1, ?_⟩
      have : ((s.sample_rate.items.getD j 0 : ℕ) : ℚ) ≤
          (dso_sample_rate dev.sample_limit (selected_duration s) m s.session.ch_num_dso : ℚ) := by
        exact_mod_cast hpj
      linarith [hle.2]
    · intro hall
      have := hall j hj
      omega

/-- Instance of the amended C7: one channel, 1 ms per division, 1 kHz selected before. -/
theorem C7_witness :
    ∃ s' r, commit_hori_res exampleEnv 0 (dsoBar 12 0 1) = Except.ok (s', r) ∧
      (((∃ i : ℕ, i < (dsoBar 12 0 1).sample_rate.items.length ∧
          (dsoBar 12 0 1).sample_rate.items.getD i 0 ≤
            dso_sample_rate (dsoDevice (some 1000000) 10000 100000000).sample_limit
              (selected_duration (dsoBar 12 0 1)) 100000000 (dsoBar 12 0 1).session.ch_num_dso) →
        selected_rate s' ≤ 100000000 / max (dsoBar 12 0 1).session.ch_num_dso 1 ∧
        (selected_rate s' : ℚ) ≤
          ((dsoDevice (some 1000000) 10000 100000000).sample_limit : ℚ) * 1000000000 /
            (selected_duration (dsoBar 12 0 1) * 10)) ∧
      ((∀ i : ℕ, i < (dsoBar 12 0 1).sample_rate.items.length →
          dso_sample_rate (dsoDevice (some 1000000) 10000 100000000).sample_limit
              (selected_duration (dsoBar 12 0 1)) 100000000 (dsoBar 12 0 1).session.ch_num_dso <
            (dsoBar 12 0 1).sample_rate.items.getD i 0) →
        s'.sample_rate = (dsoBar 12 0 1).sample_rate)) := by
  obtain ⟨s', r, h⟩ := commit_hori_res_returns_dso exampleEnv 0 (dsoBar 12 0 1)
    (dsoDevice (some 1000000) 10000 100000000) rfl rfl
  exact ⟨s', r, h, C7_selected_rate_bound exampleEnv 0 (dsoBar 12 0 1) s' r
    (dsoDevice (some 1000000) 10000 100000000) 100000000 rfl rfl
    (by simp [selected_duration, dsoBar, dsoLadder, ComboBox.itemData]) h⟩

/-- C9: deferred stop.  While sampling, with a device selected, both
`on_run_stop` and `on_instant_stop` return, clear the repeat flag first, and
then issue `stop_capture` followed by the `capture_state_changed(Stopped)`
notification if and only if the stop is not deferred, the stop being deferred
exactly when the run mode is not Repetitive and `WAIT_UPLOAD` reads true; they
issue nothing else.  In particular with `WAIT_UPLOAD = true` in Single mode
neither the stop command nor the Stopped notification is issued. -/
theorem C9_deferred_stop (env : Env) (accept : Bool) (waits : List Wait) (s : SamplingBar)
    (dev : DevInst)
    (hs : s.sampling = true) (hdev : s.device = some dev) :
    ∃ s1 s2, on_run_stop env accept waits s = Except.ok s1 ∧
      on_instant_stop env accept waits s = Except.ok s2 ∧
      s1.session.repeating = false ∧ s2.session.repeating = false ∧
      s1.trace = s.trace ++ Event.set_repeating false ::
        (if s.session.run_mode ≠ RunMode.Repetitive ∧ dev.wait_upload = some true then []
         else [Event.stop_capture, Event.capture_state_changed_Stopped]) ∧
      s2.trace = s1.trace ∧
      (dev.wait_upload = some true → s.session.run_mode = RunMode.Single →
        s1.trace = s.trace ++ [Event.set_repeating false]) := by
  have hR : on_run_stop env accept waits s = Except.ok
      (if s.session.run_mode ≠ RunMode.Repetitive ∧ dev.wait_upload = some true then
        set_repeating false s
       else ((set_repeating false s).log Event.stop_capture).log
        Event.capture_state_changed_Stopped) := by
    by_cases hrm : s.session.run_mode = RunMode.Repetitive
    · simp [on_run_stop, hs, set_repeating, SamplingBar.log, hrm, bind, Except.bind, pure,
        Except.pure]
    · rcases hw : dev.wait_upload with _ | b
      · simp [on_run_stop, hs, set_repeating, SamplingBar.log, SamplingBar.deref_device, hdev,
          hrm, hw, bind, Except.bind, pure, Except.pure]
      · cases b <;>
          simp [on_run_stop, hs, set_repeating, SamplingBar.log, SamplingBar.deref_device, hdev,
            hrm, hw, bind, Except.bind, pure, Except.pure]
  have hI : on_instant_stop env accept waits s = Except.ok
      (if s.session.run_mode ≠ RunMode.Repetitive ∧ dev.wait_upload = some true then
        set_repeating false s
       else ((set_repeating false s).log Event.stop_capture).log
        Event.capture_state_changed_Stopped) := by
    by_cases hrm : s.session.run_mode = RunMode.Repetitive
    · simp [on_instant_stop, hs, set_repeating, SamplingBar.log, hrm, bind, Except.bind, pure,
        Except.pure]
    · rcases hw : dev.wait_upload with _ | b
      · simp [on_instant_stop, hs, set_repeating, SamplingBar.log, SamplingBar.deref_device,
          hdev, hrm, hw, bind, Except.bind, pure, Except.pure]
      · cases b <;>
          simp [on_instant_stop, hs, set_repeating, SamplingBar.log, SamplingBar.deref_device,
            hdev, hrm, hw, bind, Except.bind, pure, Except.pure]
  refine ⟨_, _, hR, hI, ?_, ?_, ?_, rfl, ?_⟩
  · split_ifs <;> simp [set_repeating, SamplingBar.log]
  · split_ifs <;> simp [set_repeating, SamplingBar.log]
  · split_ifs <;> simp [set_repeating, SamplingBar.log]
  · intro hw hrm
    rw [if_pos ⟨by rw [hrm]; decide, hw⟩]
    simp [set_repeating, SamplingBar.log]

/-- Instance of C9: an oscilloscope with WAIT_UPLOAD true, Single mode, while sampling. -/
theorem C9_witness :
    ∃ s1 s2, on_run_stop exampleEnv false [] { dsoBar 12 1 1 with sampling := true } = Except.ok s1 ∧
      on_instant_stop exampleEnv false [] { dsoBar 12 1 1 with sampling := true } = Except.ok s2 ∧
      s1.session.repeating = false ∧ s2.session.repeating = false ∧
      s1.trace = ({ dsoBar 12 1 1 with sampling := true } : SamplingBar).trace ++
        Event.set_repeating false ::
        (if ({ dsoBar 12 1 1 with sampling := true } : SamplingBar).session.run_mode ≠
            RunMode.Repetitive ∧
            (dsoDevice (some 1000000) 10000 100000000).wait_upload = some true then []
         else [Event.stop_capture, Event.capture_state_changed_Stopped]) ∧
      s2.trace = s1.trace ∧
      ((dsoDevice (some 1000000) 10000 100000000).wait_upload = some true →
        ({ dsoBar 12 1 1 with sampling := true } : SamplingBar).session.run_mode =
          RunMode.Single →
        s1.trace = ({ dsoBar 12 1 1 with sampling := true } : SamplingBar).trace ++
          [Event.set_repeating false]) :=
  C9_deferred_stop exampleEnv false [] { dsoBar 12 1 1 with sampling := true }
    (dsoDevice (some 1000000) 10000 100000000) rfl rfl

/-- C10 fails as stated: the run/stop slot is a toggle.  Invoked while a
capture is running it issues the stop command and the Stopped notification;
invoked while idle it disables the start controls and emits the start
request. -/
theorem C10_counterexample :
    (armedBar.sampling = true ∧ armedBar.trace = [] ∧
      ∃ s', on_run_stop exampleEnv false [] armedBar = Except.ok s' ∧
        s'.trace = [Event.set_repeating false, Event.stop_capture,
          Event.capture_state_changed_Stopped]) ∧
    ((logicBar 5800 0 ⟨[], -1⟩).sampling = false ∧
      (logicBar 5800 0 ⟨[], -1⟩).session.repeating = false ∧
      (logicBar 5800 0 ⟨[], -1⟩).run_stop_enabled = true ∧
      ∃ s', on_run_stop exampleEnv false [] (logicBar 5800 0 ⟨[], -1⟩) = Except.ok s' ∧
        Event.run_stop ∈ s'.trace ∧ s'.run_stop_enabled = false) := by
  refine ⟨⟨rfl, rfl, ?_⟩, rfl, rfl, rfl, ?_⟩
  · exact ⟨_, on_run_stop_stop exampleEnv false [] armedBar rfl (Or.inr ⟨_, rfl⟩), rfl⟩
  · refine ⟨_, on_run_stop_start exampleEnv false [] (logicBar 5800 0 ⟨[], -1⟩)
      (logicDevice 5800) rfl rfl rfl (Or.inl (by decide)), ?_, ?_⟩
    · simp [SamplingBar.log]
    · exact (prepared_frame exampleEnv false (logicBar 5800 0 ⟨[], -1⟩)).2.2.2.1

/-- C10, amended: `on_run_stop` is a toggle, not a guarded start.  Invoked
while sampling it acts as a stop request: it returns as soon as the run mode
is Repetitive or a device is selected, clears the repeat flag, then issues the
stop command and the Stopped notification unless the stop is deferred, and
performs none of the start actions (sampling flag, start controls, instant
flag, selectors and device unchanged, no device write, no start request).
Invoked while idle and not repeating, unless a pending calibration is
accepted, it acts as a start request: it returns, having issued the device
writes of `commit_settings` and then nothing when no device is selected, the
calibration dialog and the write of `ZERO = false` when a pending calibration
is declined, and the run start request otherwise; it clears the instant flag,
leaves the session and the sampling flag alone and leaves both start controls
disabled unless the calibration was declined.  With a pending calibration
accepted it hands over to `zero_adj`: after the waiting dialog `on_run_stop`
runs again if the capture is running, and whenever the call returns the
calibration dialog and the run start request are among the events issued. -/
theorem C10_run_stop_toggle (env : Env) (accept : Bool) (waits : List Wait) (s : SamplingBar) :
    (s.sampling = true →
      ((s.session.run_mode = RunMode.Repetitive ∨ ∃ dev, s.device = some dev) →
        ∃ s', on_run_stop env accept waits s = Except.ok s') ∧
      ∀ s', on_run_stop env accept waits s = Except.ok s' →
        s'.trace = s.trace ++ Event.set_repeating false ::
          (if stop_deferred s then []
           else [Event.stop_capture, Event.capture_state_changed_Stopped]) ∧
        s'.session.repeating = false ∧ s'.sampling = true ∧
        s'.run_stop_enabled = s.run_stop_enabled ∧ s'.instant_enabled = s.instant_enabled ∧
        s'.instant = s.instant ∧ s'.device = s.device ∧
        s'.sample_rate = s.sample_rate ∧ s'.sample_count = s.sample_count) ∧
    (s.sampling = false → s.session.repeating = false →
      (accept = false ∨ calibration_pending s = false) →
      ∃ s' writes, on_run_stop env accept waits s = Except.ok s' ∧
        (commit_settings env (enable_instant false (enable_run_stop false s))).trace =
          s.trace ++ writes ∧
        (∀ e ∈ writes, ∃ w, e = Event.set_config w) ∧
        s'.trace = s.trace ++ writes ++
          (if s.device.isNone then []
           else if calibration_pending s then
             [Event.calibration_dialog, Event.set_config (ConfigWrite.ZERO false)]
           else [Event.run_stop]) ∧
        s'.session = s.session ∧ s'.sampling = false ∧ s'.instant = false ∧
        s'.run_stop_enabled = calibration_pending s ∧
        s'.instant_enabled = calibration_pending s) ∧
    (s.sampling = false → s.session.repeating = false → accept = true →
      calibration_pending s = true →
      on_run_stop env accept waits s =
        zero_adj env waits ((prepared env false s).log Event.calibration_dialog) ∧
      (∀ w rest, waits = w :: rest →
        on_run_stop env accept waits s =
          if (w.after (zero_adj_logged w.rejected
              ((prepared env false s).log Event.calibration_dialog))).session.capture_state =
              CaptureState.Running then
            on_run_stop env w.accept rest
              { w.after (zero_adj_logged w.rejected
                  ((prepared env false s).log Event.calibration_dialog)) with
                trace := (zero_adj_logged w.rejected
                  ((prepared env false s).log Event.calibration_dialog)).trace }
          else
            Except.ok
              { w.after (zero_adj_logged w.rejected
                  ((prepared env false s).log Event.calibration_dialog)) with
                trace := (zero_adj_logged w.rejected
                  ((prepared env false s).log Event.calibration_dialog)).trace }) ∧
      ∀ s', on_run_stop env accept waits s = Except.ok s' →
        ∃ new, s'.trace = s.trace ++ new ∧ Event.calibration_dialog ∈ new ∧
          Event.run_stop ∈ new) := by
  refine ⟨?_, ?_, ?_⟩
  · intro hs
    have hs' : (s.sampling || s.session.repeating) = true := by simp [hs]
    refine ⟨fun hd => ⟨_, on_run_stop_stop env accept waits s hs' hd⟩, ?_⟩
    intro s' h
    have e := on_run_stop_stop_ok env accept waits s s' hs' h
    rw [e]
    split_ifs <;> simp [set_repeating, SamplingBar.log, hs]
  · intro hs hr hna
    obtain ⟨f1, f2, f3, f4, f5⟩ := prepared_frame env false s
    obtain ⟨new0, ht, hw⟩ := prepared_writes env false s
    have ht0 : (commit_settings env (enable_instant false (enable_run_stop false s))).trace =
        s.trace ++ new0 := ht
    rcases hd : s.device with _ | dev
    · have hp : calibration_pending s = false := by simp [calibration_pending, hd]
      refine ⟨_, new0, on_run_stop_no_device env accept waits s hs hr hd, ht0, hw, ?_,
        f1, f2.trans hs, f3, by rw [hp]; exact f4, by rw [hp]; exact f5⟩
      simp [ht]
    · by_cases hp : calibration_pending s = false
      · refine ⟨_, new0, on_run_stop_start env accept waits s dev hs hr hd
          (calibration_pending_false s dev hp hd), ht0, hw, ?_,
          f1, f2.trans hs, f3, by rw [hp]; exact f4, by rw [hp]; exact f5⟩
        simp [SamplingBar.log, ht, hp]
      · have hacc : accept = false := hna.resolve_right hp
        subst hacc
        have hp' : calibration_pending s = true := by simpa using hp
        obtain ⟨dev', hd', hm, hz⟩ := calibration_pending_true s hp'
        obtain ⟨d2, h2, -, -⟩ := prepared_device env false s dev' hd'
        refine ⟨_, new0, on_run_stop_declined env waits s dev' hs hr hd' hm hz, ht0, hw,
          ?_, ?_, ?_, ?_, ?_, ?_⟩
        · simp [SamplingBar.log, SamplingBar.set_config, enable_instant, enable_run_stop, h2,
            ht, hp']
        · simp [SamplingBar.log, SamplingBar.set_config, enable_instant, enable_run_stop, h2]
          exact f1
        · simp [SamplingBar.log, SamplingBar.set_config, enable_instant, enable_run_stop, h2]
          exact f2.trans hs
        · simp [SamplingBar.log, SamplingBar.set_config, enable_instant, enable_run_stop, h2]
          exact f3
        · simp [SamplingBar.log, SamplingBar.set_config, enable_instant, enable_run_stop, h2,
            hp']
        · simp [SamplingBar.log, SamplingBar.set_config, enable_instant, enable_run_stop, h2,
            hp']
  · intro hs hr hacc hp
    subst hacc
    have e := (start_branches_calibrate env waits s hs hr hp).1
    refine ⟨e, ?_, ?_⟩
    · intro w rest hwr
      rw [e, hwr, zero_adj_cons]
    · intro s' h
      rw [e] at h
      obtain ⟨new, hnew⟩ := (slots_trace env waits).1 _ _ h
      obtain ⟨new0, ht0, -⟩ := prepared_writes env false s
      refine ⟨new0 ++ Event.calibration_dialog :: Event.dso_set_enable :: Event.run_stop :: new,
        ?_, by simp, by simp⟩
      rw [hnew]
      simp [SamplingBar.log, ht0]

/-- Instances of C10: a running capture; an idle logic analyzer; and an idle
oscilloscope with a pending calibration accepted, where the capture started
by `zero_adj` is running when the waiting dialog closes, so that the nested
`on_run_stop` stops it again. -/
theorem C10_witness :
    (∃ s', on_run_stop exampleEnv false [] armedBar = Except.ok s') ∧
    (∀ s', on_run_stop exampleEnv false [] armedBar = Except.ok s' →
      s'.trace = armedBar.trace ++ Event.set_repeating false ::
        (if stop_deferred armedBar then []
         else [Event.stop_capture, Event.capture_state_changed_Stopped]) ∧
      s'.session.repeating = false ∧ s'.sampling = true ∧
      s'.run_stop_enabled = armedBar.run_stop_enabled ∧
      s'.instant_enabled = armedBar.instant_enabled ∧
      s'.instant = armedBar.instant ∧ s'.device = armedBar.device ∧
      s'.sample_rate = armedBar.sample_rate ∧ s'.sample_count = armedBar.sample_count) ∧
    (∃ s' writes, on_run_stop exampleEnv false [] (logicBar 5800 0 ⟨[], -1⟩) = Except.ok s' ∧
      (commit_settings exampleEnv (enable_instant false (enable_run_stop false
        (logicBar 5800 0 ⟨[], -1⟩)))).trace = (logicBar 5800 0 ⟨[], -1⟩).trace ++ writes ∧
      (∀ e ∈ writes, ∃ w, e = Event.set_config w) ∧
      s'.trace = (logicBar 5800 0 ⟨[], -1⟩).trace ++ writes ++
        (if (logicBar 5800 0 ⟨[], -1⟩).device.isNone then []
         else if calibration_pending (logicBar 5800 0 ⟨[], -1⟩) then
           [Event.calibration_dialog, Event.set_config (ConfigWrite.ZERO false)]
         else [Event.run_stop]) ∧
      s'.session = (logicBar 5800 0 ⟨[], -1⟩).session ∧ s'.sampling = false ∧
      s'.instant = false ∧
      s'.run_stop_enabled = calibration_pending (logicBar 5800 0 ⟨[], -1⟩) ∧
      s'.instant_enabled = calibration_pending (logicBar 5800 0 ⟨[], -1⟩)) ∧
    (on_run_stop exampleEnv true [⟨false, captureStarts, false⟩] calibratingBar =
      zero_adj exampleEnv [⟨false, captureStarts, false⟩]
        ((prepared exampleEnv false calibratingBar).log Event.calibration_dialog)) ∧
    (∃ s', on_run_stop exampleEnv true [⟨false, captureStarts, false⟩] calibratingBar =
        Except.ok s' ∧
      s'.trace = [Event.calibration_dialog, Event.dso_set_enable, Event.run_stop,
        Event.waiting_dialog, Event.set_repeating false, Event.stop_capture,
        Event.capture_state_changed_Stopped]) := by
  refine ⟨((C10_run_stop_toggle exampleEnv false [] armedBar).1 rfl).1 (Or.inr ⟨_, rfl⟩),
    ((C10_run_stop_toggle exampleEnv false [] armedBar).1 rfl).2,
    (C10_run_stop_toggle exampleEnv false [] (logicBar 5800 0 ⟨[], -1⟩)).2.1 rfl rfl
      (Or.inl rfl),
    ((C10_run_stop_toggle exampleEnv true [⟨false, captureStarts, false⟩]
      calibratingBar).2.2 rfl rfl rfl rfl).1, ?_⟩
  rw [((C10_run_stop_toggle exampleEnv true [⟨false, captureStarts, false⟩]
    calibratingBar).2.2 rfl rfl rfl rfl).1, zero_adj_cons, prepared_calibratingBar]
  split_ifs with hc
  · rw [on_run_stop_stop]
    · exact ⟨_, rfl, rfl⟩
    · rfl
    · exact Or.inr ⟨_, rfl⟩
  · exact absurd rfl hc

/-- C11: re-entrancy guard discipline of `update_sample_rate_selector`,
`update_sample_rate_selector_value`, `update_sample_count_selector` and
`update_sample_count_selector_value`.  Invoked while its own guard flag is
set, each returns at once and leaves the whole state, selectors and selection
included, as it was.  Invoked with both guard flags clear, each leaves both
flags clear on every return, the device-missing and capability-failure early
returns and the runs of the connected slots included; and the calls do
return: `update_sample_rate_selector` always (enough fuel), the other three
whenever a device is selected. -/
theorem C11_guard_discipline (env : Env) (s : SamplingBar) :
    (s.updating_sample_rate = true → ∀ fuel,
      update_sample_rate_selector env fuel s = Except.ok s ∧
      update_sample_rate_selector_value env fuel s = Except.ok s) ∧
    (s.updating_sample_count = true → ∀ fuel,
      update_sample_count_selector env fuel s = Except.ok s ∧
      update_sample_count_selector_value env fuel s = Except.ok s) ∧
    (s.updating_sample_rate = false → s.updating_sample_count = false →
      (∀ fuel s',
        (update_sample_rate_selector env fuel s = Except.ok s' ∨
         update_sample_rate_selector_value env fuel s = Except.ok s' ∨
         update_sample_count_selector env fuel s = Except.ok s' ∨
         update_sample_count_selector_value env fuel s = Except.ok s') →
        s'.updating_sample_rate = false ∧ s'.updating_sample_count = false) ∧
      (∃ fuel, ∀ k, ∃ s', update_sample_rate_selector env (fuel + k) s = Except.ok s') ∧
      (∀ dev, s.device = some dev → ∃ fuel, ∀ k,
        (∃ s', update_sample_rate_selector_value env (fuel + k) s = Except.ok s') ∧
        (∃ s', update_sample_count_selector env (fuel + k) s = Except.ok s') ∧
        (∃ s', update_sample_count_selector_value env (fuel + k) s = Except.ok s'))) := by
  refine ⟨?_, ?_, ?_⟩
  · intro hg fuel
    constructor
    · simp [update_sample_rate_selector, hg]
    · simp [update_sample_rate_selector_value, hg]
  · intro hg fuel
    constructor
    · simp [update_sample_count_selector, hg]
    · simp [update_sample_count_selector_value, hg]
  · intro hr hc
    refine ⟨?_, update_sample_rate_selector_returns env s, ?_⟩
    · intro fuel s' h
      rcases h with h | h | h | h
      · exact update_sample_rate_selector_flags env fuel s s' hr hc h
      · have := update_sample_rate_selector_value_flags env fuel s s' hr h
        exact ⟨this.1, this.2 hc⟩
      · have := update_sample_count_selector_flags env fuel s s' h
        exact ⟨by rw [this.1]; exact hr, by rw [this.2]; exact hc⟩
      · have := update_sample_count_selector_value_flags env fuel s s' hc h
        exact ⟨by rw [this.2]; exact hr, this.1⟩
    · intro dev hdev
      obtain ⟨f1, h1⟩ := update_sample_rate_selector_value_returns env s dev hdev
      obtain ⟨f2, h2⟩ := update_sample_count_selector_returns_any env s dev hdev
      refine ⟨f1 + f2 + 1, fun k => ⟨?_, ?_, ?_⟩⟩
      · have := h1 (f2 + 1 + k)
        rwa [← Nat.add_assoc, ← Nat.add_assoc] at this
      · have := h2 (f1 + 1 + k)
        have e : f2 + (f1 + 1 + k) = f1 + f2 + 1 + k := by omega
        rwa [e] at this
      · have := update_sample_count_selector_value_returns env (f1 + f2 + k) s dev hdev
        have e : f1 + f2 + k + 1 = f1 + f2 + 1 + k := by omega
        rwa [e] at this

/-- Instances of C11: the oscilloscope toolbar with both guards set, and with
both guards clear and a duration selected that differs from the TIMEBASE of
the device, so that `update_sample_count_selector_value` moves the selection
and the connected slot runs. -/
theorem C11_witness :
    (update_sample_rate_selector exampleEnv 0 guardedBar = Except.ok guardedBar ∧
      update_sample_rate_selector_value exampleEnv 0 guardedBar = Except.ok guardedBar) ∧
    (update_sample_count_selector exampleEnv 0 guardedBar = Except.ok guardedBar ∧
      update_sample_count_selector_value exampleEnv 0 guardedBar = Except.ok guardedBar) ∧
    (∀ fuel s',
        (update_sample_rate_selector exampleEnv fuel (dsoBar 21 1 1) = Except.ok s' ∨
         update_sample_rate_selector_value exampleEnv fuel (dsoBar 21 1 1) = Except.ok s' ∨
         update_sample_count_selector exampleEnv fuel (dsoBar 21 1 1) = Except.ok s' ∨
         update_sample_count_selector_value exampleEnv fuel (dsoBar 21 1 1) = Except.ok s') →
        s'.updating_sample_rate = false ∧ s'.updating_sample_count = false) ∧
    (∃ fuel, ∀ k, ∃ s',
      update_sample_rate_selector exampleEnv (fuel + k) (dsoBar 21 1 1) = Except.ok s') ∧
    (∃ fuel, ∀ k,
      (∃ s', update_sample_rate_selector_value exampleEnv (fuel + k) (dsoBar 21 1 1) =
        Except.ok s') ∧
      (∃ s', update_sample_count_selector exampleEnv (fuel + k) (dsoBar 21 1 1) =
        Except.ok s') ∧
      (∃ s', update_sample_count_selector_value exampleEnv (fuel + k) (dsoBar 21 1 1) =
        Except.ok s')) ∧
    (∃ s', update_sample_count_selector_value exampleEnv 1 (dsoBar 21 1 1) = Except.ok s' ∧
      s'.sample_count.currentIndex = 12 ∧
      s'.trace = [Event.set_cur_samplerate 1000000,
        Event.set_config (ConfigWrite.TIMEBASE 1000000)] ∧
      s'.updating_sample_count = false) :=
  ⟨(C11_guard_discipline exampleEnv guardedBar).1 rfl 0,
    (C11_guard_discipline exampleEnv guardedBar).2.1 rfl 0,
    ((C11_guard_discipline exampleEnv (dsoBar 21 1 1)).2.2 rfl rfl).1,
    ((C11_guard_discipline exampleEnv (dsoBar 21 1 1)).2.2 rfl rfl).2.1,
    ((C11_guard_discipline exampleEnv (dsoBar 21 1 1)).2.2 rfl rfl).2.2
      (dsoDevice (some 1000000) 10000 100000000) rfl,
    dsoBar_value_slot⟩

/-- C12: an unsupported required capability aborts with the state preserved.
With a device selected: if `MAX_DSO_SAMPLERATE` is unsupported,
`commit_hori_res` returns -1, leaves the rate selector, the duration selector
and the device as they were and issues no device write (so neither
`SAMPLERATE` nor `TIMEBASE` is written); if `TIMEBASE` is unsupported,
`update_sample_count_selector_value` returns with the whole state, the
selected duration included, unchanged. -/
theorem C12_unsupported_capability (env : Env) (fuel : ℕ) (s : SamplingBar) (dev : DevInst)
    (hdev : s.device = some dev) :
    (dev.max_dso_samplerate = none →
      ∃ s' new, commit_hori_res env fuel s = Except.ok (s', -1) ∧
        s'.sample_rate = s.sample_rate ∧ s'.sample_count = s.sample_count ∧
        s'.device = s.device ∧ s'.trace = s.trace ++ new ∧
        ∀ w, Event.set_config w ∉ new) ∧
    (dev.timebase = none → update_sample_count_selector_value env fuel s = Except.ok s) := by
  constructor
  · intro hmax
    rw [commit_hori_res_no_max env fuel s dev hdev hmax]
    by_cases hc : s.session.capture_state = CaptureState.Running
    · rw [if_pos hc]
      exact ⟨_, [Event.refresh], rfl, rfl, rfl, rfl, rfl, by simp⟩
    · rw [if_neg hc]
      exact ⟨_, [], rfl, rfl, rfl, rfl, by simp, by simp⟩
  · intro htb
    exact update_sample_count_selector_value_no_timebase env fuel s dev hdev htb

/-- Instance of C12: an oscilloscope with neither `MAX_DSO_SAMPLERATE` nor
`TIMEBASE` readable. -/
theorem C12_witness :
    (∃ s' new, commit_hori_res exampleEnv 0 noCapBar = Except.ok (s', -1) ∧
        s'.sample_rate = noCapBar.sample_rate ∧ s'.sample_count = noCapBar.sample_count ∧
        s'.device = noCapBar.device ∧ s'.trace = noCapBar.trace ++ new ∧
        ∀ w, Event.set_config w ∉ new) ∧
    update_sample_count_selector_value exampleEnv 0 noCapBar = Except.ok noCapBar :=
  ⟨(C12_unsupported_capability exampleEnv 0 noCapBar
      { dsoDevice none 10000 100000000 with max_dso_samplerate := none } rfl).1 rfl,
    (C12_unsupported_capability exampleEnv 0 noCapBar
      { dsoDevice none 10000 100000000 with max_dso_samplerate := none } rfl).2 rfl⟩

/-- C13 fails as stated: with the oscilloscope ZERO query returning no value
the start is not aborted; the start request is emitted and both start
controls stay disabled. -/
theorem C13_counterexample :
    noZeroBar.sampling = false ∧ noZeroBar.session.repeating = false ∧
    (∃ dev, noZeroBar.device = some dev ∧ dev.mode = DevMode.DSO ∧ dev.zero = none) ∧
    ∃ s', on_run_stop exampleEnv false [] noZeroBar = Except.ok s' ∧
      Event.run_stop ∈ s'.trace ∧ s'.run_stop_enabled = false ∧
      s'.instant_enabled = false := by
  refine ⟨rfl, rfl, ⟨_, rfl, rfl, rfl⟩, _,
    on_run_stop_start exampleEnv false [] noZeroBar
      { dsoDevice (some 1000000) 10000 100000000 with zero := none } rfl rfl rfl
      (Or.inr (by simp)), ?_, ?_, ?_⟩
  · simp [SamplingBar.log]
  · exact (prepared_frame exampleEnv false noZeroBar).2.2.2.1
  · exact (prepared_frame exampleEnv false noZeroBar).2.2.2.2

/-- C13, amended: a start request from idle (not sampling, not repeating).
With no device selected, both slots return without emitting a start request
or any other event, and leave the sampling flag and the session as they
were.  With the oscilloscope ZERO query returning no value the start is not
aborted: after the device writes of `commit_settings` the run slot emits the
run start request and the instant slot the instant start request, both start
controls stay disabled, and the sampling flag and the session are as they
were. -/
theorem C13_start_failures (env : Env) (accept : Bool) (waits : List Wait) (s : SamplingBar)
    (hs : s.sampling = false) (hr : s.session.repeating = false) :
    (s.device = none →
      ∃ r i, on_run_stop env accept waits s = Except.ok r ∧
        on_instant_stop env accept waits s = Except.ok i ∧
        r.trace = s.trace ∧ i.trace = s.trace ∧
        r.sampling = false ∧ i.sampling = false ∧
        r.session = s.session ∧ i.session = s.session) ∧
    (∀ dev, s.device = some dev → dev.mode = DevMode.DSO → dev.zero = none →
      ∃ r i new, on_run_stop env accept waits s = Except.ok r ∧
        on_instant_stop env accept waits s = Except.ok i ∧
        (∀ e ∈ new, ∃ w, e = Event.set_config w) ∧
        r.trace = s.trace ++ new ++ [Event.run_stop] ∧
        i.trace = s.trace ++ new ++ [Event.instant_stop] ∧
        r.run_stop_enabled = false ∧ r.instant_enabled = false ∧
        i.run_stop_enabled = false ∧ i.instant_enabled = false ∧
        r.sampling = false ∧ i.sampling = false ∧
        r.session = s.session ∧ i.session = s.session) := by
  obtain ⟨f1, f2, -, f4, f5⟩ := prepared_frame env false s
  obtain ⟨g1, g2, -, g4, g5⟩ := prepared_frame env true s
  constructor
  · intro hdev
    refine ⟨_, _, on_run_stop_no_device env accept waits s hs hr hdev,
      on_instant_stop_no_device env accept waits s hs hdev, ?_, ?_, f2.trans hs, g2.trans hs,
      f1, g1⟩
    · rw [prepared_no_device env false s hdev]; rfl
    · rw [prepared_no_device env true s hdev]; rfl
  · intro dev hdev _ hz
    have hzz : dev.mode ≠ DevMode.DSO ∨ dev.zero ≠ some true := Or.inr (by rw [hz]; simp)
    obtain ⟨new, ht, hw⟩ := prepared_writes env false s
    have ht' : (prepared env true s).trace = s.trace ++ new := ht
    exact ⟨_, _, new, on_run_stop_start env accept waits s dev hs hr hdev hzz,
      on_instant_stop_start env accept waits s dev hs hdev hzz, hw,
      by simp [SamplingBar.log, ht], by simp [SamplingBar.log, ht'], f4, f5, g4, g5,
      f2.trans hs, g2.trans hs, f1, g1⟩

/-- Instance of C13: the toolbar with no device, and the oscilloscope whose
ZERO query returns no value. -/
theorem C13_witness :
    (∃ r i, on_run_stop exampleEnv false [] initialBar = Except.ok r ∧
        on_instant_stop exampleEnv false [] initialBar = Except.ok i ∧
        r.trace = initialBar.trace ∧ i.trace = initialBar.trace ∧
        r.sampling = false ∧ i.sampling = false ∧
        r.session = initialBar.session ∧ i.session = initialBar.session) ∧
    (∃ r i new, on_run_stop exampleEnv false [] noZeroBar = Except.ok r ∧
        on_instant_stop exampleEnv false [] noZeroBar = Except.ok i ∧
        (∀ e ∈ new, ∃ w, e = Event.set_config w) ∧
        r.trace = noZeroBar.trace ++ new ++ [Event.run_stop] ∧
        i.trace = noZeroBar.trace ++ new ++ [Event.instant_stop] ∧
        r.run_stop_enabled = false ∧ r.instant_enabled = false ∧
        i.run_stop_enabled = false ∧ i.instant_enabled = false ∧
        r.sampling = false ∧ i.sampling = false ∧
        r.session = noZeroBar.session ∧ i.session = noZeroBar.session) :=
  ⟨(C13_start_failures exampleEnv false [] initialBar rfl rfl).1 rfl,
    (C13_start_failures exampleEnv false [] noZeroBar rfl rfl).2
      { dsoDevice (some 1000000) 10000 100000000 with zero := none } rfl rfl rfl⟩

/-- C14 fails as stated.  Between two captures of a repetitive run (not
sampling, repeat flag set) the run slot takes the stop branch and asks the
session to stop, leaving both start controls enabled, while the instant slot
takes the start branch: it disables both start controls and emits the instant
start request, and stops nothing. -/
theorem C14_counterexample :
    repeatingBar.sampling = false ∧ repeatingBar.session.repeating = true ∧
    (∃ r, on_run_stop exampleEnv false [] repeatingBar = Except.ok r ∧
      Event.stop_capture ∈ r.trace ∧ Event.run_stop ∉ r.trace ∧
      r.run_stop_enabled = true ∧ r.instant_enabled = true) ∧
    (∃ i, on_instant_stop exampleEnv false [] repeatingBar = Except.ok i ∧
      Event.instant_stop ∈ i.trace ∧ Event.stop_capture ∉ i.trace ∧
      i.run_stop_enabled = false ∧ i.instant_enabled = false) := by
  obtain ⟨new, ht, hw⟩ := prepared_writes exampleEnv true repeatingBar
  obtain ⟨-, -, -, f4, f5⟩ := prepared_frame exampleEnv true repeatingBar
  refine ⟨rfl, rfl, ⟨_, on_run_stop_stop exampleEnv false [] repeatingBar rfl (Or.inl rfl),
      ?_, ?_, rfl, rfl⟩, _,
    on_instant_stop_start exampleEnv false [] repeatingBar (logicDevice 5800) rfl rfl
      (Or.inl (by decide)), ?_, ?_, f4, f5⟩
  · decide
  · decide
  · simp [SamplingBar.log]
  · simp only [SamplingBar.log]
    rw [ht]
    intro hmem
    rcases List.mem_append.1 hmem with h | h
    · rcases List.mem_append.1 h with h | h
      · simp [repeatingBar, logicBar, initialBar] at h
      · obtain ⟨w, hw'⟩ := hw _ h
        cases hw'
    · simp at h

/-- C14, amended: the instant slot mirrors the run slot except between two
captures of a repetitive run.  While sampling the two slots are the same
function.  While neither sampling nor repeating, unless a pending calibration
is accepted, both return and the instant slot leaves the state the run slot
leaves with the instant flag true instead of false and, in the events issued,
the instant start request in place of the run start request; with a pending
calibration accepted both show the dialog and hand over to `zero_adj` from
states that differ in the instant flag only, and whenever either returns the
run start request of `zero_adj` is among the events issued.  While not
sampling with the repeat flag set they differ: the run slot takes the stop
branch (repeat flag cleared, instant flag and start controls untouched, only
stop events issued) and the instant slot takes the start branch (instant flag
set and repeat flag left set, or the hand-over to `zero_adj`). -/
theorem C14_instant_symmetry (env : Env) (accept : Bool) (waits : List Wait) (s : SamplingBar) :
    (s.sampling = true →
      on_instant_stop env accept waits s = on_run_stop env accept waits s) ∧
    (s.sampling = false → s.session.repeating = false →
      ((accept = false ∨ calibration_pending s = false) →
        ∃ r new, on_run_stop env accept waits s = Except.ok r ∧ r.trace = s.trace ++ new ∧
          r.instant = false ∧
          on_instant_stop env accept waits s =
            Except.ok { r with instant := true, trace := s.trace ++ new.map swapStart }) ∧
      (accept = true → calibration_pending s = true →
        on_run_stop env accept waits s =
          zero_adj env waits ((prepared env false s).log Event.calibration_dialog) ∧
        on_instant_stop env accept waits s =
          zero_adj env waits
            { (prepared env false s).log Event.calibration_dialog with instant := true } ∧
        (prepared env false s).instant = false ∧
        (∀ r, on_run_stop env accept waits s = Except.ok r →
          ∃ new, r.trace = s.trace ++ new ∧ Event.run_stop ∈ new) ∧
        (∀ i, on_instant_stop env accept waits s = Except.ok i →
          ∃ new, i.trace = s.trace ++ new ∧ Event.run_stop ∈ new))) ∧
    (s.sampling = false → s.session.repeating = true →
      ((s.session.run_mode = RunMode.Repetitive ∨ ∃ dev, s.device = some dev) →
        ∃ r, on_run_stop env accept waits s = Except.ok r ∧
          r.session.repeating = false ∧ r.instant = s.instant ∧
          r.run_stop_enabled = s.run_stop_enabled ∧ r.instant_enabled = s.instant_enabled ∧
          (∀ e ∈ r.trace, e ∈ s.trace ∨ e = Event.set_repeating false ∨
            e = Event.stop_capture ∨ e = Event.capture_state_changed_Stopped)) ∧
      ((accept = false ∨ calibration_pending s = false) →
        ∃ i, on_instant_stop env accept waits s = Except.ok i ∧
          i.instant = true ∧ i.session.repeating = true) ∧
      (accept = true → calibration_pending s = true →
        on_instant_stop env accept waits s =
          zero_adj env waits ((prepared env true s).log Event.calibration_dialog))) := by
  refine ⟨stop_branches_equal env accept waits s, ?_, ?_⟩
  · intro hs hr
    refine ⟨start_branches_mirror env accept waits s hs hr, ?_⟩
    intro hacc hp
    subst hacc
    obtain ⟨h1, h2⟩ := start_branches_calibrate env waits s hs hr hp
    obtain ⟨new0, ht0, -⟩ := prepared_writes env false s
    refine ⟨h1, h2, rfl, ?_, ?_⟩
    · intro r h
      rw [h1] at h
      obtain ⟨new, hnew⟩ := (slots_trace env waits).1 _ _ h
      refine ⟨new0 ++ Event.calibration_dialog :: Event.dso_set_enable :: Event.run_stop :: new,
        ?_, by simp⟩
      rw [hnew]
      simp [SamplingBar.log, ht0]
    · intro i h
      rw [h2] at h
      obtain ⟨new, hnew⟩ := (slots_trace env waits).1 _ _ h
      refine ⟨new0 ++ Event.calibration_dialog :: Event.dso_set_enable :: Event.run_stop :: new,
        ?_, by simp⟩
      rw [hnew]
      simp [SamplingBar.log, ht0]
  · intro hs hr
    refine ⟨on_run_stop_repeating env accept waits s hr, ?_, ?_⟩
    · intro hna
      obtain ⟨i, g1, g2, g3⟩ := on_instant_stop_idle env accept waits s hs hna
      exact ⟨i, g1, g2, by rw [g3]; exact hr⟩
    · intro hacc hp
      subst hacc
      obtain ⟨dev, hd, hm, hz⟩ := calibration_pending_true s hp
      exact on_instant_stop_calibrate env waits s dev hs hd hm hz

/-- Instances of C14: a running capture, an idle oscilloscope, an idle
oscilloscope with a pending calibration accepted, and the logic analyzer
between two captures of a repetitive run. -/
theorem C14_witness :
    on_instant_stop exampleEnv false [] armedBar = on_run_stop exampleEnv false [] armedBar ∧
    (∃ r new, on_run_stop exampleEnv false [] (dsoBar 12 1 1) = Except.ok r ∧
      r.trace = (dsoBar 12 1 1).trace ++ new ∧ r.instant = false ∧
      on_instant_stop exampleEnv false [] (dsoBar 12 1 1) =
        Except.ok { r with instant := true,
                           trace := (dsoBar 12 1 1).trace ++ new.map swapStart }) ∧
    (on_run_stop exampleEnv true [⟨false, captureStarts, false⟩] calibratingBar =
        zero_adj exampleEnv [⟨false, captureStarts, false⟩]
          ((prepared exampleEnv false calibratingBar).log Event.calibration_dialog) ∧
      on_instant_stop exampleEnv true [⟨false, captureStarts, false⟩] calibratingBar =
        zero_adj exampleEnv [⟨false, captureStarts, false⟩]
          { (prepared exampleEnv false calibratingBar).log Event.calibration_dialog with
            instant := true } ∧
      (prepared exampleEnv false calibratingBar).instant = false ∧
      (∀ r, on_run_stop exampleEnv true [⟨false, captureStarts, false⟩] calibratingBar =
          Except.ok r →
        ∃ new, r.trace = calibratingBar.trace ++ new ∧ Event.run_stop ∈ new) ∧
      (∀ i, on_instant_stop exampleEnv true [⟨false, captureStarts, false⟩] calibratingBar =
          Except.ok i →
        ∃ new, i.trace = calibratingBar.trace ++ new ∧ Event.run_stop ∈ new)) ∧
    (∃ r, on_run_stop exampleEnv false [] repeatingBar = Except.ok r ∧
      r.session.repeating = false ∧ r.instant = repeatingBar.instant ∧
      r.run_stop_enabled = repeatingBar.run_stop_enabled ∧
      r.instant_enabled = repeatingBar.instant_enabled ∧
      (∀ e ∈ r.trace, e ∈ repeatingBar.trace ∨ e = Event.set_repeating false ∨
        e = Event.stop_capture ∨ e = Event.capture_state_changed_Stopped)) ∧
    (∃ i, on_instant_stop exampleEnv false [] repeatingBar = Except.ok i ∧
      i.instant = true ∧ i.session.repeating = true) :=
  ⟨(C14_instant_symmetry exampleEnv false [] armedBar).1 rfl,
    ((C14_instant_symmetry exampleEnv false [] (dsoBar 12 1 1)).2.1 rfl rfl).1 (Or.inl rfl),
    ((C14_instant_symmetry exampleEnv true [⟨false, captureStarts, false⟩]
      calibratingBar).2.1 rfl rfl).2 rfl rfl,
    ((C14_instant_symmetry exampleEnv false [] repeatingBar).2.2 rfl rfl).1 (Or.inl rfl),
    ((C14_instant_symmetry exampleEnv false [] repeatingBar).2.2 rfl rfl).2.1 (Or.inl rfl)⟩

/-- C16: the ladder loop terminates.  For every mode, every positive sample
rate and every positive start value, repeated decade stepping reaches after
finitely many steps `n ≥ 1` a value below the floor of the mode (10 ns in
oscilloscope mode, `1024 / sampleRate` seconds otherwise), every earlier
stepped value being at or above the floor; the loop then returns, with any
fuel of at least `n`, the ladder of exactly `n` entries. -/
theorem C16_ladder_terminates (mode : DevMode) (samplerate : ℕ) (d : ℚ)
    (hrate : 0 < samplerate) (hd : 0 < d) :
    ∃ (n : ℕ) (L : List ℚ), 0 < n ∧ L.length = n ∧
      (∀ k, ladderLoop mode samplerate (n + k) d = some L) ∧
      (mode = DevMode.DSO → nextDuration^[n] d < 10) ∧
      (mode ≠ DevMode.DSO → nextDuration^[n] d < 1024 / (samplerate : ℚ) * 1000000000) ∧
      ∀ i, 0 < i → i < n →
        (mode = DevMode.DSO → 10 ≤ nextDuration^[i] d) ∧
        (mode ≠ DevMode.DSO → 1024 / (samplerate : ℚ) * 1000000000 ≤ nextDuration^[i] d) := by
  have hs : (0 : ℚ) < samplerate := by exact_mod_cast hrate
  have hdso : ∀ x : ℚ, mode = DevMode.DSO → (notLast mode samplerate x = true ↔ 10 ≤ x) := by
    intro x hm
    simp [notLast, hm, SR_NS]
  have hoth : ∀ x : ℚ, mode ≠ DevMode.DSO →
      (notLast mode samplerate x = true ↔ 1024 / (samplerate : ℚ) * 1000000000 ≤ x) := by
    intro x hm
    simp only [notLast, hm, if_false, decide_eq_true_eq, SR_SEC, SR_KB, ge_iff_le]
    push_cast
    have e1 : x / 1000000000 * (samplerate : ℚ) = x * samplerate / 1000000000 := by ring
    have e2 : 1024 / (samplerate : ℚ) * 1000000000 = 1024 * 1000000000 / samplerate := by ring
    rw [e1, e2, le_div_iff₀ (by norm_num : (0 : ℚ) < 1000000000),
      div_le_iff₀ hs]
  obtain ⟨fuel, L, hL⟩ := ladderLoop_terminates mode samplerate d hd.le
  obtain ⟨h0, h1, h2, h3⟩ := ladderLoop_iterate mode samplerate fuel d L hL
  refine ⟨L.length, L, h0, rfl, ladderLoop_fuel_mono _ _ _ _ _ h1, ?_, ?_, ?_⟩
  · intro hm
    have := (hdso (nextDuration^[L.length] d) hm).not
    rw [h2] at this
    simpa using this
  · intro hm
    have := (hoth (nextDuration^[L.length] d) hm).not
    rw [h2] at this
    simpa using this
  · intro i hi hlt
    exact ⟨fun hm => (hdso _ hm).1 (h3 i hi hlt), fun hm => (hoth _ hm).1 (h3 i hi hlt)⟩

/-- Instance of C16: a logic analyzer at 1 Hz, starting from 5800 s. -/
theorem C16_witness :
    0 < 1 ∧ (0 : ℚ) < 5800000000000 ∧
    ∃ (n : ℕ) (L : List ℚ), 0 < n ∧ L.length = n ∧
      (∀ k, ladderLoop DevMode.LOGIC 1 (n + k) 5800000000000 = some L) ∧
      (DevMode.LOGIC = DevMode.DSO → nextDuration^[n] 5800000000000 < 10) ∧
      (DevMode.LOGIC ≠ DevMode.DSO →
        nextDuration^[n] 5800000000000 < 1024 / ((1 : ℕ) : ℚ) * 1000000000) ∧
      ∀ i, 0 < i → i < n →
        (DevMode.LOGIC = DevMode.DSO → 10 ≤ nextDuration^[i] 5800000000000) ∧
        (DevMode.LOGIC ≠ DevMode.DSO →
          1024 / ((1 : ℕ) : ℚ) * 1000000000 ≤ nextDuration^[i] 5800000000000) :=
  ⟨by decide, by norm_num,
    C16_ladder_terminates DevMode.LOGIC 1 5800000000000 (by decide) (by norm_num)⟩

end DSView
